import Mathlib

/-!
# Credential subsystem of recontronic-server

A shallow embedding of `pkg/auth/apikey.go`, `internal/repository/user_repository.go`,
`internal/services/auth_service.go`, `internal/middleware/auth.go`, the JSON shape of
`internal/models/user.go` and the login and key-listing handlers of
`internal/handlers/auth_handler.go`, with the properties of the credential
specification proved about it.

Conventions of the embedding:

* a Go string that the code slices, decodes or hashes is the list of its bytes; a Go
  string that the code only copies and compares is a Lean string;
* an `error` is its message (`err.Error()`), so wrapping with `%w` is concatenation;
* the relational store is a value `Db` holding the two tables, the id sequences, a
  script of driver failures still to come, the log of repository calls made and what
  the schema, which is not part of the sources at hand, declares unique in `users`;
* what a call draws from its surroundings (the clock, the random source, the password
  hasher, which is not part of the sources at hand) is a field of `Env`.
-/

namespace Recontronic

/-- A Go string (or byte slice): the sequence of its bytes, each a value below 256. -/
abbrev Bytes := List Nat

/-- The bytes of an ASCII string literal. -/
def ascii (s : String) : Bytes := s.toList.map Char.toNat

/-- Alphabet of base64.URLEncoding. -/
def encodeURL : Bytes :=
  ascii "ABCDEFGHIJKLMNOPQRSTUVWXYZabcdefghijklmnopqrstuvwxyz0123456789-_"

/-- Alphabet of base64.StdEncoding. -/
def encodeStd : Bytes :=
  ascii "ABCDEFGHIJKLMNOPQRSTUVWXYZabcdefghijklmnopqrstuvwxyz0123456789+/"

/-- The character for a 6-bit value: enc.encode[v]. -/
def encChar (alphabet : Bytes) (v : Nat) : Nat := alphabet.getD v 0

/-- The decode map of an encoding: the 6-bit value of a character, none standing for 0xff. -/
def decChar (alphabet : Bytes) (c : Nat) : Option Nat :=
  if alphabet.indexOf c < alphabet.length then some (alphabet.indexOf c) else none

/-- Encoding.EncodeToString of an unpadded encoding: three bytes give four characters, a
remainder of one byte two characters and a remainder of two bytes three. -/
def encodeToString (alphabet : Bytes) : Bytes → Bytes
  | a :: b :: c :: rest =>
    let val := a * 65536 + b * 256 + c
    encChar alphabet (val / 262144 % 64) :: encChar alphabet (val / 4096 % 64) ::
      encChar alphabet (val / 64 % 64) :: encChar alphabet (val % 64) ::
      encodeToString alphabet rest
  | [a, b] =>
    let val := a * 65536 + b * 256
    [encChar alphabet (val / 262144 % 64), encChar alphabet (val / 4096 % 64),
      encChar alphabet (val / 64 % 64)]
  | [a] =>
    let val := a * 65536
    [encChar alphabet (val / 262144 % 64), encChar alphabet (val / 4096 % 64)]
  | [] => []

/-- The bytes of one quantum of decoded 6-bit values (Encoding.decodeQuantum, not strict:
the unused low bits of a short last quantum are dropped unchecked); a single left-over
character is corrupt input. -/
def quantumBytes : List Nat → Option Bytes
  | [] => some []
  | [a, b] => some [(a * 262144 + b * 4096) / 65536 % 256]
  | [a, b, c] =>
    let val := a * 262144 + b * 4096 + c * 64
    some [val / 65536 % 256, val / 256 % 256]
  | [a, b, c, d] =>
    let val := a * 262144 + b * 4096 + c * 64 + d
    some [val / 65536 % 256, val / 256 % 256, val % 256]
  | _ => none

/-- Encoding.DecodeString of an unpadded, non-strict encoding, reading the source left to
right with the quantum collected so far in dbuf: a character of the alphabet is added to
the quantum, a new line or carriage return is skipped, any other byte is corrupt input. -/
def decodeFrom (alphabet : Bytes) : Bytes → List Nat → Option Bytes
  | [], dbuf => quantumBytes dbuf
  | c :: src, dbuf =>
    match decChar alphabet c with
    | some v =>
      if dbuf.length = 3 then
        match quantumBytes (dbuf ++ [v]), decodeFrom alphabet src [] with
        | some q, some r => some (q ++ r)
        | _, _ => none
      else decodeFrom alphabet src (dbuf ++ [v])
    | none => if c = 10 ∨ c = 13 then decodeFrom alphabet src dbuf else none

/-- Encoding.DecodeString. -/
def decodeString (alphabet : Bytes) (s : Bytes) : Option Bytes := decodeFrom alphabet s []

/-! SHA-256 (FIPS 180-4), on 32-bit words held as natural numbers. -/

/-- Rotation of a 32-bit word to the right by n bits. -/
def rotr (x n : Nat) : Nat := (x >>> n ||| x <<< (32 - n)) % 4294967296

/-- The 64 round constants, in decimal: the first 32 bits of the fractional parts of the
cube roots of the first 64 primes. -/
def sha256K : List Nat :=
  [
    1116352408, 1899447441, 3049323471, 3921009573, 961987163, 1508970993,
    2453635748, 2870763221, 3624381080, 310598401, 607225278, 1426881987,
    1925078388, 2162078206, 2614888103, 3248222580, 3835390401, 4022224774,
    264347078, 604807628, 770255983, 1249150122, 1555081692, 1996064986,
    2554220882, 2821834349, 2952996808, 3210313671, 3336571891, 3584528711,
    113926993, 338241895, 666307205, 773529912, 1294757372, 1396182291,
    1695183700, 1986661051, 2177026350, 2456956037, 2730485921, 2820302411,
    3259730800, 3345764771, 3516065817, 3600352804, 4094571909, 275423344,
    430227734, 506948616, 659060556, 883997877, 958139571, 1322822218,
    1537002063, 1747873779, 1955562222, 2024104815, 2227730452, 2361852424,
    2428436474, 2756734187, 3204031479, 3329325298
  ]

/-- The initial hash value, in decimal. -/
def sha256Init : List Nat :=
  [
    1779033703, 3144134277, 1013904242, 2773480762,
    1359893119, 2600822924, 528734635, 1541459225
  ]

/-- The message followed by the bit 1, zero bytes up to 56 modulo 64, and the bit length
as a 64-bit big-endian number. -/
def sha256Pad (msg : Bytes) : Bytes :=
  let bits := 8 * msg.length
  msg ++ [128] ++ List.replicate ((119 - msg.length % 64) % 64) 0 ++
    (List.range 8).map (fun i => bits / 256 ^ (7 - i) % 256)

/-- Big-endian 32-bit words of a byte sequence. -/
def toWords : Bytes → List Nat
  | a :: b :: c :: d :: rest => (a * 16777216 + b * 65536 + c * 256 + d) :: toWords rest
  | _ => []

/-- Extends the message schedule by n words; w holds the schedule so far, newest first. -/
def sha256Schedule : Nat → List Nat → List Nat
  | 0, w => w
  | n + 1, w =>
    let w2 := w.getD 1 0
    let w7 := w.getD 6 0
    let w15 := w.getD 14 0
    let w16 := w.getD 15 0
    let s0 := rotr w15 7 ^^^ rotr w15 18 ^^^ (w15 >>> 3)
    let s1 := rotr w2 17 ^^^ rotr w2 19 ^^^ (w2 >>> 10)
    sha256Schedule n (((w16 + s0 + w7 + s1) % 4294967296) :: w)

/-- One round of the compression function on the working variables a to h. -/
def sha256Round (st : List Nat) (kw : Nat × Nat) : List Nat :=
  match st with
  | [a, b, c, d, e, f, g, h] =>
    let s1 := rotr e 6 ^^^ rotr e 11 ^^^ rotr e 25
    let ch := (e &&& f) ^^^ ((4294967295 - e) &&& g)
    let t1 := (h + s1 + ch + kw.1 + kw.2) % 4294967296
    let s0 := rotr a 2 ^^^ rotr a 13 ^^^ rotr a 22
    let maj := (a &&& b) ^^^ (a &&& c) ^^^ (b &&& c)
    let t2 := (s0 + maj) % 4294967296
    [(t1 + t2) % 4294967296, a, b, c, (d + t1) % 4294967296, e, f, g]
  | _ => st

/-- Compression of one 16-word block into the hash state. -/
def sha256Block (h : List Nat) (block : List Nat) : List Nat :=
  let w := (sha256Schedule 48 block.reverse).reverse
  let st := (sha256K.zip w).foldl sha256Round h
  List.zipWith (fun x y => (x + y) % 4294967296) h st

/-- Hash state after all 16-word blocks of the word sequence, at most n of them. -/
def sha256Blocks : Nat → List Nat → List Nat → List Nat
  | 0, h, _ => h
  | n + 1, h, ws => if ws.length < 16 then h else sha256Blocks n (sha256Block h (ws.take 16)) (ws.drop 16)

/-- The function sha256.Sum256: the 32 bytes of the SHA-256 digest. -/
def sha256 (msg : Bytes) : Bytes :=
  let ws := toWords (sha256Pad msg)
  (sha256Blocks ws.length sha256Init ws).flatMap
    (fun x => [x / 16777216 % 256, x / 65536 % 256, x / 256 % 256, x % 256])

/-! ## pkg/auth/apikey.go -/

/-- The constant apiKeyPrefix. -/
def apiKeyPrefix : Bytes := ascii "rct_"

/-- The constant apiKeyLength, in bytes. -/
def apiKeyLength : Nat := 32

/-- HashAPIKey: the unpadded standard base64 of the SHA-256 digest of the key. -/
def HashAPIKey (apiKey : Bytes) : Bytes := encodeToString encodeStd (sha256 apiKey)

/-- The function extractPrefix: the first 12 bytes of the key, or the whole key when it is
shorter. -/
def extractPrefix (apiKey : Bytes) : Bytes :=
  if apiKey.length < apiKeyPrefix.length + 8 then apiKey
  else apiKey.take (apiKeyPrefix.length + 8)

/-- GenerateAPIKey, given what rand.Read put into the 32-byte buffer (or its error):
returns plainKey, hash and display prefix. -/
def GenerateAPIKey (randRead : Except String Bytes) : Except String (Bytes × Bytes × Bytes) :=
  match randRead with
  | .error e => .error ("failed to generate random bytes: " ++ e)
  | .ok randomBytes =>
    let encodedKey := encodeToString encodeURL randomBytes
    let plainKey := apiKeyPrefix ++ encodedKey
    .ok (plainKey, HashAPIKey plainKey, extractPrefix plainKey)

/-- ValidateAPIKeyFormat: the literal prefix, then unpadded URL-safe base64 of exactly
apiKeyLength bytes. -/
def ValidateAPIKeyFormat (apiKey : Bytes) : Bool :=
  if !(apiKeyPrefix.isPrefixOf apiKey) then false
  else
    let encodedPart := apiKey.drop apiKeyPrefix.length
    match decodeString encodeURL encodedPart with
    | none => false
    | some decoded => decoded.length == apiKeyLength

/-- MaskAPIKey: the display prefix, three dots and the last four bytes of the key; the
slice apiKey[len(apiKey)-4:] panics on a key shorter than four bytes, which is none. -/
def MaskAPIKey (apiKey : Bytes) : Option Bytes :=
  if apiKey.length < 4 then none
  else some (extractPrefix apiKey ++ ascii "..." ++ apiKey.drop (apiKey.length - 4))

/-! ## internal/models/user.go -/

/-- An instant (time.Time), as a count of nanoseconds. -/
abbrev Time := Int

/-- The struct models.User. -/
structure User where
  ID : Int
  Username : String
  Email : String
  PasswordHash : String
  IsActive : Bool
  CreatedAt : Time
  UpdatedAt : Time
deriving DecidableEq, Repr

/-- The struct models.APIKey. -/
structure APIKey where
  ID : Int
  UserID : Int
  Name : String
  KeyHash : Bytes
  KeyPrefix : Bytes
  LastUsedAt : Option Time
  ExpiresAt : Option Time
  IsActive : Bool
  CreatedAt : Time
deriving DecidableEq, Repr

/-- The struct models.CreateUserRequest. -/
structure CreateUserRequest where
  Username : String
  Email : String
  Password : String
deriving DecidableEq, Repr

/-- The struct models.LoginRequest. -/
structure LoginRequest where
  Username : String
  Password : String
deriving DecidableEq, Repr

/-- The struct models.LoginResponse. -/
structure LoginResponse where
  User : User
  APIKey : Bytes
  KeyID : Int
  Message : String
deriving DecidableEq, Repr

/-- The struct models.CreateAPIKeyRequest. -/
structure CreateAPIKeyRequest where
  Name : String
  ExpiresAt : Option Time
deriving DecidableEq, Repr

/-- The struct models.CreateAPIKeyResponse. -/
structure CreateAPIKeyResponse where
  APIKey : APIKey
  PlainKey : Bytes
deriving DecidableEq, Repr

/-- The struct models.ListAPIKeysResponse. -/
structure ListAPIKeysResponse where
  APIKeys : List APIKey
  Total : Nat
deriving DecidableEq, Repr

/-- A JSON value, as far as the credential responses need one. -/
inductive Json where
  | null
  | bool (b : Bool)
  | num (n : Int)
  | str (s : String)
  | bytes (s : Bytes)
  | time (t : Time)
deriving DecidableEq, Repr

/-- The JSON object encoding/json writes for a models.APIKey, field by field after the
struct tags: KeyHash is tagged "-" and never written, expires_at is left out when nil. -/
def APIKey.toJSON (k : APIKey) : List (String × Json) :=
  [("id", Json.num k.ID), ("user_id", Json.num k.UserID), ("name", Json.str k.Name),
    ("key_prefix", Json.bytes k.KeyPrefix),
    ("last_used_at", match k.LastUsedAt with | none => Json.null | some t => Json.time t)] ++
  (match k.ExpiresAt with | none => [] | some t => [("expires_at", Json.time t)]) ++
  [("is_active", Json.bool k.IsActive), ("created_at", Json.time k.CreatedAt)]

/-! ## The relational store -/

/-- A call of a UserRepository method, with its arguments. -/
inductive StoreCall where
  | createUser (user : User)
  | getUserByID (id : Int)
  | getUserByUsername (username : String)
  | getUserByEmail (email : String)
  | createAPIKey (apiKey : APIKey)
  | getAPIKeyByHash (keyHash : Bytes)
  | updateAPIKeyLastUsed (keyID : Int)
  | listAPIKeysByUserID (userID : Int)
  | revokeAPIKey (keyID userID : Int)
deriving DecidableEq, Repr

/-- The database behind sql.DB: the rows of users and api_keys in insertion order, the
next value of each id sequence, the script of driver outcomes still to come (the entry
taken by an interaction makes it fail with that error when it holds one; an exhausted
script means no failure), the repository calls made so far, and what the schema of the
table users, which is not among the sources, declares for username and email: none when
it declares no uniqueness, the driver's error for a violating INSERT when it declares
both columns unique. -/
structure Db where
  users : List User
  apiKeys : List APIKey
  userSeq : Int
  keySeq : Int
  faults : List (Option String)
  log : List StoreCall
  usersUnique : Option String
deriving DecidableEq, Repr

/-- One interaction with the driver: its scripted failure, if any, and the rest of the
script. -/
def Db.interact (db : Db) : Option String × Db :=
  (db.faults.head?.join, { db with faults := db.faults.tail })

/-- Entry of a repository call into the call log. -/
def Db.record (db : Db) (c : StoreCall) : Db := { db with log := db.log ++ [c] }

/-- The error of the driver for the INSERT of a user, when the schema declares username
and email unique and a row with the username or with the email is in the table. -/
def Db.uniqueViolation (db : Db) (user : User) : Option String :=
  if db.users.any (fun u => u.Username == user.Username || u.Email == user.Email) then
    db.usersUnique
  else none

namespace UserRepository

/-- UserRepository.CreateUser: INSERT INTO users ... RETURNING id; the id comes from the
sequence and is written back into the user. An INSERT that violates a uniqueness
constraint of the schema fails with the driver's error and inserts no row; the value it
took from the sequence is spent, as PostgreSQL takes it before it checks the
constraint. -/
def CreateUser (db : Db) (user : User) : Except String User × Db :=
  let (err, db) := (db.record (.createUser user)).interact
  match err with
  | some e => (.error ("failed to create user: " ++ e), db)
  | none =>
    match db.uniqueViolation user with
    | some e => (.error ("failed to create user: " ++ e), { db with userSeq := db.userSeq + 1 })
    | none =>
      let user := { user with ID := db.userSeq }
      (.ok user, { db with users := db.users ++ [user], userSeq := db.userSeq + 1 })

/-- UserRepository.GetUserByID: SELECT ... FROM users WHERE id = $1. -/
def GetUserByID (db : Db) (id : Int) : Except String User × Db :=
  let (err, db) := (db.record (.getUserByID id)).interact
  match err with
  | some e => (.error ("failed to get user: " ++ e), db)
  | none =>
    match db.users.find? (fun u => u.ID == id) with
    | none => (.error "user not found", db)
    | some user => (.ok user, db)

/-- UserRepository.GetUserByUsername: SELECT ... FROM users WHERE username = $1. -/
def GetUserByUsername (db : Db) (username : String) : Except String User × Db :=
  let (err, db) := (db.record (.getUserByUsername username)).interact
  match err with
  | some e => (.error ("failed to get user: " ++ e), db)
  | none =>
    match db.users.find? (fun u => u.Username == username) with
    | none => (.error "user not found", db)
    | some user => (.ok user, db)

/-- UserRepository.GetUserByEmail: SELECT ... FROM users WHERE email = $1. -/
def GetUserByEmail (db : Db) (email : String) : Except String User × Db :=
  let (err, db) := (db.record (.getUserByEmail email)).interact
  match err with
  | some e => (.error ("failed to get user: " ++ e), db)
  | none =>
    match db.users.find? (fun u => u.Email == email) with
    | none => (.error "user not found", db)
    | some user => (.ok user, db)

/-- UserRepository.CreateAPIKey: INSERT INTO api_keys (user_id, name, key_hash,
key_prefix, expires_at, is_active, created_at) ... RETURNING id; last_used_at is not
among the inserted columns and starts out NULL. -/
def CreateAPIKey (db : Db) (apiKey : APIKey) : Except String APIKey × Db :=
  let (err, db) := (db.record (.createAPIKey apiKey)).interact
  match err with
  | some e => (.error ("failed to create API key: " ++ e), db)
  | none =>
    let apiKey := { apiKey with ID := db.keySeq }
    (.ok apiKey,
      { db with apiKeys := db.apiKeys ++ [{ apiKey with LastUsedAt := none }],
                keySeq := db.keySeq + 1 })

/-- UserRepository.GetAPIKeyByHash: SELECT ... FROM api_keys WHERE key_hash = $1 AND
is_active = true, then the expiry check against time.Now(). -/
def GetAPIKeyByHash (db : Db) (now : Time) (keyHash : Bytes) : Except String APIKey × Db :=
  let (err, db) := (db.record (.getAPIKeyByHash keyHash)).interact
  match err with
  | some e => (.error ("failed to get API key: " ++ e), db)
  | none =>
    match db.apiKeys.find? (fun k => k.KeyHash == keyHash && k.IsActive) with
    | none => (.error "API key not found or inactive", db)
    | some apiKey =>
      match apiKey.ExpiresAt with
      | some t => if t < now then (.error "API key has expired", db) else (.ok apiKey, db)
      | none => (.ok apiKey, db)

/-- UserRepository.UpdateAPIKeyLastUsed: UPDATE api_keys SET last_used_at = $1 WHERE
id = $2, with $1 = time.Now(). -/
def UpdateAPIKeyLastUsed (db : Db) (now : Time) (keyID : Int) : Except String Unit × Db :=
  let (err, db) := (db.record (.updateAPIKeyLastUsed keyID)).interact
  match err with
  | some e => (.error ("failed to update API key last used: " ++ e), db)
  | none =>
    (.ok (),
      { db with apiKeys :=
          db.apiKeys.map (fun k => if k.ID = keyID then { k with LastUsedAt := some now } else k) })

/-- The rows.Next / rows.Scan loop of ListAPIKeysByUserID: every rows.Next() is an
interaction with the driver, the one that finds no further row included; when it fails it
returns false and the loop ends as after the last row, and as rows.Err() is never
consulted the rows read so far are returned with no error. Scan converts the row that
Next fetched and does not fail on a row of the table. -/
def scanRows : List APIKey → Db → List APIKey → Except String (List APIKey) × Db
  | [], db, apiKeys => (.ok apiKeys, db.interact.2)
  | row :: rows, db, apiKeys =>
    match db.interact with
    | (some _, db) => (.ok apiKeys, db)
    | (none, db) => scanRows rows db (apiKeys ++ [row])

/-- UserRepository.ListAPIKeysByUserID: SELECT ... FROM api_keys WHERE user_id = $1
ORDER BY created_at DESC (rows of equal created_at in table order). -/
def ListAPIKeysByUserID (db : Db) (userID : Int) : Except String (List APIKey) × Db :=
  let (err, db) := (db.record (.listAPIKeysByUserID userID)).interact
  match err with
  | some e => (.error ("failed to list API keys: " ++ e), db)
  | none =>
    scanRows
      ((db.apiKeys.filter (fun k => k.UserID == userID)).insertionSort
        (fun a b => a.CreatedAt ≥ b.CreatedAt))
      db []

/-- UserRepository.RevokeAPIKey: UPDATE api_keys SET is_active = false WHERE id = $1 AND
user_id = $2; RowsAffected counts the rows the WHERE clause matched. -/
def RevokeAPIKey (db : Db) (keyID userID : Int) : Except String Unit × Db :=
  let (err, db) := (db.record (.revokeAPIKey keyID userID)).interact
  match err with
  | some e => (.error ("failed to revoke API key: " ++ e), db)
  | none =>
    let rowsAffected := (db.apiKeys.filter (fun k => k.ID == keyID && k.UserID == userID)).length
    let db := { db with apiKeys := db.apiKeys.map (fun (k : APIKey) =>
      if k.ID = keyID ∧ k.UserID = userID then { k with IsActive := false } else k) }
    match db.interact with
    | (some e, db) => (.error ("failed to check rows affected: " ++ e), db)
    | (none, db) =>
      if rowsAffected = 0 then (.error "API key not found or not owned by user", db)
      else (.ok (), db)

end UserRepository

/-! ## internal/services/auth_service.go -/

/-- What one call of the service takes from outside the store: the password hasher of
pkg/auth (auth.HashPassword and auth.VerifyPassword, whose file is not among the
sources), the buffer rand.Read fills for GenerateAPIKey, the successive readings of
time.Now() and the rendering of Time.Format("2006-01-02 15:04:05"). -/
structure Env where
  HashPassword : String → Except String String
  VerifyPassword : String → String → Except String Bool
  randRead : Except String Bytes
  now : Nat → Time
  format : Time → String

namespace AuthService

/-- AuthService.Register. -/
def Register (env : Env) (db : Db) (req : CreateUserRequest) : Except String User × Db :=
  match UserRepository.GetUserByUsername db req.Username with
  | (.ok _, db) => (.error "username already exists", db)
  | (.error _, db) =>
    match UserRepository.GetUserByEmail db req.Email with
    | (.ok _, db) => (.error "email already exists", db)
    | (.error _, db) =>
      match env.HashPassword req.Password with
      | .error e => (.error ("failed to hash password: " ++ e), db)
      | .ok passwordHash =>
        let now := env.now 0
        let user : User :=
          { ID := 0, Username := req.Username, Email := req.Email,
            PasswordHash := passwordHash, IsActive := true, CreatedAt := now,
            UpdatedAt := now }
        match UserRepository.CreateUser db user with
        | (.error e, db) => (.error ("failed to create user: " ++ e), db)
        | (.ok user, db) => (.ok user, db)

/-- AuthService.Login. -/
def Login (env : Env) (db : Db) (req : LoginRequest) : Except String LoginResponse × Db :=
  match UserRepository.GetUserByUsername db req.Username with
  | (.error _, db) => (.error "invalid credentials", db)
  | (.ok user, db) =>
    if !user.IsActive then (.error "user account is inactive", db)
    else
      match env.VerifyPassword req.Password user.PasswordHash with
      | .error e => (.error ("authentication failed: " ++ e), db)
      | .ok valid =>
        if !valid then (.error "invalid credentials", db)
        else
          match GenerateAPIKey env.randRead with
          | .error e => (.error ("failed to generate API key: " ++ e), db)
          | .ok (plainKey, keyHash, keyPrefix) =>
            let apiKey : APIKey :=
              { ID := 0, UserID := user.ID, Name := "Login " ++ env.format (env.now 0),
                KeyHash := keyHash, KeyPrefix := keyPrefix, LastUsedAt := none,
                ExpiresAt := none, IsActive := true, CreatedAt := env.now 1 }
            match UserRepository.CreateAPIKey db apiKey with
            | (.error e, db) => (.error ("failed to create API key: " ++ e), db)
            | (.ok apiKey, db) =>
              (.ok { User := user, APIKey := plainKey, KeyID := apiKey.ID,
                     Message := "Authentication successful" }, db)

/-- AuthService.ValidateAPIKey, up to its return: the result, the store, and the ids of
the keys whose last-used update was handed to a goroutine (it runs after the return, as
UserRepository.UpdateAPIKeyLastUsed, and its outcome is discarded). -/
def ValidateAPIKey (env : Env) (db : Db) (plainKey : Bytes) :
    Except String User × Db × List Int :=
  if !ValidateAPIKeyFormat plainKey then (.error "invalid API key format", db, [])
  else
    let keyHash := HashAPIKey plainKey
    match UserRepository.GetAPIKeyByHash db (env.now 0) keyHash with
    | (.error _, db) => (.error "invalid API key", db, [])
    | (.ok apiKey, db) =>
      match UserRepository.GetUserByID db apiKey.UserID with
      | (.error e, db) => (.error ("user not found: " ++ e), db, [])
      | (.ok user, db) =>
        if !user.IsActive then (.error "user account is inactive", db, [])
        else (.ok user, db, [apiKey.ID])

/-- AuthService.CreateAPIKey. -/
def CreateAPIKey (env : Env) (db : Db) (userID : Int) (req : CreateAPIKeyRequest) :
    Except String CreateAPIKeyResponse × Db :=
  match UserRepository.GetUserByID db userID with
  | (.error e, db) => (.error ("user not found: " ++ e), db)
  | (.ok _, db) =>
    match GenerateAPIKey env.randRead with
    | .error e => (.error ("failed to generate API key: " ++ e), db)
    | .ok (plainKey, keyHash, keyPrefix) =>
      let apiKey : APIKey :=
        { ID := 0, UserID := userID, Name := req.Name, KeyHash := keyHash,
          KeyPrefix := keyPrefix, LastUsedAt := none, ExpiresAt := req.ExpiresAt,
          IsActive := true, CreatedAt := env.now 0 }
      match UserRepository.CreateAPIKey db apiKey with
      | (.error e, db) => (.error ("failed to create API key: " ++ e), db)
      | (.ok apiKey, db) => (.ok { APIKey := apiKey, PlainKey := plainKey }, db)

/-- AuthService.ListAPIKeys. -/
def ListAPIKeys (db : Db) (userID : Int) : Except String ListAPIKeysResponse × Db :=
  match UserRepository.ListAPIKeysByUserID db userID with
  | (.error e, db) => (.error ("failed to list API keys: " ++ e), db)
  | (.ok apiKeys, db) => (.ok { APIKeys := apiKeys, Total := apiKeys.length }, db)

/-- AuthService.RevokeAPIKey. -/
def RevokeAPIKey (db : Db) (userID keyID : Int) : Except String Unit × Db :=
  match UserRepository.RevokeAPIKey db keyID userID with
  | (.error e, db) => (.error ("failed to revoke API key: " ++ e), db)
  | (.ok _, db) => (.ok (), db)

end AuthService

/-! ## Sequences of calls -/

/-- A call that reaches the store: one of the six service operations, or the last-used
update that a goroutine of ValidateAPIKey performs on its own. -/
inductive Op where
  | register (env : Env) (req : CreateUserRequest)
  | login (env : Env) (req : LoginRequest)
  | validateAPIKey (env : Env) (plainKey : Bytes)
  | updateLastUsed (now : Time) (keyID : Int)
  | createAPIKey (env : Env) (userID : Int) (req : CreateAPIKeyRequest)
  | listAPIKeys (userID : Int)
  | revokeAPIKey (userID keyID : Int)

/-- The store a call leaves behind. -/
def Op.run (db : Db) : Op → Db
  | .register env req => (AuthService.Register env db req).2
  | .login env req => (AuthService.Login env db req).2
  | .validateAPIKey env plainKey => (AuthService.ValidateAPIKey env db plainKey).2.1
  | .updateLastUsed now keyID => (UserRepository.UpdateAPIKeyLastUsed db now keyID).2
  | .createAPIKey env userID req => (AuthService.CreateAPIKey env db userID req).2
  | .listAPIKeys userID => (AuthService.ListAPIKeys db userID).2
  | .revokeAPIKey userID keyID => (AuthService.RevokeAPIKey db userID keyID).2

/-- The lookup hash of the key a call generates, for the calls that generate one and
whose random source delivers. -/
def Op.issuedHash : Op → Option Bytes
  | .login env _ | .createAPIKey env _ _ =>
    match env.randRead with
    | .ok randomBytes => some (HashAPIKey (apiKeyPrefix ++ encodeToString encodeURL randomBytes))
    | .error _ => none
  | _ => none

/-! ## internal/handlers/auth_handler.go -/

/-- The body of a response of the authentication handlers: respondError writes the JSON
object whose single member "error" is the message; respondJSON writes the encoding of
its argument, for a LoginResponse kept as the struct, for a ListAPIKeysResponse the
object with the members "api_keys" (every key as APIKey.toJSON gives it) and "total". -/
inductive HttpBody where
  | error (message : String)
  | login (resp : LoginResponse)
  | apiKeys (apiKeys : List (List (String × Json))) (total : Nat)
deriving DecidableEq, Repr

/-- Status code and body written to the http.ResponseWriter. -/
structure HttpResponse where
  status : Nat
  body : HttpBody
deriving DecidableEq, Repr

namespace AuthHandler

/-- AuthHandler.Login; the request body is given as json.Decode leaves it, none when
decoding fails. -/
def Login (env : Env) (db : Db) (body : Option LoginRequest) : HttpResponse × Db :=
  match body with
  | none => ({ status := 400, body := .error "invalid request body" }, db)
  | some req =>
    match AuthService.Login env db req with
    | (.error e, db) => ({ status := 401, body := .error e }, db)
    | (.ok loginResp, db) => ({ status := 200, body := .login loginResp }, db)

/-- AuthHandler.ListAPIKeys; user is what middleware.GetUserFromContext finds in the
request context, none when no principal is bound. -/
def ListAPIKeys (db : Db) (user : Option User) : HttpResponse × Db :=
  match user with
  | none => ({ status := 401, body := .error "unauthorized" }, db)
  | some user =>
    match AuthService.ListAPIKeys db user.ID with
    | (.error e, db) => ({ status := 500, body := .error e }, db)
    | (.ok resp, db) =>
      ({ status := 200, body := .apiKeys (resp.APIKeys.map APIKey.toJSON) resp.Total }, db)

end AuthHandler

/-! ## Predicates on stores -/

deriving instance DecidableEq for Except

/-- The store answers every call: no driver failure is scripted. -/
def Db.Healthy (db : Db) : Prop := db.faults = []

instance (db : Db) : Decidable db.Healthy := by unfold Db.Healthy; infer_instance

/-- Every record in the key table after a call either was there before with the same
hash and, if now active, was active before, or carries the hash of the key the call
generated. -/
def KeysFrom (db db2 : Db) (issued : Option Bytes) : Prop :=
  ∀ k ∈ db2.apiKeys,
    (∃ k0 ∈ db.apiKeys, k0.KeyHash = k.KeyHash ∧ (k.IsActive = true → k0.IsActive = true)) ∨
    issued = some k.KeyHash

/-- No active record of the key table carries the hash. -/
def NoActiveKey (h : Bytes) (db : Db) : Prop :=
  ∀ k ∈ db.apiKeys, k.KeyHash = h → k.IsActive = false

/-! ## Sample data -/

/-- A sample environment: a stand-in password hasher that tags the password, the random
buffer 0, 1, ..., 31 and a clock standing at instant 1000. -/
def sampleEnv : Env :=
  { HashPassword := fun p => .ok ("$argon2id$" ++ p)
    VerifyPassword := fun p h => .ok (h == "$argon2id$" ++ p)
    randRead := .ok (List.range 32)
    now := fun _ => 1000
    format := fun _ => "2025-01-01 00:00:00" }

/-- The key GenerateAPIKey builds from the random buffer 0, 1, ..., 31. -/
def sampleKey : Bytes := apiKeyPrefix ++ encodeToString encodeURL (List.range 32)

/-- The key built from the random buffer of 32 bytes 7. -/
def firstKey : Bytes := apiKeyPrefix ++ encodeToString encodeURL (List.replicate 32 7)

/-- The key built from the random buffer of 32 bytes 9. -/
def expiredKey : Bytes := apiKeyPrefix ++ encodeToString encodeURL (List.replicate 32 9)

/-- The active account alice. -/
def alice : User :=
  { ID := 1, Username := "alice", Email := "a@x.com", PasswordHash := "$argon2id$Sup3rSecret!",
    IsActive := true, CreatedAt := 10, UpdatedAt := 10 }

/-- The deactivated account bob. -/
def bob : User :=
  { ID := 2, Username := "bob", Email := "b@x.com", PasswordHash := "$argon2id$hunter22",
    IsActive := false, CreatedAt := 11, UpdatedAt := 12 }

/-- A sample store that answers every call: the accounts alice and bob; alice owns key 1
(firstKey, no expiry) and key 2 (expiredKey, expired at instant 500 and still flagged
active), bob owns the revoked key 3. -/
def sampleDb : Db :=
  { users := [alice, bob]
    apiKeys :=
      [{ ID := 1, UserID := 1, Name := "Login 2024-12-01 08:00:00", KeyHash := HashAPIKey firstKey,
         KeyPrefix := extractPrefix firstKey, LastUsedAt := some 40, ExpiresAt := none,
         IsActive := true, CreatedAt := 20 },
       { ID := 2, UserID := 1, Name := "CI/CD Pipeline", KeyHash := HashAPIKey expiredKey,
         KeyPrefix := extractPrefix expiredKey, LastUsedAt := none, ExpiresAt := some 500,
         IsActive := true, CreatedAt := 30 },
       { ID := 3, UserID := 2, Name := "My Laptop", KeyHash := HashAPIKey (ascii "rct_bob"),
         KeyPrefix := ascii "rct_bob", LastUsedAt := none, ExpiresAt := none,
         IsActive := false, CreatedAt := 25 }]
    userSeq := 3, keySeq := 4, faults := [], log := [],
    usersUnique := some "pq: duplicate key value violates unique constraint" }

/-- A store without accounts and keys that answers every call. -/
def emptyDb : Db :=
  { users := [], apiKeys := [], userSeq := 1, keySeq := 1, faults := [], log := [],
    usersUnique := some "pq: duplicate key value violates unique constraint" }

/-! ## internal/middleware/auth.go -/

/-- A key of a context value. Go compares keys together with their type, so a key of the
type middleware.ContextKey is told apart from a key of any other type, whatever its
text. -/
inductive CtxKey where
  | contextKey (name : String)
  | foreign (name : String)
deriving DecidableEq, Repr

/-- A value held by a context: a pointer to a models.User (none for the nil pointer), or
a value of any other type. -/
inductive CtxValue where
  | userPtr (user : Option User)
  | foreign (value : String)
deriving DecidableEq, Repr

/-- A context.Context, as the chain of its WithValue bindings, innermost first. -/
abbrev Context := List (CtxKey × CtxValue)

/-- The constant UserContextKey. -/
def UserContextKey : CtxKey := .contextKey "user"

/-- Context.Value: the innermost binding of the key, none for the nil interface. -/
def Context.Value (ctx : Context) (key : CtxKey) : Option CtxValue :=
  (ctx.find? (fun e => e.1 == key)).map Prod.snd

/-- The function context.WithValue. -/
def Context.WithValue (ctx : Context) (key : CtxKey) (val : CtxValue) : Context :=
  (key, val) :: ctx

/-- GetUserFromContext: the type assertion of the value under UserContextKey to a pointer
to models.User, with its ok flag. -/
def GetUserFromContext (ctx : Context) : Option User × Bool :=
  match ctx.Value UserContextKey with
  | some (.userPtr user) => (user, true)
  | _ => (none, false)

/-- An inbound request, as far as the gate reads it: the first value of its Authorization
header (none when the header is absent) and its context. -/
structure Request where
  Authorization : Option Bytes
  ctx : Context
deriving DecidableEq, Repr

/-- The call r.Header.Get("Authorization"): the empty string when the header is absent. -/
def Request.headerGetAuthorization (r : Request) : Bytes := r.Authorization.getD []

/-- The call strings.SplitN(s, " ", 2): s cut at its first space, or s alone when it has
none. -/
def SplitN (s : Bytes) : List Bytes :=
  match s.span (fun c => c != 32) with
  | (s, []) => [s]
  | (before, _ :: after) => [before, after]

/-- What a handler wrote to the http.ResponseWriter: the Content-Type header, the status
code and the bytes of the body, as text. -/
structure Written where
  contentType : String
  status : Nat
  body : String
deriving DecidableEq, Repr

/-- The respondError of the middleware package: the message between the fixed halves of
a JSON object, unescaped. -/
def respondError (statusCode : Nat) (message : String) : Written :=
  { contentType := "application/json", status := statusCode,
    body := "\x7b\"error\":\"" ++ message ++ "\"\x7d" }

/-- What one run of the handler returned by Authenticate did: the response it wrote
itself (none when it wrote nothing), the requests it passed to next.ServeHTTP, the keys it
passed to ValidateAPIKey, the store afterwards and the last-used updates started. -/
structure GateResult where
  written : Option Written
  forwarded : List Request
  validated : List Bytes
  db : Db
  spawned : List Int
deriving DecidableEq, Repr

namespace AuthMiddleware

/-- AuthMiddleware.Authenticate, the handler it returns run on one request. -/
def Authenticate (env : Env) (db : Db) (r : Request) : GateResult :=
  let authHeader := r.headerGetAuthorization
  if authHeader = [] then
    { written := some (respondError 401 "missing authorization header"), forwarded := [],
      validated := [], db := db, spawned := [] }
  else
    let parts := SplitN authHeader
    if parts.length ≠ 2 ∨ parts.getD 0 [] ≠ ascii "Bearer" then
      { written := some (respondError 401 "invalid authorization header format"),
        forwarded := [], validated := [], db := db, spawned := [] }
    else
      let apiKey := parts.getD 1 []
      match AuthService.ValidateAPIKey env db apiKey with
      | (.error _, db, spawned) =>
        { written := some (respondError 401 "invalid or expired API key"), forwarded := [],
          validated := [apiKey], db := db, spawned := spawned }
      | (.ok user, db, spawned) =>
        { written := none,
          forwarded := [{ r with ctx := r.ctx.WithValue UserContextKey (.userPtr (some user)) }],
          validated := [apiKey], db := db, spawned := spawned }

end AuthMiddleware

/-- A request presenting the key as a bearer credential, on an empty context. -/
def bearerRequest (apiKey : Bytes) : Request :=
  { Authorization := some (ascii "Bearer " ++ apiKey), ctx := [] }

/-! ## ValidateAPIKey together with its goroutine -/

/-- One run of ValidateAPIKey followed to the end of the goroutine it started: fate is
none when the goroutine never got to run, and the reading of its time.Now() when it ran;
whether its UPDATE succeeds or fails is decided by the driver script of the store, and its
error is discarded as in the source. -/
def ValidateAPIKeyAndUpdate (env : Env) (db : Db) (plainKey : Bytes) (fate : Option Time) :
    Except String User × Db :=
  match AuthService.ValidateAPIKey env db plainKey with
  | (result, db, spawned) =>
    match fate with
    | none => (result, db)
    | some now =>
      (result,
        spawned.foldl (fun db keyID => (UserRepository.UpdateAPIKeyLastUsed db now keyID).2) db)

/-! ## pkg/auth/password.go

The file is not among the sources; the two functions follow section 4.1 of the
specification and the cases of `password_test.go`. -/

/-- Modelled from the spec: what the PasswordHasher of section 4.1 takes from outside its
two operations: the text of the parameters it embeds in every record, the memory-hard
derivation (parameters, salt and password to digest) and the maximum length of a
password. -/
structure PasswordHasher where
  params : Bytes
  derive : Bytes → Bytes → Bytes → Bytes
  maxLen : Nat

/-- Modelled from the spec: the fields of an encoded record, which are separated by dollar
signs (byte 36). -/
def splitDollar : Bytes → List Bytes
  | [] => [[]]
  | c :: rest =>
    if c = 36 then [] :: splitDollar rest
    else
      match splitDollar rest with
      | [] => [[c]]
      | field :: fields => (c :: field) :: fields

/-- Modelled from the spec: the parse of a self-describing record into its parameters, salt
and digest: an empty field, the algorithm identifier argon2id, the parameters, and the salt
and the digest in unpadded base64; anything else does not parse. -/
def parseHashRecord (record : Bytes) : Option (Bytes × Bytes × Bytes) :=
  match splitDollar record with
  | [first, algorithm, params, salt64, digest64] =>
    if first = [] ∧ algorithm = ascii "argon2id" then
      match decodeString encodeStd salt64, decodeString encodeStd digest64 with
      | some salt, some digest => some (params, salt, digest)
      | _, _ => none
    else none
  | _ => none

/-- Modelled from the spec: hash of section 4.1, given the salt drawn for this call: a
password beyond the maximum length is rejected with InputTooLong, any other one gives the
record of algorithm identifier, parameters, salt and digest. -/
def HashPassword (h : PasswordHasher) (salt : Bytes) (password : Bytes) : Except String Bytes :=
  if h.maxLen < password.length then .error "InputTooLong"
  else
    .ok (ascii "$argon2id$" ++ h.params ++ ascii "$" ++ encodeToString encodeStd salt ++
      ascii "$" ++ encodeToString encodeStd (h.derive h.params salt password))

/-- Modelled from the spec: verify of section 4.1: MalformedHashRecord when the record
does not parse, else the comparison of the digest derived again from the embedded
parameters and salt with the embedded digest. -/
def VerifyPassword (h : PasswordHasher) (password : Bytes) (record : Bytes) :
    Except String Bool :=
  match parseHashRecord record with
  | none => .error "MalformedHashRecord"
  | some (params, salt, digest) => .ok (h.derive params salt password == digest)

/-- A sample hasher: the digest is the SHA-256 of parameters, salt and password, and
passwords have at most 128 bytes. -/
def sampleHasher : PasswordHasher :=
  { params := ascii "m=65536,t=3,p=2"
    derive := fun params salt password => sha256 (params ++ salt ++ password)
    maxLen := 128 }

/-! ## Properties

### The store when the driver does not fail -/

@[simp] theorem record_users (db : Db) (c : StoreCall) : (db.record c).users = db.users := rfl
@[simp] theorem record_apiKeys (db : Db) (c : StoreCall) : (db.record c).apiKeys = db.apiKeys := rfl
@[simp] theorem record_userSeq (db : Db) (c : StoreCall) : (db.record c).userSeq = db.userSeq := rfl
@[simp] theorem record_keySeq (db : Db) (c : StoreCall) : (db.record c).keySeq = db.keySeq := rfl
@[simp] theorem record_faults (db : Db) (c : StoreCall) : (db.record c).faults = db.faults := rfl
@[simp] theorem record_log (db : Db) (c : StoreCall) : (db.record c).log = db.log ++ [c] := rfl

theorem interact_healthy (db : Db) (h : db.Healthy) : db.interact = (none, db) := by
  cases db
  simp only [Db.Healthy] at h
  subst h
  rfl

theorem record_healthy (db : Db) (c : StoreCall) (h : db.Healthy) : (db.record c).Healthy := h

theorem getUserByUsername_healthy (db : Db) (username : String) (h : db.Healthy) :
    UserRepository.GetUserByUsername db username =
      (match db.users.find? (fun u => u.Username == username) with
        | none => .error "user not found"
        | some user => .ok user, db.record (.getUserByUsername username)) := by
  simp only [UserRepository.GetUserByUsername, interact_healthy _ (record_healthy db _ h),
    record_users]
  cases List.find? (fun u => u.Username == username) db.users <;> rfl

theorem getUserByEmail_healthy (db : Db) (email : String) (h : db.Healthy) :
    UserRepository.GetUserByEmail db email =
      (match db.users.find? (fun u => u.Email == email) with
        | none => .error "user not found"
        | some user => .ok user, db.record (.getUserByEmail email)) := by
  simp only [UserRepository.GetUserByEmail, interact_healthy _ (record_healthy db _ h),
    record_users]
  cases List.find? (fun u => u.Email == email) db.users <;> rfl

theorem getUserByID_healthy (db : Db) (id : Int) (h : db.Healthy) :
    UserRepository.GetUserByID db id =
      (match db.users.find? (fun u => u.ID == id) with
        | none => .error "user not found"
        | some user => .ok user, db.record (.getUserByID id)) := by
  simp only [UserRepository.GetUserByID, interact_healthy _ (record_healthy db _ h),
    record_users]
  cases List.find? (fun u => u.ID == id) db.users <;> rfl

/-- No row with the username or the email: the INSERT violates no uniqueness constraint. -/
theorem uniqueViolation_none (db : Db) (user : User)
    (hname : db.users.find? (fun u => u.Username == user.Username) = none)
    (hmail : db.users.find? (fun u => u.Email == user.Email) = none) :
    db.uniqueViolation user = none := by
  unfold Db.uniqueViolation
  rw [List.find?_eq_none] at hname hmail
  have hany : db.users.any (fun u => u.Username == user.Username || u.Email == user.Email) =
      false := by
    rw [List.any_eq_false]
    intro u hu
    have h1 := hname u hu
    have h2 := hmail u hu
    simp only [Bool.not_eq_true] at h1 h2
    simp [h1, h2]
  simp [hany]

theorem createUser_healthy (db : Db) (user : User) (h : db.Healthy)
    (hfree : db.uniqueViolation user = none) :
    UserRepository.CreateUser db user =
      (.ok { user with ID := db.userSeq },
        { db.record (.createUser user) with
          users := db.users ++ [{ user with ID := db.userSeq }], userSeq := db.userSeq + 1 }) := by
  have hfree2 : (db.record (.createUser user)).uniqueViolation user = none := hfree
  simp only [UserRepository.CreateUser, interact_healthy _ (record_healthy db _ h), hfree2]
  rfl

theorem createAPIKey_healthy (db : Db) (apiKey : APIKey) (h : db.Healthy) :
    UserRepository.CreateAPIKey db apiKey =
      (.ok { apiKey with ID := db.keySeq },
        { db.record (.createAPIKey apiKey) with
          apiKeys := db.apiKeys ++ [{ apiKey with ID := db.keySeq, LastUsedAt := none }],
          keySeq := db.keySeq + 1 }) := by
  simp only [UserRepository.CreateAPIKey, interact_healthy _ (record_healthy db _ h)]
  rfl

theorem revokeAPIKey_healthy (db : Db) (keyID userID : Int) (h : db.Healthy) :
    UserRepository.RevokeAPIKey db keyID userID =
      (if (db.apiKeys.filter (fun k => k.ID == keyID && k.UserID == userID)).length = 0
        then .error "API key not found or not owned by user" else .ok (),
        { db.record (.revokeAPIKey keyID userID) with
          apiKeys := db.apiKeys.map (fun k =>
            if k.ID = keyID ∧ k.UserID = userID then { k with IsActive := false } else k) }) := by
  have h2 : ({ db.record (.revokeAPIKey keyID userID) with
          apiKeys := db.apiKeys.map (fun k =>
            if k.ID = keyID ∧ k.UserID = userID then { k with IsActive := false } else k) } : Db).Healthy := h
  simp only [UserRepository.RevokeAPIKey, interact_healthy _ (record_healthy db _ h), record_apiKeys,
    interact_healthy _ h2]
  split <;> rfl

/-! ### Base64 -/

theorem decChar_encChar_URL : ∀ v < 64, decChar encodeURL (encChar encodeURL v) = some v := by
  decide

theorem quantum_four (a b c : Nat) (ha : a < 256) (hb : b < 256) (hc : c < 256) :
    quantumBytes [(a * 65536 + b * 256 + c) / 262144 % 64, (a * 65536 + b * 256 + c) / 4096 % 64,
      (a * 65536 + b * 256 + c) / 64 % 64, (a * 65536 + b * 256 + c) % 64] = some [a, b, c] := by
  simp only [quantumBytes, Option.some.injEq, List.cons.injEq, and_true]
  refine ⟨?_, ?_, ?_⟩ <;> omega

theorem quantum_three (a b : Nat) (ha : a < 256) (hb : b < 256) :
    quantumBytes [(a * 65536 + b * 256) / 262144 % 64, (a * 65536 + b * 256) / 4096 % 64,
      (a * 65536 + b * 256) / 64 % 64] = some [a, b] := by
  simp only [quantumBytes, Option.some.injEq, List.cons.injEq, and_true]
  refine ⟨?_, ?_⟩ <;> omega

theorem quantum_two (a : Nat) (ha : a < 256) :
    quantumBytes [(a * 65536) / 262144 % 64, (a * 65536) / 4096 % 64] = some [a] := by
  simp only [quantumBytes, Option.some.injEq, List.cons.injEq, and_true]
  omega

/-- Decoding undoes encoding: DecodeString (EncodeToString b) = b for RawURLEncoding. -/
theorem decodeString_encodeToString (bs : Bytes) (h : ∀ b ∈ bs, b < 256) :
    decodeString encodeURL (encodeToString encodeURL bs) = some bs := by
  unfold decodeString
  induction bs using encodeToString.induct encodeURL with
  | case1 a b c rest ih =>
    have ha : a < 256 := h a (by simp)
    have hb : b < 256 := h b (by simp)
    have hc : c < 256 := h c (by simp)
    have hr : ∀ x ∈ rest, x < 256 := fun x hx => h x (by simp [hx])
    simp only [encodeToString, decodeFrom]
    rw [decChar_encChar_URL _ (Nat.mod_lt _ (by decide)), decChar_encChar_URL _ (Nat.mod_lt _ (by decide)),
      decChar_encChar_URL _ (Nat.mod_lt _ (by decide)), decChar_encChar_URL _ (Nat.mod_lt _ (by decide))]
    simp only [List.length_nil, List.nil_append, List.length_cons, List.length_singleton,
      List.cons_append, Nat.reduceEqDiff, ↓reduceIte, OfNat.zero_ne_ofNat, OfNat.one_ne_ofNat,
      Nat.reduceAdd, Nat.succ_ne_self]
    rw [quantum_four a b c ha hb hc, ih hr]
    rfl
  | case2 a b =>
    have ha : a < 256 := h a (by simp)
    have hb : b < 256 := h b (by simp)
    simp only [encodeToString, decodeFrom]
    rw [decChar_encChar_URL _ (Nat.mod_lt _ (by decide)), decChar_encChar_URL _ (Nat.mod_lt _ (by decide)),
      decChar_encChar_URL _ (Nat.mod_lt _ (by decide))]
    simp only [List.length_nil, List.nil_append, List.length_cons, List.length_singleton,
      List.cons_append, Nat.reduceEqDiff, ↓reduceIte, OfNat.zero_ne_ofNat, OfNat.one_ne_ofNat,
      Nat.reduceAdd, Nat.succ_ne_self]
    exact quantum_three a b ha hb
  | case3 a =>
    have ha : a < 256 := h a (by simp)
    simp only [encodeToString, decodeFrom]
    rw [decChar_encChar_URL _ (Nat.mod_lt _ (by decide)), decChar_encChar_URL _ (Nat.mod_lt _ (by decide))]
    simp only [List.length_nil, List.nil_append, List.length_cons, List.length_singleton,
      List.cons_append, Nat.reduceEqDiff, ↓reduceIte, OfNat.zero_ne_ofNat, OfNat.one_ne_ofNat,
      Nat.reduceAdd, Nat.succ_ne_self]
    exact quantum_two a ha
  | case4 => rfl

theorem getAPIKeyByHash_healthy (db : Db) (now : Time) (keyHash : Bytes) (h : db.Healthy) :
    UserRepository.GetAPIKeyByHash db now keyHash =
      (match db.apiKeys.find? (fun k => k.KeyHash == keyHash && k.IsActive) with
        | none => .error "API key not found or inactive"
        | some apiKey =>
          match apiKey.ExpiresAt with
          | some t => if t < now then .error "API key has expired" else .ok apiKey
          | none => .ok apiKey,
        db.record (.getAPIKeyByHash keyHash)) := by
  simp only [UserRepository.GetAPIKeyByHash, interact_healthy _ (record_healthy db _ h),
    record_apiKeys]
  cases List.find? (fun k => k.KeyHash == keyHash && k.IsActive) db.apiKeys with
  | none => rfl
  | some k =>
    simp only
    cases k.ExpiresAt with
    | none => rfl
    | some t => simp only; split <;> rfl

/-- In a table with a unique column, the lookup by that column of a row's own value finds
the row. -/
theorem find?_of_nodup {α β : Type} [DecidableEq β] (f : α → β) (l : List α) (a : α)
    (hnd : (l.map f).Nodup) (ha : a ∈ l) : l.find? (fun x => f x == f a) = some a := by
  induction l with
  | nil => simp at ha
  | cons x xs ih =>
    simp only [List.map_cons, List.nodup_cons] at hnd
    rcases List.mem_cons.mp ha with rfl | hmem
    · simp
    · have hne : f x ≠ f a := fun heq => hnd.1 (heq ▸ List.mem_map_of_mem f hmem)
      simp only [List.find?_cons, beq_iff_eq, hne, ↓reduceIte]
      rw [show (f x == f a) = false from by simpa using hne]
      exact ih hnd.2 hmem

theorem validateFormat_generated (rb : Bytes) (hlen : rb.length = 32) (hb : ∀ b ∈ rb, b < 256) :
    ValidateAPIKeyFormat (apiKeyPrefix ++ encodeToString encodeURL rb) = true := by
  have hp : apiKeyPrefix.isPrefixOf (apiKeyPrefix ++ encodeToString encodeURL rb) = true := by
    rw [List.isPrefixOf_iff_prefix]
    exact List.prefix_append _ _
  simp only [ValidateAPIKeyFormat, hp, Bool.not_true, Bool.false_eq_true, ↓reduceIte,
    List.drop_left, decodeString_encodeToString rb hb, hlen, apiKeyLength, beq_self_eq_true]

/-- C1: on every candidate that ValidateAPIKeyFormat rejects, ValidateAPIKey fails with
"invalid API key format", hands the store back as it received it, call log included (so
no repository method was called), and starts no last-used update; and the candidates
without the literal prefix, those whose remainder does not decode or decodes to a length
other than 32, and the empty string are all rejected by ValidateAPIKeyFormat. -/
theorem C1_malformed_key_no_store_call (env : Env) (db : Db) (plainKey : Bytes) :
    (ValidateAPIKeyFormat plainKey = false →
      AuthService.ValidateAPIKey env db plainKey = (.error "invalid API key format", db, [])) ∧
    (apiKeyPrefix.isPrefixOf plainKey = false → ValidateAPIKeyFormat plainKey = false) ∧
    (decodeString encodeURL (plainKey.drop apiKeyPrefix.length) = none →
      ValidateAPIKeyFormat plainKey = false) ∧
    (∀ decoded, decodeString encodeURL (plainKey.drop apiKeyPrefix.length) = some decoded →
      decoded.length ≠ apiKeyLength → ValidateAPIKeyFormat plainKey = false) ∧
    ValidateAPIKeyFormat [] = false := by
  refine ⟨?_, ?_, ?_, ?_, by decide⟩
  · intro h
    simp [AuthService.ValidateAPIKey, h]
  · intro h
    simp [ValidateAPIKeyFormat, h]
  · intro h
    simp [ValidateAPIKeyFormat, h]
  · intro decoded h hlen
    simp [ValidateAPIKeyFormat, h, hlen]

/-- C1 on the sample store, for a candidate with a wrong prefix, for the empty string and
for a key one byte short. -/
theorem C1_malformed_key_no_store_call_witness :
    ValidateAPIKeyFormat (ascii "wrong_abc123456789") = false ∧
    AuthService.ValidateAPIKey sampleEnv sampleDb (ascii "wrong_abc123456789") =
      (.error "invalid API key format", sampleDb, []) ∧
    AuthService.ValidateAPIKey sampleEnv sampleDb [] =
      (.error "invalid API key format", sampleDb, []) ∧
    AuthService.ValidateAPIKey sampleEnv sampleDb
      (apiKeyPrefix ++ encodeToString encodeURL (List.range 31)) =
      (.error "invalid API key format", sampleDb, []) :=
  ⟨by decide,
    (C1_malformed_key_no_store_call sampleEnv sampleDb (ascii "wrong_abc123456789")).1 (by decide),
    (C1_malformed_key_no_store_call sampleEnv sampleDb []).1 (by decide),
    (C1_malformed_key_no_store_call sampleEnv sampleDb
      (apiKeyPrefix ++ encodeToString encodeURL (List.range 31))).1 (by decide)⟩

/-- Login on a store that answers its calls, for an active account whose password
verifies: the response carries the account and the generated key, and the store gains one
record, appended with the next id of the sequence. -/
theorem login_success (env : Env) (db : Db) (req : LoginRequest) (a : User) (rb : Bytes)
    (hhealthy : db.Healthy)
    (hfind : db.users.find? (fun u => u.Username == req.Username) = some a)
    (hactive : a.IsActive = true)
    (hverify : env.VerifyPassword req.Password a.PasswordHash = .ok true)
    (hrand : env.randRead = .ok rb) :
    ∃ db1, AuthService.Login env db req =
      (.ok { User := a, APIKey := apiKeyPrefix ++ encodeToString encodeURL rb, KeyID := db.keySeq,
             Message := "Authentication successful" }, db1) ∧
      db1.Healthy ∧ db1.users = db.users ∧
      db1.apiKeys = db.apiKeys ++
        [{ ID := db.keySeq, UserID := a.ID, Name := "Login " ++ env.format (env.now 0),
           KeyHash := HashAPIKey (apiKeyPrefix ++ encodeToString encodeURL rb),
           KeyPrefix := extractPrefix (apiKeyPrefix ++ encodeToString encodeURL rb),
           LastUsedAt := none, ExpiresAt := none, IsActive := true, CreatedAt := env.now 1 }] := by
  simp only [AuthService.Login, getUserByUsername_healthy db _ hhealthy, hfind, hactive, hverify,
    hrand, GenerateAPIKey, Bool.not_true, Bool.false_eq_true, ↓reduceIte]
  rw [createAPIKey_healthy _ _ (record_healthy db _ hhealthy)]
  exact ⟨_, rfl, hhealthy, rfl, rfl⟩

/-- ValidateAPIKey on a store that answers its calls, when the lookup by hash finds an
active record that is not expired and the owner is active: the owner is returned, the two
lookups are logged and the last-used update of that record is started. -/
theorem validate_success (env : Env) (db : Db) (key : Bytes) (k : APIKey) (u : User)
    (hhealthy : db.Healthy) (hfmt : ValidateAPIKeyFormat key = true)
    (hfind : db.apiKeys.find? (fun r => r.KeyHash == HashAPIKey key && r.IsActive) = some k)
    (hexp : ∀ t, k.ExpiresAt = some t → ¬ t < env.now 0)
    (huser : db.users.find? (fun x => x.ID == k.UserID) = some u) (hact : u.IsActive = true) :
    AuthService.ValidateAPIKey env db key =
      (.ok u, (db.record (.getAPIKeyByHash (HashAPIKey key))).record (.getUserByID k.UserID),
        [k.ID]) := by
  simp only [AuthService.ValidateAPIKey, hfmt, Bool.not_true, Bool.false_eq_true, ↓reduceIte]
  rw [getAPIKeyByHash_healthy _ _ _ hhealthy]
  simp only [hfind]
  cases hE : k.ExpiresAt with
  | none =>
    simp only
    rw [getUserByID_healthy _ _ (record_healthy db _ hhealthy)]
    simp only [record_users, huser, hact, Bool.not_true, Bool.false_eq_true, ↓reduceIte]
  | some t =>
    simp only [hexp t hE, ↓reduceIte]
    rw [getUserByID_healthy _ _ (record_healthy db _ hhealthy)]
    simp only [record_users, huser, hact, Bool.not_true, Bool.false_eq_true, ↓reduceIte]

/-- C2: in a store that answers its calls, with unique account ids and handles, holding an
active account a whose stored hash verifies the password, and with a random buffer of 32
bytes whose key is not the lookup hash of an active key already stored, Login succeeds,
returns a and a plaintext key that ValidateAPIKeyFormat accepts, and ValidateAPIKey of that
key on the store Login leaves returns a. -/
theorem C2_login_validate_roundtrip (env env2 : Env) (db : Db) (req : LoginRequest) (a : User)
    (rb : Bytes)
    (hhealthy : db.Healthy)
    (hids : (db.users.map (fun u => u.ID)).Nodup)
    (hnames : (db.users.map (fun u => u.Username)).Nodup)
    (hmem : a ∈ db.users) (hname : a.Username = req.Username) (hactive : a.IsActive = true)
    (hverify : env.VerifyPassword req.Password a.PasswordHash = .ok true)
    (hrand : env.randRead = .ok rb) (hlen : rb.length = 32) (hbytes : ∀ b ∈ rb, b < 256)
    (hfresh : ∀ k ∈ db.apiKeys, k.IsActive = true →
      k.KeyHash ≠ HashAPIKey (apiKeyPrefix ++ encodeToString encodeURL rb)) :
    ∃ resp db1 db2,
      AuthService.Login env db req = (.ok resp, db1) ∧
      resp.User = a ∧
      ValidateAPIKeyFormat resp.APIKey = true ∧
      AuthService.ValidateAPIKey env2 db1 resp.APIKey = (.ok a, db2, [resp.KeyID]) := by
  have hfind : db.users.find? (fun u => u.Username == req.Username) = some a := by
    rw [← hname]; exact find?_of_nodup (fun u => u.Username) db.users a hnames hmem
  have hfindID : db.users.find? (fun u => u.ID == a.ID) = some a :=
    find?_of_nodup (fun u => u.ID) db.users a hids hmem
  have hnone : db.apiKeys.find? (fun k => k.KeyHash ==
      HashAPIKey (apiKeyPrefix ++ encodeToString encodeURL rb) && k.IsActive) = none := by
    rw [List.find?_eq_none]
    intro k hk
    by_cases hact : k.IsActive = true
    · simp [hfresh k hk hact]
    · simp [hact]
  have hfmt := validateFormat_generated rb hlen hbytes
  obtain ⟨db1, hlogin, hh1, hu1, hk1⟩ :=
    login_success env db req a rb hhealthy hfind hactive hverify hrand
  refine ⟨_, db1, (db1.record (.getAPIKeyByHash
    (HashAPIKey (apiKeyPrefix ++ encodeToString encodeURL rb)))).record (.getUserByID a.ID),
    hlogin, rfl, hfmt, ?_⟩
  refine validate_success env2 db1 _
    { ID := db.keySeq, UserID := a.ID, Name := "Login " ++ env.format (env.now 0),
      KeyHash := HashAPIKey (apiKeyPrefix ++ encodeToString encodeURL rb),
      KeyPrefix := extractPrefix (apiKeyPrefix ++ encodeToString encodeURL rb),
      LastUsedAt := none, ExpiresAt := none, IsActive := true, CreatedAt := env.now 1 }
    a hh1 hfmt ?_ ?_ (by rw [hu1]; exact hfindID) hactive
  · simp only [hk1, List.find?_append, hnone, Option.none_or, List.find?_cons,
      beq_self_eq_true, Bool.and_self]
  · intro t ht
    simp at ht

/-! ### What each repository call leaves of the two tables, driver failures included -/

@[simp] theorem interact_users (db : Db) : db.interact.2.users = db.users := rfl
@[simp] theorem interact_apiKeys (db : Db) : db.interact.2.apiKeys = db.apiKeys := rfl

theorem getUserByUsername_tables (db : Db) (username : String) :
    (UserRepository.GetUserByUsername db username).2.users = db.users ∧
    (UserRepository.GetUserByUsername db username).2.apiKeys = db.apiKeys := by
  unfold UserRepository.GetUserByUsername
  simp only [Db.interact, Db.record]
  split <;> [skip; split] <;> exact ⟨rfl, rfl⟩

theorem getUserByEmail_tables (db : Db) (email : String) :
    (UserRepository.GetUserByEmail db email).2.users = db.users ∧
    (UserRepository.GetUserByEmail db email).2.apiKeys = db.apiKeys := by
  unfold UserRepository.GetUserByEmail
  simp only [Db.interact, Db.record]
  split <;> [skip; split] <;> exact ⟨rfl, rfl⟩

theorem getUserByID_tables (db : Db) (id : Int) :
    (UserRepository.GetUserByID db id).2.users = db.users ∧
    (UserRepository.GetUserByID db id).2.apiKeys = db.apiKeys := by
  unfold UserRepository.GetUserByID
  simp only [Db.interact, Db.record]
  split <;> [skip; split] <;> exact ⟨rfl, rfl⟩

theorem getAPIKeyByHash_tables (db : Db) (now : Time) (keyHash : Bytes) :
    (UserRepository.GetAPIKeyByHash db now keyHash).2.users = db.users ∧
    (UserRepository.GetAPIKeyByHash db now keyHash).2.apiKeys = db.apiKeys := by
  unfold UserRepository.GetAPIKeyByHash
  simp only [Db.interact, Db.record]
  split
  · exact ⟨rfl, rfl⟩
  · split
    · exact ⟨rfl, rfl⟩
    · split
      · split <;> exact ⟨rfl, rfl⟩
      · exact ⟨rfl, rfl⟩

theorem createUser_apiKeys (db : Db) (user : User) :
    (UserRepository.CreateUser db user).2.apiKeys = db.apiKeys := by
  unfold UserRepository.CreateUser
  simp only [Db.interact, Db.record]
  split
  · rfl
  · split <;> rfl

theorem createAPIKey_tables (db : Db) (apiKey : APIKey) :
    (UserRepository.CreateAPIKey db apiKey).2.users = db.users ∧
    (((UserRepository.CreateAPIKey db apiKey).1 = .ok { apiKey with ID := db.keySeq } ∧
      (UserRepository.CreateAPIKey db apiKey).2.apiKeys =
        db.apiKeys ++ [{ apiKey with ID := db.keySeq, LastUsedAt := none }]) ∨
     ((∃ e, (UserRepository.CreateAPIKey db apiKey).1 = .error e) ∧
      (UserRepository.CreateAPIKey db apiKey).2.apiKeys = db.apiKeys)) := by
  unfold UserRepository.CreateAPIKey
  simp only [Db.interact, Db.record]
  split
  · exact ⟨rfl, Or.inr ⟨⟨_, rfl⟩, rfl⟩⟩
  · exact ⟨rfl, Or.inl ⟨rfl, rfl⟩⟩

theorem updateAPIKeyLastUsed_tables (db : Db) (now : Time) (keyID : Int) :
    (UserRepository.UpdateAPIKeyLastUsed db now keyID).2.users = db.users ∧
    ((UserRepository.UpdateAPIKeyLastUsed db now keyID).2.apiKeys = db.apiKeys ∨
     (UserRepository.UpdateAPIKeyLastUsed db now keyID).2.apiKeys =
       db.apiKeys.map (fun k => if k.ID = keyID then { k with LastUsedAt := some now } else k)) := by
  unfold UserRepository.UpdateAPIKeyLastUsed
  simp only [Db.interact, Db.record]
  split
  · exact ⟨rfl, Or.inl rfl⟩
  · exact ⟨rfl, Or.inr rfl⟩

theorem scanRows_tables (rows : List APIKey) (db : Db) (acc : List APIKey) :
    (UserRepository.scanRows rows db acc).2.users = db.users ∧
    (UserRepository.scanRows rows db acc).2.apiKeys = db.apiKeys := by
  induction rows generalizing db acc with
  | nil => exact ⟨rfl, rfl⟩
  | cons row rows ih =>
    unfold UserRepository.scanRows
    simp only [Db.interact]
    split
    · rename_i e db2 heq
      simp only [Prod.mk.injEq] at heq
      rw [← heq.2]
      exact ⟨rfl, rfl⟩
    · rename_i db2 heq
      simp only [Prod.mk.injEq] at heq
      rw [← heq.2]
      exact ih _ _

theorem listAPIKeysByUserID_tables (db : Db) (userID : Int) :
    (UserRepository.ListAPIKeysByUserID db userID).2.users = db.users ∧
    (UserRepository.ListAPIKeysByUserID db userID).2.apiKeys = db.apiKeys := by
  unfold UserRepository.ListAPIKeysByUserID
  simp only [Db.interact, Db.record]
  split
  · exact ⟨rfl, rfl⟩
  · exact scanRows_tables _ _ _

theorem revokeAPIKey_tables (db : Db) (keyID userID : Int) :
    (UserRepository.RevokeAPIKey db keyID userID).2.users = db.users ∧
    (((∃ e, (UserRepository.RevokeAPIKey db keyID userID).1 = .error e) ∧
      (UserRepository.RevokeAPIKey db keyID userID).2.apiKeys = db.apiKeys) ∨
     (UserRepository.RevokeAPIKey db keyID userID).2.apiKeys =
       db.apiKeys.map (fun k =>
         if k.ID = keyID ∧ k.UserID = userID then { k with IsActive := false } else k)) := by
  unfold UserRepository.RevokeAPIKey
  simp only [Db.interact, Db.record]
  split
  · exact ⟨rfl, Or.inl ⟨⟨_, rfl⟩, rfl⟩⟩
  · split
    · rename_i e db2 heq
      simp only [Prod.mk.injEq] at heq
      rw [← heq.2]
      exact ⟨rfl, Or.inr rfl⟩
    · rename_i db2 heq
      simp only [Prod.mk.injEq] at heq
      rw [← heq.2]
      split <;> exact ⟨rfl, Or.inr rfl⟩

/-! ### What each service call leaves of the key table -/

theorem register_apiKeys (env : Env) (db : Db) (req : CreateUserRequest) :
    (AuthService.Register env db req).2.apiKeys = db.apiKeys := by
  unfold AuthService.Register
  split
  · rename_i u db1 h1
    have := (getUserByUsername_tables db req.Username).2
    rw [h1] at this; exact this
  · rename_i e db1 h1
    have hk1 := (getUserByUsername_tables db req.Username).2
    rw [h1] at hk1
    split
    · rename_i u db2 h2
      have := (getUserByEmail_tables db1 req.Email).2
      rw [h2] at this; exact this.trans hk1
    · rename_i e2 db2 h2
      have hk2 := (getUserByEmail_tables db1 req.Email).2
      rw [h2] at hk2
      split
      · exact hk2.trans hk1
      · dsimp only
        split
        · rename_i e3 db3 h3
          exact ((congrArg (fun r => r.2.apiKeys) h3).symm.trans
            (createUser_apiKeys db2 _)).trans (hk2.trans hk1)
        · rename_i u3 db3 h3
          exact ((congrArg (fun r => r.2.apiKeys) h3).symm.trans
            (createUser_apiKeys db2 _)).trans (hk2.trans hk1)

theorem validateAPIKey_tables (env : Env) (db : Db) (plainKey : Bytes) :
    (AuthService.ValidateAPIKey env db plainKey).2.1.users = db.users ∧
    (AuthService.ValidateAPIKey env db plainKey).2.1.apiKeys = db.apiKeys := by
  unfold AuthService.ValidateAPIKey
  split
  · exact ⟨rfl, rfl⟩
  · have h1 := getAPIKeyByHash_tables db (env.now 0) (HashAPIKey plainKey)
    simp only
    split
    · rename_i e db1 heq
      rw [heq] at h1; exact h1
    · rename_i k db1 heq
      rw [heq] at h1
      have h2 := getUserByID_tables db1 k.UserID
      split
      · rename_i e db2 heq2
        rw [heq2] at h2
        exact ⟨h2.1.trans h1.1, h2.2.trans h1.2⟩
      · rename_i u db2 heq2
        rw [heq2] at h2
        split <;> exact ⟨h2.1.trans h1.1, h2.2.trans h1.2⟩

theorem listAPIKeys_tables (db : Db) (userID : Int) :
    (AuthService.ListAPIKeys db userID).2.users = db.users ∧
    (AuthService.ListAPIKeys db userID).2.apiKeys = db.apiKeys := by
  unfold AuthService.ListAPIKeys
  have h := listAPIKeysByUserID_tables db userID
  split
  · rename_i e db1 heq
    rw [heq] at h; exact h
  · rename_i l db1 heq
    rw [heq] at h; exact h

theorem keysFrom_of_eq (db db2 : Db) (issued : Option Bytes) (h : db2.apiKeys = db.apiKeys) :
    KeysFrom db db2 issued := by
  intro k hk
  rw [h] at hk
  exact Or.inl ⟨k, hk, rfl, id⟩

theorem login_keysFrom (env : Env) (db : Db) (req : LoginRequest) :
    KeysFrom db (AuthService.Login env db req).2 (Op.issuedHash (.login env req)) := by
  unfold AuthService.Login
  have h1 := (getUserByUsername_tables db req.Username).2
  split
  · rename_i e db1 heq
    rw [heq] at h1
    exact keysFrom_of_eq _ _ _ h1
  · rename_i u db1 heq
    rw [heq] at h1
    split
    · exact keysFrom_of_eq _ _ _ h1
    · split
      · exact keysFrom_of_eq _ _ _ h1
      · split
        · exact keysFrom_of_eq _ _ _ h1
        · cases hr : env.randRead with
          | error e => simp only [GenerateAPIKey]; exact keysFrom_of_eq _ _ _ h1
          | ok rb =>
            simp only [GenerateAPIKey]
            have h2 := (createAPIKey_tables db1
              { ID := 0, UserID := u.ID, Name := "Login " ++ env.format (env.now 0),
                KeyHash := HashAPIKey (apiKeyPrefix ++ encodeToString encodeURL rb),
                KeyPrefix := extractPrefix (apiKeyPrefix ++ encodeToString encodeURL rb),
                LastUsedAt := none, ExpiresAt := none, IsActive := true,
                CreatedAt := env.now 1 }).2
            split
            · rename_i e db2 heq2
              rw [heq2] at h2
              rcases h2 with ⟨h, _⟩ | ⟨_, h⟩
              · cases h
              · exact keysFrom_of_eq _ _ _ (h.trans h1)
            · rename_i k2 db2 heq2
              rw [heq2] at h2
              rcases h2 with ⟨_, h⟩ | ⟨⟨e, h⟩, _⟩
              · intro k hk
                simp only at h hk
                rw [h, List.mem_append, List.mem_singleton] at hk
                rcases hk with hk | rfl
                · rw [h1] at hk
                  exact Or.inl ⟨k, hk, rfl, id⟩
                · right
                  simp only [Op.issuedHash, hr]
              · cases h

theorem createAPIKey_keysFrom (env : Env) (db : Db) (userID : Int) (req : CreateAPIKeyRequest) :
    KeysFrom db (AuthService.CreateAPIKey env db userID req).2
      (Op.issuedHash (.createAPIKey env userID req)) := by
  unfold AuthService.CreateAPIKey
  have h1 := (getUserByID_tables db userID).2
  split
  · rename_i e db1 heq
    rw [heq] at h1
    exact keysFrom_of_eq _ _ _ h1
  · rename_i u db1 heq
    rw [heq] at h1
    cases hr : env.randRead with
    | error e => simp only [GenerateAPIKey]; exact keysFrom_of_eq _ _ _ h1
    | ok rb =>
      simp only [GenerateAPIKey]
      have h2 := (createAPIKey_tables db1
        { ID := 0, UserID := userID, Name := req.Name,
          KeyHash := HashAPIKey (apiKeyPrefix ++ encodeToString encodeURL rb),
          KeyPrefix := extractPrefix (apiKeyPrefix ++ encodeToString encodeURL rb),
          LastUsedAt := none, ExpiresAt := req.ExpiresAt, IsActive := true,
          CreatedAt := env.now 0 }).2
      split
      · rename_i e db2 heq2
        rw [heq2] at h2
        rcases h2 with ⟨h, _⟩ | ⟨_, h⟩
        · cases h
        · exact keysFrom_of_eq _ _ _ (h.trans h1)
      · rename_i k2 db2 heq2
        rw [heq2] at h2
        rcases h2 with ⟨_, h⟩ | ⟨⟨e, h⟩, _⟩
        · intro k hk
          simp only at h hk
          rw [h, List.mem_append, List.mem_singleton] at hk
          rcases hk with hk | rfl
          · rw [h1] at hk
            exact Or.inl ⟨k, hk, rfl, id⟩
          · right
            simp only [Op.issuedHash, hr]
        · cases h

theorem updateLastUsed_keysFrom (db : Db) (now : Time) (keyID : Int) :
    KeysFrom db (UserRepository.UpdateAPIKeyLastUsed db now keyID).2 none := by
  rcases (updateAPIKeyLastUsed_tables db now keyID).2 with h | h
  · exact keysFrom_of_eq _ _ _ h
  · intro k hk
    rw [h, List.mem_map] at hk
    obtain ⟨k0, hk0, rfl⟩ := hk
    refine Or.inl ⟨k0, hk0, ?_, ?_⟩ <;> split <;> simp

theorem revokeAPIKey_tables_service (db : Db) (userID keyID : Int) :
    (AuthService.RevokeAPIKey db userID keyID).2 = (UserRepository.RevokeAPIKey db keyID userID).2 ∧
    ((AuthService.RevokeAPIKey db userID keyID).1 = .ok () ↔
      (UserRepository.RevokeAPIKey db keyID userID).1 = .ok ()) := by
  unfold AuthService.RevokeAPIKey
  split
  · rename_i e db1 heq
    rw [heq]; simp
  · rename_i u db1 heq
    rw [heq]; simp

theorem revokeAPIKey_keysFrom (db : Db) (userID keyID : Int) :
    KeysFrom db (AuthService.RevokeAPIKey db userID keyID).2 none := by
  rw [(revokeAPIKey_tables_service db userID keyID).1]
  rcases (revokeAPIKey_tables db keyID userID).2 with ⟨_, h⟩ | h
  · exact keysFrom_of_eq _ _ _ h
  · intro k hk
    rw [h, List.mem_map] at hk
    obtain ⟨k0, hk0, rfl⟩ := hk
    refine Or.inl ⟨k0, hk0, ?_, ?_⟩ <;> split <;> simp

theorem run_keysFrom (db : Db) (op : Op) : KeysFrom db (op.run db) op.issuedHash := by
  cases op with
  | register env req => exact keysFrom_of_eq _ _ _ (register_apiKeys env db req)
  | login env req => exact login_keysFrom env db req
  | validateAPIKey env plainKey => exact keysFrom_of_eq _ _ _ (validateAPIKey_tables env db plainKey).2
  | updateLastUsed now keyID => exact updateLastUsed_keysFrom db now keyID
  | createAPIKey env userID req => exact createAPIKey_keysFrom env db userID req
  | listAPIKeys userID => exact keysFrom_of_eq _ _ _ (listAPIKeys_tables db userID).2
  | revokeAPIKey userID keyID => exact revokeAPIKey_keysFrom db userID keyID

theorem noActiveKey_run (h : Bytes) (db : Db) (op : Op) (hno : NoActiveKey h db)
    (hop : op.issuedHash ≠ some h) : NoActiveKey h (op.run db) := by
  intro k hk hkh
  rcases run_keysFrom db op k hk with ⟨k0, hk0, hh, hact⟩ | hiss
  · have h0 := hno k0 hk0 (hh.trans hkh)
    cases hka : k.IsActive with
    | false => rfl
    | true => rw [hact hka] at h0; cases h0
  · exact absurd (hkh ▸ hiss) hop

theorem noActiveKey_foldl (h : Bytes) (later : List Op) (db : Db) (hno : NoActiveKey h db)
    (hops : ∀ op ∈ later, op.issuedHash ≠ some h) : NoActiveKey h (later.foldl Op.run db) := by
  induction later generalizing db with
  | nil => exact hno
  | cons op ops ih =>
    exact ih _ (noActiveKey_run h db op hno (hops op (by simp)))
      (fun o ho => hops o (by simp [ho]))

/-- ValidateAPIKey of a well-formed key whose hash no active record carries fails with
"invalid API key", whatever the driver does. -/
theorem validate_no_active (env : Env) (db : Db) (plainKey : Bytes)
    (hfmt : ValidateAPIKeyFormat plainKey = true) (hno : NoActiveKey (HashAPIKey plainKey) db) :
    (AuthService.ValidateAPIKey env db plainKey).1 = .error "invalid API key" := by
  unfold AuthService.ValidateAPIKey
  simp only [hfmt, Bool.not_true, Bool.false_eq_true, ↓reduceIte]
  split
  · rfl
  · rename_i k db1 heq
    exfalso
    unfold UserRepository.GetAPIKeyByHash at heq
    simp only [Db.interact, Db.record] at heq
    have hnone : db.apiKeys.find? (fun k => k.KeyHash == HashAPIKey plainKey && k.IsActive) = none := by
      rw [List.find?_eq_none]
      intro r hr
      by_cases hh : r.KeyHash = HashAPIKey plainKey
      · simp [hno r hr hh]
      · simp [hh]
    rw [hnone] at heq
    split at heq <;> simp at heq

/-- C2 on the sample store: alice logs in and the key she receives validates to her. -/
theorem C2_login_validate_roundtrip_witness :
    sampleDb.Healthy ∧ alice ∈ sampleDb.users ∧ alice.IsActive = true ∧
    ∃ resp db1 db2,
      AuthService.Login sampleEnv sampleDb { Username := "alice", Password := "Sup3rSecret!" } =
        (.ok resp, db1) ∧
      resp.User = alice ∧
      ValidateAPIKeyFormat resp.APIKey = true ∧
      AuthService.ValidateAPIKey sampleEnv db1 resp.APIKey = (.ok alice, db2, [resp.KeyID]) :=
  ⟨rfl, by decide, rfl,
    C2_login_validate_roundtrip sampleEnv sampleEnv sampleDb
      { Username := "alice", Password := "Sup3rSecret!" } alice (List.range 32)
      rfl (by decide) (by decide) (by decide) rfl rfl rfl rfl (by decide) (by decide) (by decide)⟩

/-- A successful revocation leaves the key table with exactly the matched records
deactivated. -/
theorem revoke_ok_apiKeys (db db1 : Db) (userID keyID : Int)
    (h : AuthService.RevokeAPIKey db userID keyID = (.ok (), db1)) :
    db1.users = db.users ∧
    db1.apiKeys = db.apiKeys.map (fun k =>
      if k.ID = keyID ∧ k.UserID = userID then { k with IsActive := false } else k) := by
  have hs := revokeAPIKey_tables_service db userID keyID
  have ht := revokeAPIKey_tables db keyID userID
  rw [h] at hs
  simp only [true_iff] at hs
  rw [← hs.1] at ht
  rcases ht.2 with ⟨⟨e, he⟩, _⟩ | hm
  · rw [hs.2] at he; cases he
  · exact ⟨ht.1, hm⟩

/-- C3: when every record carrying the lookup hash of the well-formed key k is the key
with id keyID owned by ownerID, then after a successful RevokeAPIKey(ownerID, keyID) and
any further calls that issue no key with that hash, no active record carries the hash
and ValidateAPIKey(k) fails with "invalid API key". -/
theorem C3_revoked_key_rejected (env : Env) (db db1 : Db) (plainKey : Bytes)
    (keyID ownerID : Int) (later : List Op)
    (hfmt : ValidateAPIKeyFormat plainKey = true)
    (hissued : ∀ r ∈ db.apiKeys, r.KeyHash = HashAPIKey plainKey →
      r.ID = keyID ∧ r.UserID = ownerID)
    (hrevoke : AuthService.RevokeAPIKey db ownerID keyID = (.ok (), db1))
    (hlater : ∀ op ∈ later, op.issuedHash ≠ some (HashAPIKey plainKey)) :
    NoActiveKey (HashAPIKey plainKey) (later.foldl Op.run db1) ∧
    (AuthService.ValidateAPIKey env (later.foldl Op.run db1) plainKey).1 =
      .error "invalid API key" := by
  have hno1 : NoActiveKey (HashAPIKey plainKey) db1 := by
    intro k hk hkh
    rw [(revoke_ok_apiKeys db db1 ownerID keyID hrevoke).2, List.mem_map] at hk
    obtain ⟨k0, hk0, rfl⟩ := hk
    have hh0 : k0.KeyHash = HashAPIKey plainKey := by
      rw [← hkh]; split <;> rfl
    simp only [hissued k0 hk0 hh0, and_self, ↓reduceIte]
  have hno := noActiveKey_foldl _ later db1 hno1 hlater
  exact ⟨hno, validate_no_active env _ plainKey hfmt hno⟩

/-- C3 on the sample store: key 1 validates, is revoked, and is rejected after a later
Login, validation, last-used update and listing. -/
theorem C3_revoked_key_rejected_witness :
    ValidateAPIKeyFormat firstKey = true ∧
    (AuthService.ValidateAPIKey sampleEnv sampleDb firstKey).1 = .ok alice ∧
    AuthService.RevokeAPIKey sampleDb 1 1 = (.ok (), (AuthService.RevokeAPIKey sampleDb 1 1).2) ∧
    NoActiveKey (HashAPIKey firstKey)
      ([Op.login sampleEnv { Username := "alice", Password := "Sup3rSecret!" },
        Op.validateAPIKey sampleEnv firstKey, Op.updateLastUsed 1001 1, Op.listAPIKeys 1].foldl
        Op.run (AuthService.RevokeAPIKey sampleDb 1 1).2) ∧
    (AuthService.ValidateAPIKey sampleEnv
      ([Op.login sampleEnv { Username := "alice", Password := "Sup3rSecret!" },
        Op.validateAPIKey sampleEnv firstKey, Op.updateLastUsed 1001 1, Op.listAPIKeys 1].foldl
        Op.run (AuthService.RevokeAPIKey sampleDb 1 1).2) firstKey).1 =
      .error "invalid API key" :=
  ⟨by decide, by decide, by decide,
    C3_revoked_key_rejected sampleEnv sampleDb (AuthService.RevokeAPIKey sampleDb 1 1).2 firstKey
      1 1 _ (by decide) (by decide) (by decide) (by decide)⟩

/-- The lookup by hash fails, with or without a driver failure, when every active record
carrying the hash has an expiry in the past. -/
theorem getAPIKeyByHash_expired (db : Db) (now : Time) (keyHash : Bytes)
    (hexp : ∀ k ∈ db.apiKeys, k.KeyHash = keyHash → k.IsActive = true →
      ∃ t, k.ExpiresAt = some t ∧ t < now) :
    ∃ e, (UserRepository.GetAPIKeyByHash db now keyHash).1 = .error e := by
  unfold UserRepository.GetAPIKeyByHash
  simp only [Db.interact, Db.record]
  split
  · exact ⟨_, rfl⟩
  · split
    · exact ⟨_, rfl⟩
    · rename_i k hfind
      have hk := List.mem_of_find?_eq_some hfind
      have hp := List.find?_some hfind
      simp only [Bool.and_eq_true, beq_iff_eq] at hp
      obtain ⟨t, ht, hlt⟩ := hexp k hk hp.1 hp.2
      simp only [ht, hlt, ↓reduceIte]
      exact ⟨_, rfl⟩

/-- C4 as stated fails: in the sample store key 2 is active and expired at instant 500,
the clock stands at 1000, and ValidateAPIKey answers its plaintext with "invalid API key",
the very error it gives for the well-formed key sampleKey, which no record matches. -/
theorem C4_expired_error_not_distinct :
    (sampleDb.apiKeys.map (fun k => (k.ID, k.KeyHash, k.IsActive, k.ExpiresAt))).contains
      (2, HashAPIKey expiredKey, true, some 500) = true ∧
    (500 : Time) < sampleEnv.now 0 ∧
    (AuthService.ValidateAPIKey sampleEnv sampleDb expiredKey).1 = .error "invalid API key" ∧
    (AuthService.ValidateAPIKey sampleEnv sampleDb sampleKey).1 = .error "invalid API key" ∧
    ¬ ((AuthService.ValidateAPIKey sampleEnv sampleDb expiredKey).1 ≠
        (AuthService.ValidateAPIKey sampleEnv sampleDb sampleKey).1) := by
  decide

/-- C4, amended: for a record r that is active, has an expiry in the past and is the only
active record with the hash of the well-formed key k, ValidateAPIKey(k) fails with "invalid
API key", the same error as for a key no active record matches; it leaves both tables
as they were and starts no last-used update. Only the repository lookup tells the two
apart: on a store that answers, GetAPIKeyByHash fails with "API key has expired". -/
theorem C4_expired_key_rejected (env : Env) (db : Db) (plainKey : Bytes) (r : APIKey) (t : Time)
    (hfmt : ValidateAPIKeyFormat plainKey = true)
    (hmem : r ∈ db.apiKeys) (hhash : r.KeyHash = HashAPIKey plainKey)
    (hactive : r.IsActive = true) (hexpiry : r.ExpiresAt = some t) (hpast : t < env.now 0)
    (honly : ∀ k ∈ db.apiKeys, k.KeyHash = HashAPIKey plainKey → k.IsActive = true → k = r) :
    (AuthService.ValidateAPIKey env db plainKey).1 = .error "invalid API key" ∧
    (AuthService.ValidateAPIKey env db plainKey).2.1.apiKeys = db.apiKeys ∧
    (AuthService.ValidateAPIKey env db plainKey).2.1.users = db.users ∧
    (AuthService.ValidateAPIKey env db plainKey).2.2 = [] ∧
    (∀ db0, NoActiveKey (HashAPIKey plainKey) db0 →
      (AuthService.ValidateAPIKey env db0 plainKey).1 = .error "invalid API key") ∧
    (db.Healthy → (UserRepository.GetAPIKeyByHash db (env.now 0) (HashAPIKey plainKey)).1 =
      .error "API key has expired") := by
  have hlookup := getAPIKeyByHash_expired db (env.now 0) (HashAPIKey plainKey)
    (fun k hk hh ha => by rw [honly k hk hh ha]; exact ⟨t, hexpiry, hpast⟩)
  have htab := validateAPIKey_tables env db plainKey
  refine ⟨?_, htab.2, htab.1, ?_, fun db0 h0 => validate_no_active env db0 plainKey hfmt h0, ?_⟩
  · unfold AuthService.ValidateAPIKey
    simp only [hfmt, Bool.not_true, Bool.false_eq_true, ↓reduceIte]
    split
    · rfl
    · rename_i k db1 heq
      obtain ⟨e, he⟩ := hlookup
      rw [heq] at he; cases he
  · unfold AuthService.ValidateAPIKey
    simp only [hfmt, Bool.not_true, Bool.false_eq_true, ↓reduceIte]
    split
    · rfl
    · rename_i k db1 heq
      obtain ⟨e, he⟩ := hlookup
      rw [heq] at he; cases he
  · intro hh
    rw [getAPIKeyByHash_healthy db _ _ hh]
    have hfind : ∃ k, db.apiKeys.find? (fun k => k.KeyHash == HashAPIKey plainKey && k.IsActive)
        = some k := by
      cases hf : db.apiKeys.find? (fun k => k.KeyHash == HashAPIKey plainKey && k.IsActive) with
      | some k => exact ⟨k, rfl⟩
      | none =>
        rw [List.find?_eq_none] at hf
        exact absurd (by simp [hhash, hactive]) (hf r hmem)
    obtain ⟨k, hk⟩ := hfind
    have hp := List.find?_some hk
    simp only [Bool.and_eq_true, beq_iff_eq] at hp
    have hkr := honly k (List.mem_of_find?_eq_some hk) hp.1 hp.2
    simp only [hk, hkr, hexpiry, hpast, ↓reduceIte]

/-- C4 (amended) on the sample store, for the expired key 2. -/
theorem C4_expired_key_rejected_witness :
    (AuthService.ValidateAPIKey sampleEnv sampleDb expiredKey).1 = .error "invalid API key" ∧
    (AuthService.ValidateAPIKey sampleEnv sampleDb expiredKey).2.1.apiKeys = sampleDb.apiKeys ∧
    (AuthService.ValidateAPIKey sampleEnv sampleDb expiredKey).2.1.users = sampleDb.users ∧
    (AuthService.ValidateAPIKey sampleEnv sampleDb expiredKey).2.2 = [] ∧
    (∀ db0, NoActiveKey (HashAPIKey expiredKey) db0 →
      (AuthService.ValidateAPIKey sampleEnv db0 expiredKey).1 = .error "invalid API key") ∧
    (sampleDb.Healthy →
      (UserRepository.GetAPIKeyByHash sampleDb (sampleEnv.now 0) (HashAPIKey expiredKey)).1 =
        .error "API key has expired") :=
  C4_expired_key_rejected sampleEnv sampleDb expiredKey
    { ID := 2, UserID := 1, Name := "CI/CD Pipeline", KeyHash := HashAPIKey expiredKey,
      KeyPrefix := extractPrefix expiredKey, LastUsedAt := none, ExpiresAt := some 500,
      IsActive := true, CreatedAt := 30 } 500
    (by decide) (by decide) rfl rfl rfl (by decide) (by decide)

/-- C5 as stated fails: on the sample store Login for the deactivated account bob fails
with "user account is inactive" while Login for a handle nobody holds fails with "invalid
credentials", and the handler passes each message on in its 401 response. -/
theorem C5_inactive_account_distinguishable :
    (AuthService.Login sampleEnv sampleDb { Username := "bob", Password := "hunter22" }).1 =
      .error "user account is inactive" ∧
    (AuthService.Login sampleEnv sampleDb { Username := "carol", Password := "hunter22" }).1 =
      .error "invalid credentials" ∧
    (AuthHandler.Login sampleEnv sampleDb (some { Username := "bob", Password := "hunter22" })).1 ≠
      (AuthHandler.Login sampleEnv sampleDb
        (some { Username := "carol", Password := "hunter22" })).1 := by
  decide

/-- C5, amended: on a store that answers its calls Login fails with "invalid credentials"
when no account has the handle and when the account is active but the password does not
verify, and with the different error "user account is inactive" when the account is
inactive, whatever the password; the handler answers every Login error with status 401
and that message. -/
theorem C5_login_failures (env : Env) (db : Db) (req : LoginRequest) (hhealthy : db.Healthy) :
    ((∀ u ∈ db.users, u.Username ≠ req.Username) →
      (AuthService.Login env db req).1 = .error "invalid credentials") ∧
    (∀ a, db.users.find? (fun u => u.Username == req.Username) = some a → a.IsActive = false →
      (AuthService.Login env db req).1 = .error "user account is inactive") ∧
    (∀ a, db.users.find? (fun u => u.Username == req.Username) = some a → a.IsActive = true →
      env.VerifyPassword req.Password a.PasswordHash = .ok false →
      (AuthService.Login env db req).1 = .error "invalid credentials") ∧
    (∀ e, (AuthService.Login env db req).1 = .error e →
      (AuthHandler.Login env db (some req)).1 = { status := 401, body := .error e }) := by
  refine ⟨?_, ?_, ?_, ?_⟩
  · intro hnone
    have hf : db.users.find? (fun u => u.Username == req.Username) = none := by
      rw [List.find?_eq_none]
      intro u hu
      simpa using hnone u hu
    simp only [AuthService.Login, getUserByUsername_healthy db _ hhealthy, hf]
  · intro a hf hina
    simp only [AuthService.Login, getUserByUsername_healthy db _ hhealthy, hf, hina,
      Bool.not_false, ↓reduceIte]
  · intro a hf hact hver
    simp only [AuthService.Login, getUserByUsername_healthy db _ hhealthy, hf, hact, hver,
      Bool.not_true, Bool.not_false, Bool.false_eq_true, ↓reduceIte]
  · intro e he
    unfold AuthHandler.Login
    simp only
    split
    · rename_i e2 db1 heq
      rw [heq] at he
      simp only [Except.error.injEq] at he
      rw [he]
    · rename_i r db1 heq
      rw [heq] at he
      cases he

/-- C5 (amended) on the sample store: an unknown handle, the inactive bob, and alice
with a wrong password. -/
theorem C5_login_failures_witness :
    sampleDb.Healthy ∧
    (AuthService.Login sampleEnv sampleDb { Username := "carol", Password := "x" }).1 =
      .error "invalid credentials" ∧
    (AuthService.Login sampleEnv sampleDb { Username := "bob", Password := "hunter22" }).1 =
      .error "user account is inactive" ∧
    (AuthService.Login sampleEnv sampleDb { Username := "alice", Password := "guess" }).1 =
      .error "invalid credentials" :=
  ⟨rfl,
    (C5_login_failures sampleEnv sampleDb { Username := "carol", Password := "x" } rfl).1
      (by decide),
    (C5_login_failures sampleEnv sampleDb { Username := "bob", Password := "hunter22" } rfl).2.1
      bob (by decide) rfl,
    (C5_login_failures sampleEnv sampleDb { Username := "alice", Password := "guess" } rfl).2.2.1
      alice (by decide) rfl (by decide)⟩

/-- Register on a store that answers its calls, spelled out by the two lookups. -/
theorem register_healthy (env : Env) (db : Db) (req : CreateUserRequest) (hhealthy : db.Healthy) :
    AuthService.Register env db req =
      match db.users.find? (fun u => u.Username == req.Username) with
      | some _ => (.error "username already exists", db.record (.getUserByUsername req.Username))
      | none =>
        match db.users.find? (fun u => u.Email == req.Email) with
        | some _ =>
          (.error "email already exists",
            (db.record (.getUserByUsername req.Username)).record (.getUserByEmail req.Email))
        | none =>
          match env.HashPassword req.Password with
          | .error e =>
            (.error ("failed to hash password: " ++ e),
              (db.record (.getUserByUsername req.Username)).record (.getUserByEmail req.Email))
          | .ok passwordHash =>
            let user : User :=
              { ID := 0, Username := req.Username, Email := req.Email,
                PasswordHash := passwordHash, IsActive := true, CreatedAt := env.now 0,
                UpdatedAt := env.now 0 }
            let db3 := ((db.record (.getUserByUsername req.Username)).record
              (.getUserByEmail req.Email)).record (.createUser user)
            (.ok { user with ID := db.userSeq },
              { db3 with users := db.users ++ [{ user with ID := db.userSeq }],
                         userSeq := db.userSeq + 1 }) := by
  unfold AuthService.Register
  rw [getUserByUsername_healthy db _ hhealthy]
  cases hf : db.users.find? (fun u => u.Username == req.Username) with
  | some a => rfl
  | none =>
    simp only
    rw [getUserByEmail_healthy _ _ (record_healthy db _ hhealthy)]
    simp only [record_users]
    cases hf2 : db.users.find? (fun u => u.Email == req.Email) with
    | some a => rfl
    | none =>
      simp only
      cases hp : env.HashPassword req.Password with
      | error e => rfl
      | ok ph =>
        simp only
        rw [createUser_healthy _ _ (record_healthy _ _ (record_healthy db _ hhealthy))
          (uniqueViolation_none _ _ hf hf2)]
        rfl

theorem find?_isSome_of_mem {α : Type} (p : α → Bool) (l : List α) (a : α) (ha : a ∈ l)
    (hp : p a = true) : ∃ b, l.find? p = some b := by
  cases hf : l.find? p with
  | some b => exact ⟨b, rfl⟩
  | none =>
    rw [List.find?_eq_none] at hf
    exact absurd hp (hf a ha)

/-- C6: on a store that answers its calls, Register fails with "username already exists"
whenever an account has the handle, fails with "email already exists" whenever the handle
is free but an account has the contact address, and inserts no account in either case;
and after any successful Register a second Register with the same handle, whatever its
contact address and password, fails with "username already exists". -/
theorem C6_register_rejects_duplicates (env env2 : Env) (db : Db) (req : CreateUserRequest)
    (hhealthy : db.Healthy) :
    ((∃ u ∈ db.users, u.Username = req.Username) →
      (AuthService.Register env db req).1 = .error "username already exists" ∧
      (AuthService.Register env db req).2.users = db.users) ∧
    ((∀ u ∈ db.users, u.Username ≠ req.Username) → (∃ u ∈ db.users, u.Email = req.Email) →
      (AuthService.Register env db req).1 = .error "email already exists" ∧
      (AuthService.Register env db req).2.users = db.users) ∧
    (∀ user db1 req2, AuthService.Register env db req = (.ok user, db1) →
      req2.Username = req.Username →
      (AuthService.Register env2 db1 req2).1 = .error "username already exists" ∧
      (AuthService.Register env2 db1 req2).2.users = db1.users) := by
  refine ⟨?_, ?_, ?_⟩
  · rintro ⟨u, hu, hname⟩
    obtain ⟨b, hb⟩ := find?_isSome_of_mem (fun u => u.Username == req.Username) db.users u hu
      (by simpa using hname)
    rw [register_healthy env db req hhealthy, hb]
    exact ⟨rfl, rfl⟩
  · rintro hfree ⟨u, hu, hmail⟩
    have hf : db.users.find? (fun u => u.Username == req.Username) = none := by
      rw [List.find?_eq_none]
      intro x hx
      simpa using hfree x hx
    obtain ⟨b, hb⟩ := find?_isSome_of_mem (fun u => u.Email == req.Email) db.users u hu
      (by simpa using hmail)
    rw [register_healthy env db req hhealthy, hf]
    dsimp only
    rw [hb]
    exact ⟨rfl, rfl⟩
  · intro user db1 req2 hreg hname
    rw [register_healthy env db req hhealthy] at hreg
    have hdb1 : db1.Healthy ∧ ∃ u ∈ db1.users, u.Username = req2.Username := by
      split at hreg
      · cases hreg
      · split at hreg
        · cases hreg
        · split at hreg
          · cases hreg
          · simp only [Prod.mk.injEq, Except.ok.injEq] at hreg
            rw [← hreg.2]
            exact ⟨hhealthy, _, List.mem_append_right _ (List.mem_singleton_self _), hname.symm⟩
    obtain ⟨hh1, u, hu, hun⟩ := hdb1
    obtain ⟨b, hb⟩ := find?_isSome_of_mem (fun u => u.Username == req2.Username) db1.users u hu
      (by simpa using hun)
    rw [register_healthy env2 db1 req2 hh1, hb]
    exact ⟨rfl, rfl⟩

/-- C6 on the sample store, and the scenario of registering alice twice on an empty
store. -/
theorem C6_register_rejects_duplicates_witness :
    sampleDb.Healthy ∧
    ((AuthService.Register sampleEnv sampleDb
      { Username := "alice", Email := "b@x.com", Password := "other" }).1 =
      .error "username already exists" ∧
    (AuthService.Register sampleEnv sampleDb
      { Username := "alice", Email := "b@x.com", Password := "other" }).2.users =
      sampleDb.users) ∧
    (AuthService.Register sampleEnv emptyDb
      { Username := "alice", Email := "a@x.com", Password := "Sup3rSecret!" }).1 =
      .ok { alice with CreatedAt := 1000, UpdatedAt := 1000 } ∧
    ((AuthService.Register sampleEnv
      (AuthService.Register sampleEnv emptyDb
        { Username := "alice", Email := "a@x.com", Password := "Sup3rSecret!" }).2
      { Username := "alice", Email := "b@x.com", Password := "other" }).1 =
      .error "username already exists" ∧
    (AuthService.Register sampleEnv
      (AuthService.Register sampleEnv emptyDb
        { Username := "alice", Email := "a@x.com", Password := "Sup3rSecret!" }).2
      { Username := "alice", Email := "b@x.com", Password := "other" }).2.users =
      (AuthService.Register sampleEnv emptyDb
        { Username := "alice", Email := "a@x.com", Password := "Sup3rSecret!" }).2.users) :=
  ⟨rfl,
    (C6_register_rejects_duplicates sampleEnv sampleEnv sampleDb
      { Username := "alice", Email := "b@x.com", Password := "other" } rfl).1
      ⟨alice, by decide, rfl⟩,
    by decide,
    (C6_register_rejects_duplicates sampleEnv sampleEnv emptyDb
      { Username := "alice", Email := "a@x.com", Password := "Sup3rSecret!" } rfl).2.2
      { alice with CreatedAt := 1000, UpdatedAt := 1000 } _
      { Username := "alice", Email := "b@x.com", Password := "other" } (by decide) rfl⟩

/-- AuthService.RevokeAPIKey on a store that answers its calls. -/
theorem revoke_healthy (db : Db) (userID keyID : Int) (hhealthy : db.Healthy) :
    AuthService.RevokeAPIKey db userID keyID =
      (if (db.apiKeys.filter (fun k => k.ID == keyID && k.UserID == userID)).length = 0
        then .error "failed to revoke API key: API key not found or not owned by user"
        else .ok (),
        { db.record (.revokeAPIKey keyID userID) with
          apiKeys := db.apiKeys.map (fun k =>
            if k.ID = keyID ∧ k.UserID = userID then { k with IsActive := false } else k) }) := by
  unfold AuthService.RevokeAPIKey
  rw [revokeAPIKey_healthy db keyID userID hhealthy]
  split
  · rename_i e db1 heq
    simp only [Prod.mk.injEq] at heq
    split at heq
    · rename_i h0
      simp only [h0, ↓reduceIte]
      obtain ⟨h1, h2⟩ := heq
      cases h1
      rw [h2]
      rfl
    · exact absurd heq.1 (by simp)
  · rename_i u db1 heq
    simp only [Prod.mk.injEq] at heq
    split at heq
    · exact absurd heq.1 (by simp)
    · rename_i h0
      simp only [h0, ↓reduceIte]
      rw [heq.2]

theorem filter_length_zero_iff (l : List APIKey) (keyID userID : Int) :
    (l.filter (fun k => k.ID == keyID && k.UserID == userID)).length = 0 ↔
      ∀ k ∈ l, ¬ (k.ID = keyID ∧ k.UserID = userID) := by
  rw [List.length_eq_zero, List.filter_eq_nil_iff]
  simp

/-- The two outcomes of RevokeAPIKey on a store that answers its calls: it fails with "API key not found or
not owned by user" (wrapped by the service) and leaves both tables unchanged whenever no
record has that id and that owner; otherwise it succeeds and the key table is the old one
with the active flag cleared in the records of that id and owner, every other field and
every other record being kept. -/
theorem revoke_outcome (db : Db) (accountID keyID : Int) (hhealthy : db.Healthy) :
    ((∀ k ∈ db.apiKeys, ¬ (k.ID = keyID ∧ k.UserID = accountID)) →
      (AuthService.RevokeAPIKey db accountID keyID).1 =
        .error "failed to revoke API key: API key not found or not owned by user" ∧
      (AuthService.RevokeAPIKey db accountID keyID).2.apiKeys = db.apiKeys ∧
      (AuthService.RevokeAPIKey db accountID keyID).2.users = db.users) ∧
    ((∃ k ∈ db.apiKeys, k.ID = keyID ∧ k.UserID = accountID) →
      (AuthService.RevokeAPIKey db accountID keyID).1 = .ok () ∧
      (AuthService.RevokeAPIKey db accountID keyID).2.apiKeys =
        db.apiKeys.map (fun k =>
          if k.ID = keyID ∧ k.UserID = accountID then { k with IsActive := false } else k) ∧
      (AuthService.RevokeAPIKey db accountID keyID).2.users = db.users) := by
  rw [revoke_healthy db accountID keyID hhealthy]
  refine ⟨?_, ?_⟩
  · intro hnone
    refine ⟨?_, ?_, rfl⟩
    · simp only [(filter_length_zero_iff db.apiKeys keyID accountID).mpr hnone, ↓reduceIte]
    · show db.apiKeys.map _ = db.apiKeys
      conv_rhs => rw [← List.map_id db.apiKeys]
      apply List.map_congr_left
      intro k hk
      simp only [hnone k hk, ↓reduceIte, id_eq]
  · rintro ⟨k, hk, hmatch⟩
    refine ⟨?_, rfl, rfl⟩
    have hne : ¬ (db.apiKeys.filter (fun k => k.ID == keyID && k.UserID == accountID)).length = 0 := by
      rw [filter_length_zero_iff]
      intro hall
      exact hall k hk hmatch
    simp only [hne, ↓reduceIte]

/-- C7: on a store that answers its calls, RevokeAPIKey fails with "API key not found or
not owned by user" (wrapped by the service) and leaves both tables unchanged whenever no
record has that id and that owner; otherwise it succeeds and the key table is the old one
with the active flag cleared in the records of that id and owner, every other field and
every other record being kept. -/
theorem C7_revoke_frame (db : Db) (accountID keyID : Int) (hhealthy : db.Healthy) :
    ((∀ k ∈ db.apiKeys, ¬ (k.ID = keyID ∧ k.UserID = accountID)) →
      (AuthService.RevokeAPIKey db accountID keyID).1 =
        .error "failed to revoke API key: API key not found or not owned by user" ∧
      (AuthService.RevokeAPIKey db accountID keyID).2.apiKeys = db.apiKeys ∧
      (AuthService.RevokeAPIKey db accountID keyID).2.users = db.users) ∧
    ((∃ k ∈ db.apiKeys, k.ID = keyID ∧ k.UserID = accountID) →
      (AuthService.RevokeAPIKey db accountID keyID).1 = .ok () ∧
      (AuthService.RevokeAPIKey db accountID keyID).2.apiKeys =
        db.apiKeys.map (fun k =>
          if k.ID = keyID ∧ k.UserID = accountID then { k with IsActive := false } else k) ∧
      (AuthService.RevokeAPIKey db accountID keyID).2.users = db.users) :=
  revoke_outcome db accountID keyID hhealthy

/-- C7 on the sample store: bob cannot revoke key 1 of alice, alice can. -/
theorem C7_revoke_frame_witness :
    sampleDb.Healthy ∧
    ((AuthService.RevokeAPIKey sampleDb 2 1).1 =
        .error "failed to revoke API key: API key not found or not owned by user" ∧
      (AuthService.RevokeAPIKey sampleDb 2 1).2.apiKeys = sampleDb.apiKeys ∧
      (AuthService.RevokeAPIKey sampleDb 2 1).2.users = sampleDb.users) ∧
    ((AuthService.RevokeAPIKey sampleDb 1 1).1 = .ok () ∧
      (AuthService.RevokeAPIKey sampleDb 1 1).2.apiKeys =
        sampleDb.apiKeys.map (fun k =>
          if k.ID = 1 ∧ k.UserID = 1 then { k with IsActive := false } else k) ∧
      (AuthService.RevokeAPIKey sampleDb 1 1).2.users = sampleDb.users) :=
  ⟨rfl, (C7_revoke_frame sampleDb 2 1 rfl).1 (by decide),
    (C7_revoke_frame sampleDb 1 1 rfl).2 (by decide)⟩

/-- C8: on a store that answers its calls, for a key owned by the caller, RevokeAPIKey
succeeds, a second RevokeAPIKey on the store the first one leaves succeeds too, and it
leaves both tables and both id sequences as the first call left them. -/
theorem C8_revoke_idempotent (db : Db) (accountID keyID : Int) (hhealthy : db.Healthy)
    (howned : ∃ k ∈ db.apiKeys, k.ID = keyID ∧ k.UserID = accountID) :
    (AuthService.RevokeAPIKey db accountID keyID).1 = .ok () ∧
    (AuthService.RevokeAPIKey (AuthService.RevokeAPIKey db accountID keyID).2 accountID keyID).1 =
      .ok () ∧
    (AuthService.RevokeAPIKey (AuthService.RevokeAPIKey db accountID keyID).2 accountID keyID).2.apiKeys
      = (AuthService.RevokeAPIKey db accountID keyID).2.apiKeys ∧
    (AuthService.RevokeAPIKey (AuthService.RevokeAPIKey db accountID keyID).2 accountID keyID).2.users
      = (AuthService.RevokeAPIKey db accountID keyID).2.users ∧
    (AuthService.RevokeAPIKey (AuthService.RevokeAPIKey db accountID keyID).2 accountID keyID).2.userSeq
      = (AuthService.RevokeAPIKey db accountID keyID).2.userSeq ∧
    (AuthService.RevokeAPIKey (AuthService.RevokeAPIKey db accountID keyID).2 accountID keyID).2.keySeq
      = (AuthService.RevokeAPIKey db accountID keyID).2.keySeq := by
  have h1 := (revoke_outcome db accountID keyID hhealthy).2 howned
  have hh1 : (AuthService.RevokeAPIKey db accountID keyID).2.Healthy := by
    rw [revoke_healthy db accountID keyID hhealthy]; exact hhealthy
  have howned1 : ∃ k ∈ (AuthService.RevokeAPIKey db accountID keyID).2.apiKeys,
      k.ID = keyID ∧ k.UserID = accountID := by
    obtain ⟨k, hk, hm⟩ := howned
    rw [h1.2.1]
    refine ⟨_, List.mem_map_of_mem _ hk, ?_⟩
    simp only [hm, and_self, ↓reduceIte]
  have h2 := (revoke_outcome _ accountID keyID hh1).2 howned1
  refine ⟨h1.1, h2.1, ?_, h2.2.2, ?_, ?_⟩
  · rw [h2.2.1, h1.2.1, List.map_map]
    apply List.map_congr_left
    intro k _
    simp only [Function.comp_apply]
    by_cases hm : k.ID = keyID ∧ k.UserID = accountID
    · simp only [hm, and_self, ↓reduceIte]
    · simp only [hm, ↓reduceIte]
  · rw [revoke_healthy _ accountID keyID hh1]; rfl
  · rw [revoke_healthy _ accountID keyID hh1]; rfl

/-- C8 on the sample store: alice revokes key 2 twice. -/
theorem C8_revoke_idempotent_witness :
    (AuthService.RevokeAPIKey sampleDb 1 2).1 = .ok () ∧
    (AuthService.RevokeAPIKey (AuthService.RevokeAPIKey sampleDb 1 2).2 1 2).1 = .ok () ∧
    (AuthService.RevokeAPIKey (AuthService.RevokeAPIKey sampleDb 1 2).2 1 2).2.apiKeys
      = (AuthService.RevokeAPIKey sampleDb 1 2).2.apiKeys ∧
    (AuthService.RevokeAPIKey (AuthService.RevokeAPIKey sampleDb 1 2).2 1 2).2.users
      = (AuthService.RevokeAPIKey sampleDb 1 2).2.users ∧
    (AuthService.RevokeAPIKey (AuthService.RevokeAPIKey sampleDb 1 2).2 1 2).2.userSeq
      = (AuthService.RevokeAPIKey sampleDb 1 2).2.userSeq ∧
    (AuthService.RevokeAPIKey (AuthService.RevokeAPIKey sampleDb 1 2).2 1 2).2.keySeq
      = (AuthService.RevokeAPIKey sampleDb 1 2).2.keySeq :=
  C8_revoke_idempotent sampleDb 1 2 rfl (by decide)

theorem scanRows_healthy (rows : List APIKey) (db : Db) (acc : List APIKey) (hhealthy : db.Healthy) :
    UserRepository.scanRows rows db acc = (.ok (acc ++ rows), db) := by
  induction rows generalizing acc with
  | nil => simp [UserRepository.scanRows, interact_healthy db hhealthy]
  | cons row rows ih =>
    unfold UserRepository.scanRows
    rw [interact_healthy db hhealthy]
    simp only
    rw [ih]
    simp

/-- AuthService.ListAPIKeys on a store that answers its calls. -/
theorem listAPIKeys_healthy (db : Db) (userID : Int) (hhealthy : db.Healthy) :
    AuthService.ListAPIKeys db userID =
      (.ok { APIKeys := (db.apiKeys.filter (fun k => k.UserID == userID)).insertionSort
                (fun a b => a.CreatedAt ≥ b.CreatedAt),
             Total := ((db.apiKeys.filter (fun k => k.UserID == userID)).insertionSort
                (fun a b => a.CreatedAt ≥ b.CreatedAt)).length },
        db.record (.listAPIKeysByUserID userID)) := by
  unfold AuthService.ListAPIKeys UserRepository.ListAPIKeysByUserID
  rw [interact_healthy _ (record_healthy db _ hhealthy)]
  simp only [record_apiKeys]
  rw [scanRows_healthy _ _ _ (record_healthy db _ hhealthy)]
  rfl

/-- AuthService.CreateAPIKey on a store that answers its calls. -/
theorem createAPIKey_service_healthy (env : Env) (db : Db) (userID : Int)
    (req : CreateAPIKeyRequest) (hhealthy : db.Healthy) :
    ((∀ u ∈ db.users, u.ID ≠ userID) →
      AuthService.CreateAPIKey env db userID req =
        (.error "user not found: user not found", db.record (.getUserByID userID))) ∧
    (∀ rb, (∃ u ∈ db.users, u.ID = userID) → env.randRead = .ok rb →
      ∃ db1, AuthService.CreateAPIKey env db userID req =
        (.ok { APIKey :=
                { ID := db.keySeq, UserID := userID, Name := req.Name,
                  KeyHash := HashAPIKey (apiKeyPrefix ++ encodeToString encodeURL rb),
                  KeyPrefix := extractPrefix (apiKeyPrefix ++ encodeToString encodeURL rb),
                  LastUsedAt := none, ExpiresAt := req.ExpiresAt, IsActive := true,
                  CreatedAt := env.now 0 },
               PlainKey := apiKeyPrefix ++ encodeToString encodeURL rb }, db1) ∧
        db1.users = db.users ∧
        db1.apiKeys = db.apiKeys ++
          [{ ID := db.keySeq, UserID := userID, Name := req.Name,
             KeyHash := HashAPIKey (apiKeyPrefix ++ encodeToString encodeURL rb),
             KeyPrefix := extractPrefix (apiKeyPrefix ++ encodeToString encodeURL rb),
             LastUsedAt := none, ExpiresAt := req.ExpiresAt, IsActive := true,
             CreatedAt := env.now 0 }]) := by
  refine ⟨?_, ?_⟩
  · intro hnone
    have hf : db.users.find? (fun u => u.ID == userID) = none := by
      rw [List.find?_eq_none]
      intro u hu
      simpa using hnone u hu
    simp only [AuthService.CreateAPIKey, getUserByID_healthy db _ hhealthy, hf]
    rfl
  · rintro rb ⟨u, hu, hid⟩ hrand
    obtain ⟨b, hb⟩ := find?_isSome_of_mem (fun u => u.ID == userID) db.users u hu
      (by simpa using hid)
    simp only [AuthService.CreateAPIKey, getUserByID_healthy db _ hhealthy, hb, hrand,
      GenerateAPIKey]
    rw [createAPIKey_healthy _ _ (record_healthy db _ hhealthy)]
    exact ⟨_, rfl, rfl, rfl⟩

/-- C9: on a store that answers its calls, CreateAPIKey fails with "user not found" (as
wrapped by the service) and leaves the key table unchanged when no account has the id;
when an account has it and the random source delivers, it succeeds, the key table gains
exactly one record at its end, the one returned, and that record is active, owned by the
account, carries the label and the expiry of the request, and its stored hash is
HashAPIKey of the plaintext key returned. -/
theorem C9_create_api_key (env : Env) (db : Db) (userID : Int) (req : CreateAPIKeyRequest)
    (hhealthy : db.Healthy) :
    ((∀ u ∈ db.users, u.ID ≠ userID) →
      (AuthService.CreateAPIKey env db userID req).1 = .error "user not found: user not found" ∧
      (AuthService.CreateAPIKey env db userID req).2.apiKeys = db.apiKeys) ∧
    (∀ rb, (∃ u ∈ db.users, u.ID = userID) → env.randRead = .ok rb →
      ∃ resp, (AuthService.CreateAPIKey env db userID req).1 = .ok resp ∧
        (AuthService.CreateAPIKey env db userID req).2.apiKeys = db.apiKeys ++ [resp.APIKey] ∧
        (AuthService.CreateAPIKey env db userID req).2.users = db.users ∧
        resp.APIKey.IsActive = true ∧ resp.APIKey.UserID = userID ∧
        resp.APIKey.Name = req.Name ∧ resp.APIKey.ExpiresAt = req.ExpiresAt ∧
        resp.APIKey.KeyHash = HashAPIKey resp.PlainKey ∧
        resp.PlainKey = apiKeyPrefix ++ encodeToString encodeURL rb) := by
  have h := createAPIKey_service_healthy env db userID req hhealthy
  refine ⟨fun hnone => ?_, fun rb hex hrand => ?_⟩
  · rw [h.1 hnone]
    exact ⟨rfl, rfl⟩
  · obtain ⟨db1, heq, hu, hk⟩ := h.2 rb hex hrand
    rw [heq]
    exact ⟨_, rfl, hk, hu, rfl, rfl, rfl, rfl, rfl, rfl⟩

/-- C9 on the sample store: no account 7; a key for alice expiring at instant 2000. -/
theorem C9_create_api_key_witness :
    sampleDb.Healthy ∧
    ((AuthService.CreateAPIKey sampleEnv sampleDb 7 { Name := "My Laptop", ExpiresAt := some 2000 }).1
        = .error "user not found: user not found" ∧
      (AuthService.CreateAPIKey sampleEnv sampleDb 7
        { Name := "My Laptop", ExpiresAt := some 2000 }).2.apiKeys = sampleDb.apiKeys) ∧
    (∃ resp, (AuthService.CreateAPIKey sampleEnv sampleDb 1
          { Name := "My Laptop", ExpiresAt := some 2000 }).1 = .ok resp ∧
        (AuthService.CreateAPIKey sampleEnv sampleDb 1
          { Name := "My Laptop", ExpiresAt := some 2000 }).2.apiKeys =
          sampleDb.apiKeys ++ [resp.APIKey] ∧
        (AuthService.CreateAPIKey sampleEnv sampleDb 1
          { Name := "My Laptop", ExpiresAt := some 2000 }).2.users = sampleDb.users ∧
        resp.APIKey.IsActive = true ∧ resp.APIKey.UserID = 1 ∧
        resp.APIKey.Name = "My Laptop" ∧ resp.APIKey.ExpiresAt = some 2000 ∧
        resp.APIKey.KeyHash = HashAPIKey resp.PlainKey ∧
        resp.PlainKey = apiKeyPrefix ++ encodeToString encodeURL (List.range 32)) :=
  ⟨rfl,
    (C9_create_api_key sampleEnv sampleDb 7 { Name := "My Laptop", ExpiresAt := some 2000 } rfl).1
      (by decide),
    (C9_create_api_key sampleEnv sampleDb 1 { Name := "My Laptop", ExpiresAt := some 2000 } rfl).2
      (List.range 32) ⟨alice, by decide, rfl⟩ rfl⟩

theorem insertionSort_createdAt_pairwise (l : List APIKey) :
    (l.insertionSort (fun a b => a.CreatedAt ≥ b.CreatedAt)).Pairwise
      (fun a b => a.CreatedAt ≥ b.CreatedAt) := by
  haveI : IsTotal APIKey (fun a b => a.CreatedAt ≥ b.CreatedAt) :=
    ⟨fun a b => le_total b.CreatedAt a.CreatedAt⟩
  haveI : IsTrans APIKey (fun a b => a.CreatedAt ≥ b.CreatedAt) :=
    ⟨fun a b c hab hbc => le_trans hbc hab⟩
  exact List.sorted_insertionSort (fun a b => a.CreatedAt ≥ b.CreatedAt) l

/-- The JSON object of a key record, member by member: the eight members of the struct
tags in their order, expires_at only when set, each with the value of its field, and no
member key_hash. -/
theorem toJSON_members (k : APIKey) :
    k.toJSON.map Prod.fst =
      ["id", "user_id", "name", "key_prefix", "last_used_at"] ++
        (if k.ExpiresAt.isSome then ["expires_at"] else []) ++ ["is_active", "created_at"] ∧
    k.toJSON.lookup "id" = some (Json.num k.ID) ∧
    k.toJSON.lookup "user_id" = some (Json.num k.UserID) ∧
    k.toJSON.lookup "name" = some (Json.str k.Name) ∧
    k.toJSON.lookup "key_prefix" = some (Json.bytes k.KeyPrefix) ∧
    k.toJSON.lookup "last_used_at" =
      some (match k.LastUsedAt with | none => Json.null | some t => Json.time t) ∧
    k.toJSON.lookup "expires_at" = k.ExpiresAt.map Json.time ∧
    k.toJSON.lookup "is_active" = some (Json.bool k.IsActive) ∧
    k.toJSON.lookup "created_at" = some (Json.time k.CreatedAt) ∧
    k.toJSON.lookup "key_hash" = none := by
  cases hE : k.ExpiresAt with
  | none =>
    simp only [APIKey.toJSON, hE]
    exact ⟨rfl, rfl, rfl, rfl, rfl, rfl, rfl, rfl, rfl, rfl⟩
  | some t =>
    simp only [APIKey.toJSON, hE]
    exact ⟨rfl, rfl, rfl, rfl, rfl, rfl, rfl, rfl, rfl, rfl⟩

/-- C10, returned records that carry the lookup hash: ListAPIKeys for alice on the sample
store returns her two records with their KeyHash fields filled, the hashes of her two
keys, each the 43 characters under which ValidateAPIKey looks the key up. -/
theorem C10_listed_records_carry_lookup_hash :
    (AuthService.ListAPIKeys sampleDb 1).1 =
      .ok { APIKeys :=
              [{ ID := 2, UserID := 1, Name := "CI/CD Pipeline", KeyHash := HashAPIKey expiredKey,
                 KeyPrefix := extractPrefix expiredKey, LastUsedAt := none, ExpiresAt := some 500,
                 IsActive := true, CreatedAt := 30 },
               { ID := 1, UserID := 1, Name := "Login 2024-12-01 08:00:00",
                 KeyHash := HashAPIKey firstKey, KeyPrefix := extractPrefix firstKey,
                 LastUsedAt := some 40, ExpiresAt := none, IsActive := true, CreatedAt := 20 }],
            Total := 2 } ∧
    (∃ resp, (AuthService.ListAPIKeys sampleDb 1).1 = .ok resp ∧
      resp.APIKeys.map (fun k => k.KeyHash) = [HashAPIKey expiredKey, HashAPIKey firstKey]) ∧
    (HashAPIKey expiredKey).length = 43 ∧
    (HashAPIKey firstKey).length = 43 ∧
    (AuthService.ValidateAPIKey sampleEnv sampleDb firstKey).1 = .ok alice := by
  have h : (AuthService.ListAPIKeys sampleDb 1).1 =
      .ok { APIKeys :=
              [{ ID := 2, UserID := 1, Name := "CI/CD Pipeline", KeyHash := HashAPIKey expiredKey,
                 KeyPrefix := extractPrefix expiredKey, LastUsedAt := none, ExpiresAt := some 500,
                 IsActive := true, CreatedAt := 30 },
               { ID := 1, UserID := 1, Name := "Login 2024-12-01 08:00:00",
                 KeyHash := HashAPIKey firstKey, KeyPrefix := extractPrefix firstKey,
                 LastUsedAt := some 40, ExpiresAt := none, IsActive := true, CreatedAt := 20 }],
            Total := 2 } := by decide
  exact ⟨h, ⟨_, h, rfl⟩, by decide, by decide, by decide⟩

/-- C10, as the code has it: on a store that answers its calls, ListAPIKeys succeeds and
returns a rearrangement of the records of the key table owned by the account, active or
not, ordered by creation time from newest to oldest, with their count; every returned
record is the stored record, its lookup hash in the field KeyHash included (the record
type has no field for the plaintext key). The lookup hash is left out only in the JSON
that the handler writes: the object of a record has the members id, user_id, name,
key_prefix, last_used_at, expires_at (only when set), is_active and created_at, in this
order and each with the value of its field, has no member key_hash and is the same for
any value of KeyHash. -/
theorem C10_list_api_keys (db : Db) (accountID : Int) (hhealthy : db.Healthy) :
    ∃ resp, (AuthService.ListAPIKeys db accountID).1 = .ok resp ∧
      resp.APIKeys.Perm (db.apiKeys.filter (fun k => k.UserID == accountID)) ∧
      (∀ k, k ∈ resp.APIKeys ↔ k ∈ db.apiKeys ∧ k.UserID = accountID) ∧
      resp.APIKeys.Pairwise (fun a b => a.CreatedAt ≥ b.CreatedAt) ∧
      resp.Total = resp.APIKeys.length ∧
      resp.APIKeys.map (fun k => k.KeyHash) ⊆ db.apiKeys.map (fun k => k.KeyHash) ∧
      (∀ user : User, user.ID = accountID →
        (AuthHandler.ListAPIKeys db (some user)).1 =
          { status := 200, body := .apiKeys (resp.APIKeys.map APIKey.toJSON) resp.Total }) ∧
      ∀ k ∈ resp.APIKeys,
        (k.toJSON.map Prod.fst =
          ["id", "user_id", "name", "key_prefix", "last_used_at"] ++
            (if k.ExpiresAt.isSome then ["expires_at"] else []) ++ ["is_active", "created_at"] ∧
        k.toJSON.lookup "id" = some (Json.num k.ID) ∧
        k.toJSON.lookup "user_id" = some (Json.num k.UserID) ∧
        k.toJSON.lookup "name" = some (Json.str k.Name) ∧
        k.toJSON.lookup "key_prefix" = some (Json.bytes k.KeyPrefix) ∧
        k.toJSON.lookup "last_used_at" =
          some (match k.LastUsedAt with | none => Json.null | some t => Json.time t) ∧
        k.toJSON.lookup "expires_at" = k.ExpiresAt.map Json.time ∧
        k.toJSON.lookup "is_active" = some (Json.bool k.IsActive) ∧
        k.toJSON.lookup "created_at" = some (Json.time k.CreatedAt) ∧
        k.toJSON.lookup "key_hash" = none) ∧
        ∀ h, ({ k with KeyHash := h } : APIKey).toJSON = k.toJSON := by
  have hlist := listAPIKeys_healthy db accountID hhealthy
  have hperm := List.perm_insertionSort (fun (a b : APIKey) => a.CreatedAt ≥ b.CreatedAt)
    (db.apiKeys.filter (fun k => k.UserID == accountID))
  refine ⟨_, by rw [hlist], hperm, ?_, insertionSort_createdAt_pairwise _, rfl, ?_, ?_, ?_⟩
  · intro k
    rw [hperm.mem_iff, List.mem_filter]
    simp
  · intro h hh
    obtain ⟨k, hk, rfl⟩ := List.mem_map.1 hh
    rw [hperm.mem_iff, List.mem_filter] at hk
    exact List.mem_map.2 ⟨k, hk.1, rfl⟩
  · intro user hid
    simp only [AuthHandler.ListAPIKeys, hid, hlist]
  · intro k _
    exact ⟨toJSON_members k, fun h => rfl⟩

/-- C10 on the sample store: the two keys of alice, the newer one first, and the JSON
object written for the newer one. -/
theorem C10_list_api_keys_witness :
    sampleDb.Healthy ∧
    (AuthHandler.ListAPIKeys sampleDb (some alice)).1 =
      { status := 200,
        body := .apiKeys
          [[("id", Json.num 2), ("user_id", Json.num 1), ("name", Json.str "CI/CD Pipeline"),
            ("key_prefix", Json.bytes (ascii "rct_CQkJCQkJ")), ("last_used_at", Json.null),
            ("expires_at", Json.time 500), ("is_active", Json.bool true),
            ("created_at", Json.time 30)],
           [("id", Json.num 1), ("user_id", Json.num 1),
            ("name", Json.str "Login 2024-12-01 08:00:00"),
            ("key_prefix", Json.bytes (ascii "rct_BwcHBwcH")), ("last_used_at", Json.time 40),
            ("is_active", Json.bool true), ("created_at", Json.time 20)]] 2 } ∧
    ∃ resp, (AuthService.ListAPIKeys sampleDb 1).1 = .ok resp ∧
      resp.APIKeys.Perm (sampleDb.apiKeys.filter (fun k => k.UserID == 1)) ∧
      (∀ k, k ∈ resp.APIKeys ↔ k ∈ sampleDb.apiKeys ∧ k.UserID = 1) ∧
      resp.APIKeys.Pairwise (fun a b => a.CreatedAt ≥ b.CreatedAt) ∧
      resp.Total = resp.APIKeys.length ∧
      resp.APIKeys.map (fun k => k.KeyHash) ⊆ sampleDb.apiKeys.map (fun k => k.KeyHash) ∧
      (∀ user : User, user.ID = 1 →
        (AuthHandler.ListAPIKeys sampleDb (some user)).1 =
          { status := 200, body := .apiKeys (resp.APIKeys.map APIKey.toJSON) resp.Total }) ∧
      ∀ k ∈ resp.APIKeys,
        (k.toJSON.map Prod.fst =
          ["id", "user_id", "name", "key_prefix", "last_used_at"] ++
            (if k.ExpiresAt.isSome then ["expires_at"] else []) ++ ["is_active", "created_at"] ∧
        k.toJSON.lookup "id" = some (Json.num k.ID) ∧
        k.toJSON.lookup "user_id" = some (Json.num k.UserID) ∧
        k.toJSON.lookup "name" = some (Json.str k.Name) ∧
        k.toJSON.lookup "key_prefix" = some (Json.bytes k.KeyPrefix) ∧
        k.toJSON.lookup "last_used_at" =
          some (match k.LastUsedAt with | none => Json.null | some t => Json.time t) ∧
        k.toJSON.lookup "expires_at" = k.ExpiresAt.map Json.time ∧
        k.toJSON.lookup "is_active" = some (Json.bool k.IsActive) ∧
        k.toJSON.lookup "created_at" = some (Json.time k.CreatedAt) ∧
        k.toJSON.lookup "key_hash" = none) ∧
        ∀ h, ({ k with KeyHash := h } : APIKey).toJSON = k.toJSON :=
  ⟨rfl, by decide, C10_list_api_keys sampleDb 1 rfl⟩

/-! ### The authentication gate -/

theorem splitN_bearer (token : Bytes) :
    SplitN (ascii "Bearer " ++ token) = [ascii "Bearer", token] := by
  rfl

/-- Two parts come from a cut at a space. -/
theorem splitN_two (s a b : Bytes) (h : SplitN s = [a, b]) : s = a ++ 32 :: b := by
  unfold SplitN at h
  split at h
  · simp at h
  · rename_i before c after heq
    simp only [List.cons.injEq, and_true] at h
    obtain ⟨rfl, rfl⟩ := h
    rw [List.span_eq_take_drop] at heq
    simp only [Prod.mk.injEq] at heq
    obtain ⟨h1, h2⟩ := heq
    have hs : s = before ++ c :: after := by
      rw [← h1, ← h2]; exact (List.takeWhile_append_dropWhile _ s).symm
    have hc : c = 32 := by
      have hne : s.dropWhile (fun c => c != 32) ≠ [] := by rw [h2]; simp
      have := List.head_dropWhile_not (fun c => c != 32) s hne
      simp only [h2, List.head_cons] at this
      simpa using this
    rw [hs, hc]

/-- The header is bearer-shaped exactly when SplitN gives the word Bearer and a rest. -/
theorem bearer_shape_iff (s : Bytes) :
    (¬ ((SplitN s).length ≠ 2 ∨ (SplitN s).getD 0 [] ≠ ascii "Bearer")) ↔
      ∃ token, s = ascii "Bearer " ++ token := by
  constructor
  · intro h
    simp only [not_or, ne_eq, not_not] at h
    obtain ⟨hlen, h0⟩ := h
    match hs : SplitN s, hlen, h0 with
    | [a, b], _, h0 =>
      simp only [List.getD_cons_zero] at h0
      refine ⟨b, ?_⟩
      rw [splitN_two s a b hs, h0]
      rfl
  · rintro ⟨token, rfl⟩
    rw [splitN_bearer]
    simp

/-- The gate on a request without an Authorization value. -/
theorem authenticate_missing (env : Env) (db : Db) (r : Request)
    (h : r.headerGetAuthorization = []) :
    AuthMiddleware.Authenticate env db r =
      { written := some (respondError 401 "missing authorization header"), forwarded := [],
        validated := [], db := db, spawned := [] } := by
  simp [AuthMiddleware.Authenticate, h]

/-- The gate on a request whose Authorization value is not bearer-shaped. -/
theorem authenticate_malformed (env : Env) (db : Db) (r : Request)
    (hne : r.headerGetAuthorization ≠ [])
    (h : ∀ token, r.headerGetAuthorization ≠ ascii "Bearer " ++ token) :
    AuthMiddleware.Authenticate env db r =
      { written := some (respondError 401 "invalid authorization header format"),
        forwarded := [], validated := [], db := db, spawned := [] } := by
  have hshape : (SplitN r.headerGetAuthorization).length ≠ 2 ∨
      (SplitN r.headerGetAuthorization).getD 0 [] ≠ ascii "Bearer" := by
    by_contra hcon
    obtain ⟨token, ht⟩ := (bearer_shape_iff _).mp hcon
    exact h token ht
  simp only [AuthMiddleware.Authenticate, hne, ↓reduceIte, hshape]

/-- The gate on a bearer-shaped request: the rest of the value goes to ValidateAPIKey and
its outcome decides. -/
theorem authenticate_bearer (env : Env) (db : Db) (r : Request) (token : Bytes)
    (h : r.headerGetAuthorization = ascii "Bearer " ++ token) :
    AuthMiddleware.Authenticate env db r =
      match AuthService.ValidateAPIKey env db token with
      | (.error _, db, spawned) =>
        { written := some (respondError 401 "invalid or expired API key"), forwarded := [],
          validated := [token], db := db, spawned := spawned }
      | (.ok user, db, spawned) =>
        { written := none,
          forwarded := [{ r with ctx := r.ctx.WithValue UserContextKey (.userPtr (some user)) }],
          validated := [token], db := db, spawned := spawned } := by
  have hne : r.headerGetAuthorization ≠ [] := by rw [h]; exact fun hh => by cases hh
  have hshape : ¬ ((SplitN r.headerGetAuthorization).length ≠ 2 ∨
      (SplitN r.headerGetAuthorization).getD 0 [] ≠ ascii "Bearer") :=
    (bearer_shape_iff _).mpr ⟨token, h⟩
  simp only [AuthMiddleware.Authenticate, hne, ↓reduceIte, hshape]
  rw [h, splitN_bearer]
  rfl

/-- C11: for every request whose Authorization value is missing (absent or empty) the gate
answers 401 "missing authorization header", and for every request whose value is present
but is not the word Bearer, a space and a rest it answers 401 "invalid authorization header
format"; in both cases ValidateAPIKey is not called, the store is handed back untouched and
the downstream handler is not invoked. A value of the shape Bearer, space, token is the
only one whose token reaches ValidateAPIKey. -/
theorem C11_gate_rejects_before_validation (env : Env) (db : Db) (r : Request) :
    ((r.Authorization = none ∨ r.Authorization = some []) →
      AuthMiddleware.Authenticate env db r =
        { written := some (respondError 401 "missing authorization header"), forwarded := [],
          validated := [], db := db, spawned := [] }) ∧
    (∀ value, r.Authorization = some value → value ≠ [] →
      (∀ token, value ≠ ascii "Bearer " ++ token) →
      AuthMiddleware.Authenticate env db r =
        { written := some (respondError 401 "invalid authorization header format"),
          forwarded := [], validated := [], db := db, spawned := [] }) ∧
    (respondError 401 "missing authorization header").status = 401 ∧
    (respondError 401 "invalid authorization header format").status = 401 ∧
    (∀ token, r.Authorization = some (ascii "Bearer " ++ token) →
      (AuthMiddleware.Authenticate env db r).validated = [token]) ∧
    ((AuthMiddleware.Authenticate env db r).validated ≠ [] →
      ∃ token, r.Authorization = some (ascii "Bearer " ++ token)) := by
  refine ⟨?_, ?_, rfl, rfl, ?_, ?_⟩
  · intro h
    apply authenticate_missing
    rcases h with h | h <;> simp [Request.headerGetAuthorization, h]
  · intro value hv hne hshape
    apply authenticate_malformed
    · simpa [Request.headerGetAuthorization, hv] using hne
    · simpa [Request.headerGetAuthorization, hv] using hshape
  · intro token hv
    rw [authenticate_bearer env db r token (by simp [Request.headerGetAuthorization, hv])]
    split <;> rfl
  · intro hval
    by_contra hcon
    simp only [not_exists] at hcon
    cases hA : r.Authorization with
    | none =>
      rw [authenticate_missing env db r (by simp [Request.headerGetAuthorization, hA])] at hval
      exact hval rfl
    | some value =>
      by_cases hne : value = []
      · rw [authenticate_missing env db r (by simp [Request.headerGetAuthorization, hA, hne])]
          at hval
        exact hval rfl
      · rw [authenticate_malformed env db r
          (by simpa [Request.headerGetAuthorization, hA] using hne)
          (by
            intro token ht
            apply hcon token
            rw [hA]
            simpa [Request.headerGetAuthorization, hA] using ht)] at hval
        exact hval rfl

/-- C11 on the sample store: a request without the header, one with the scheme Basic and
one with the word bearer in lower case. -/
theorem C11_gate_rejects_before_validation_witness :
    AuthMiddleware.Authenticate sampleEnv sampleDb { Authorization := none, ctx := [] } =
      { written := some (respondError 401 "missing authorization header"), forwarded := [],
        validated := [], db := sampleDb, spawned := [] } ∧
    AuthMiddleware.Authenticate sampleEnv sampleDb
        { Authorization := some (ascii "Basic dXNlcjpwdw"), ctx := [] } =
      { written := some (respondError 401 "invalid authorization header format"),
        forwarded := [], validated := [], db := sampleDb, spawned := [] } ∧
    AuthMiddleware.Authenticate sampleEnv sampleDb
        { Authorization := some (ascii "bearer " ++ firstKey), ctx := [] } =
      { written := some (respondError 401 "invalid authorization header format"),
        forwarded := [], validated := [], db := sampleDb, spawned := [] } :=
  ⟨(C11_gate_rejects_before_validation sampleEnv sampleDb
      { Authorization := none, ctx := [] }).1 (Or.inl rfl),
    (C11_gate_rejects_before_validation sampleEnv sampleDb
      { Authorization := some (ascii "Basic dXNlcjpwdw"), ctx := [] }).2.1 _ rfl (by decide)
      (fun token h => by simp [ascii] at h),
    (C11_gate_rejects_before_validation sampleEnv sampleDb
      { Authorization := some (ascii "bearer " ++ firstKey), ctx := [] }).2.1 _ rfl (by decide)
      (fun token h => by simp [ascii] at h)⟩

/-- C12 as stated fails: the gate rejects a request without the header, a request with the
scheme Basic and a request bearing the expired key 2 of the sample store, all three with
status 401 and without invoking the downstream handler, but with three different
bodies. -/
theorem C12_failure_bodies_differ :
    (AuthMiddleware.Authenticate sampleEnv sampleDb { Authorization := none, ctx := [] }).written =
      some { contentType := "application/json", status := 401,
             body := "\x7b\"error\":\"missing authorization header\"\x7d" } ∧
    (AuthMiddleware.Authenticate sampleEnv sampleDb
        { Authorization := some (ascii "Basic dXNlcjpwdw"), ctx := [] }).written =
      some { contentType := "application/json", status := 401,
             body := "\x7b\"error\":\"invalid authorization header format\"\x7d" } ∧
    (AuthMiddleware.Authenticate sampleEnv sampleDb (bearerRequest expiredKey)).written =
      some { contentType := "application/json", status := 401,
             body := "\x7b\"error\":\"invalid or expired API key\"\x7d" } ∧
    (AuthMiddleware.Authenticate sampleEnv sampleDb { Authorization := none, ctx := [] }).forwarded
      = [] ∧
    (AuthMiddleware.Authenticate sampleEnv sampleDb
        { Authorization := some (ascii "Basic dXNlcjpwdw"), ctx := [] }).forwarded = [] ∧
    (AuthMiddleware.Authenticate sampleEnv sampleDb (bearerRequest expiredKey)).forwarded = [] ∧
    (AuthMiddleware.Authenticate sampleEnv sampleDb { Authorization := none, ctx := [] }).written ≠
      (AuthMiddleware.Authenticate sampleEnv sampleDb
        { Authorization := some (ascii "Basic dXNlcjpwdw"), ctx := [] }).written := by
  decide

/-- Every run of the gate that does not reach the downstream handler is one of three
rejections. -/
theorem authenticate_failure_cases (env : Env) (db : Db) (r : Request)
    (hfail : (AuthMiddleware.Authenticate env db r).forwarded = []) :
    (r.headerGetAuthorization = [] ∧
      (AuthMiddleware.Authenticate env db r).written =
        some (respondError 401 "missing authorization header")) ∨
    (r.headerGetAuthorization ≠ [] ∧
      (∀ token, r.headerGetAuthorization ≠ ascii "Bearer " ++ token) ∧
      (AuthMiddleware.Authenticate env db r).written =
        some (respondError 401 "invalid authorization header format")) ∨
    (∃ token e, r.headerGetAuthorization = ascii "Bearer " ++ token ∧
      (AuthService.ValidateAPIKey env db token).1 = .error e ∧
      (AuthMiddleware.Authenticate env db r).written =
        some (respondError 401 "invalid or expired API key")) := by
  by_cases hempty : r.headerGetAuthorization = []
  · left
    rw [authenticate_missing env db r hempty]
    exact ⟨hempty, rfl⟩
  · right
    by_cases hshape : ∃ token, r.headerGetAuthorization = ascii "Bearer " ++ token
    · right
      obtain ⟨token, ht⟩ := hshape
      rw [authenticate_bearer env db r token ht] at hfail ⊢
      split at hfail
      · rename_i e db1 sp heq
        refine ⟨token, e, ht, by rw [heq], ?_⟩
        simp only [heq]
      · simp at hfail
    · left
      simp only [not_exists] at hshape
      rw [authenticate_malformed env db r hempty hshape]
      exact ⟨hempty, hshape, rfl⟩

/-- C12, amended: every run of the gate that does not reach the downstream handler writes
status 401 with the content type application/json, and its body is the JSON error object
with one of three messages, fixed by the kind of failure: "missing authorization header"
for a missing value, "invalid authorization header format" for a value that is not
bearer-shaped, "invalid or expired API key" for every error of ValidateAPIKey. -/
theorem C12_gate_failure_responses (env : Env) (db : Db) (r : Request)
    (hfail : (AuthMiddleware.Authenticate env db r).forwarded = []) :
    (∃ w, (AuthMiddleware.Authenticate env db r).written = some w ∧ w.status = 401 ∧
      w.contentType = "application/json") ∧
    ((r.headerGetAuthorization = [] ∧
      (AuthMiddleware.Authenticate env db r).written =
        some (respondError 401 "missing authorization header")) ∨
    (r.headerGetAuthorization ≠ [] ∧
      (∀ token, r.headerGetAuthorization ≠ ascii "Bearer " ++ token) ∧
      (AuthMiddleware.Authenticate env db r).written =
        some (respondError 401 "invalid authorization header format")) ∨
    (∃ token e, r.headerGetAuthorization = ascii "Bearer " ++ token ∧
      (AuthService.ValidateAPIKey env db token).1 = .error e ∧
      (AuthMiddleware.Authenticate env db r).written =
        some (respondError 401 "invalid or expired API key"))) := by
  have h := authenticate_failure_cases env db r hfail
  refine ⟨?_, h⟩
  rcases h with ⟨_, hw⟩ | ⟨_, _, hw⟩ | ⟨_, _, _, _, hw⟩ <;> exact ⟨_, hw, rfl, rfl⟩

/-- C12 (amended) on the sample store, for the request bearing the expired key 2. -/
theorem C12_gate_failure_responses_witness :
    (AuthMiddleware.Authenticate sampleEnv sampleDb (bearerRequest expiredKey)).forwarded = [] ∧
    ∃ w, (AuthMiddleware.Authenticate sampleEnv sampleDb (bearerRequest expiredKey)).written =
      some w ∧ w.status = 401 ∧ w.contentType = "application/json" :=
  ⟨by decide,
    (C12_gate_failure_responses sampleEnv sampleDb (bearerRequest expiredKey) (by decide)).1⟩

theorem respondError_invalid_key :
    respondError 401 "invalid or expired API key" =
      { contentType := "application/json", status := 401,
        body := "\x7b\"error\":\"invalid or expired API key\"\x7d" } := by
  decide

/-- C13: for a request whose Authorization value is Bearer, a space and a token, whatever
error ValidateAPIKey returns for the token, the gate writes status 401 with the body
{"error":"invalid or expired API key"} and does not invoke the downstream handler. -/
theorem C13_validation_errors_collapsed (env : Env) (db : Db) (r : Request) (token : Bytes)
    (e : String) (hheader : r.Authorization = some (ascii "Bearer " ++ token))
    (herr : (AuthService.ValidateAPIKey env db token).1 = .error e) :
    (AuthMiddleware.Authenticate env db r).written =
      some { contentType := "application/json", status := 401,
             body := "\x7b\"error\":\"invalid or expired API key\"\x7d" } ∧
    (AuthMiddleware.Authenticate env db r).forwarded = [] := by
  rw [authenticate_bearer env db r token (by simp [Request.headerGetAuthorization, hheader])]
  split
  · exact ⟨congrArg some respondError_invalid_key, rfl⟩
  · rename_i u db1 sp heq
    rw [heq] at herr
    cases herr

/-- C13 on the sample store: a malformed token, a well-formed key no record matches, the
expired key 2, key 1 after its owner alice has been removed, and key 1 after alice has been
deactivated. -/
theorem C13_validation_errors_collapsed_witness :
    (AuthService.ValidateAPIKey sampleEnv sampleDb (ascii "rct_short")).1 =
      .error "invalid API key format" ∧
    (AuthService.ValidateAPIKey sampleEnv sampleDb sampleKey).1 = .error "invalid API key" ∧
    (AuthService.ValidateAPIKey sampleEnv sampleDb expiredKey).1 = .error "invalid API key" ∧
    (AuthService.ValidateAPIKey sampleEnv { sampleDb with users := [bob] } firstKey).1 =
      .error "user not found: user not found" ∧
    (AuthService.ValidateAPIKey sampleEnv
      { sampleDb with users := [{ alice with IsActive := false }, bob] } firstKey).1 =
      .error "user account is inactive" ∧
    (AuthMiddleware.Authenticate sampleEnv sampleDb (bearerRequest (ascii "rct_short"))).written =
      some { contentType := "application/json", status := 401,
             body := "\x7b\"error\":\"invalid or expired API key\"\x7d" } ∧
    (AuthMiddleware.Authenticate sampleEnv sampleDb (bearerRequest sampleKey)).written =
      some { contentType := "application/json", status := 401,
             body := "\x7b\"error\":\"invalid or expired API key\"\x7d" } ∧
    (AuthMiddleware.Authenticate sampleEnv sampleDb (bearerRequest expiredKey)).written =
      some { contentType := "application/json", status := 401,
             body := "\x7b\"error\":\"invalid or expired API key\"\x7d" } ∧
    (AuthMiddleware.Authenticate sampleEnv { sampleDb with users := [bob] }
      (bearerRequest firstKey)).written =
      some { contentType := "application/json", status := 401,
             body := "\x7b\"error\":\"invalid or expired API key\"\x7d" } ∧
    (AuthMiddleware.Authenticate sampleEnv
      { sampleDb with users := [{ alice with IsActive := false }, bob] }
      (bearerRequest firstKey)).written =
      some { contentType := "application/json", status := 401,
             body := "\x7b\"error\":\"invalid or expired API key\"\x7d" } :=
  ⟨by decide, by decide, by decide, by decide, by decide,
    (C13_validation_errors_collapsed sampleEnv sampleDb (bearerRequest (ascii "rct_short"))
      (ascii "rct_short") "invalid API key format" rfl (by decide)).1,
    (C13_validation_errors_collapsed sampleEnv sampleDb (bearerRequest sampleKey) sampleKey
      "invalid API key" rfl (by decide)).1,
    (C13_validation_errors_collapsed sampleEnv sampleDb (bearerRequest expiredKey) expiredKey
      "invalid API key" rfl (by decide)).1,
    (C13_validation_errors_collapsed sampleEnv { sampleDb with users := [bob] }
      (bearerRequest firstKey) firstKey "user not found: user not found" rfl (by decide)).1,
    (C13_validation_errors_collapsed sampleEnv
      { sampleDb with users := [{ alice with IsActive := false }, bob] }
      (bearerRequest firstKey) firstKey "user account is inactive" rfl (by decide)).1⟩

/-- C14: for a request whose Authorization value is Bearer, a space and a token for which
ValidateAPIKey returns the account u, the gate writes nothing itself and invokes the
downstream handler exactly once, with the same request on a context on which
GetUserFromContext returns u and true; on a context without a binding of UserContextKey
GetUserFromContext returns nil and false. -/
theorem C14_gate_binds_principal (env : Env) (db : Db) (r : Request) (token : Bytes) (u : User)
    (hheader : r.Authorization = some (ascii "Bearer " ++ token))
    (hok : (AuthService.ValidateAPIKey env db token).1 = .ok u) :
    (∃ r2, (AuthMiddleware.Authenticate env db r).forwarded = [r2] ∧
      r2.Authorization = r.Authorization ∧
      GetUserFromContext r2.ctx = (some u, true)) ∧
    (AuthMiddleware.Authenticate env db r).written = none ∧
    (∀ ctx : Context, (∀ e ∈ ctx, e.1 ≠ UserContextKey) →
      GetUserFromContext ctx = (none, false)) := by
  rw [authenticate_bearer env db r token (by simp [Request.headerGetAuthorization, hheader])]
  refine ⟨?_, ?_, ?_⟩
  · split
    · rename_i e db1 sp heq
      rw [heq] at hok
      cases hok
    · rename_i u2 db1 sp heq
      rw [heq] at hok
      simp only [Except.ok.injEq] at hok
      subst hok
      refine ⟨_, rfl, rfl, ?_⟩
      simp [GetUserFromContext, Context.Value, Context.WithValue]
  · split
    · rename_i e db1 sp heq
      rw [heq] at hok
      cases hok
    · rfl
  · intro ctx hctx
    have hnone : ctx.find? (fun e => e.1 == UserContextKey) = none := by
      rw [List.find?_eq_none]
      intro e he
      simpa using hctx e he
    simp [GetUserFromContext, Context.Value, hnone]

/-- C14 on the sample store: alice presents key 1; a context bound by a foreign key of
the same text holds no principal. -/
theorem C14_gate_binds_principal_witness :
    (∃ r2, (AuthMiddleware.Authenticate sampleEnv sampleDb (bearerRequest firstKey)).forwarded =
        [r2] ∧
      r2.Authorization = (bearerRequest firstKey).Authorization ∧
      GetUserFromContext r2.ctx = (some alice, true)) ∧
    (AuthMiddleware.Authenticate sampleEnv sampleDb (bearerRequest firstKey)).written = none ∧
    GetUserFromContext [(CtxKey.foreign "user", CtxValue.userPtr (some bob))] = (none, false) :=
  ⟨(C14_gate_binds_principal sampleEnv sampleDb (bearerRequest firstKey) firstKey alice rfl
      (by decide)).1,
    (C14_gate_binds_principal sampleEnv sampleDb (bearerRequest firstKey) firstKey alice rfl
      (by decide)).2.1,
    (C14_gate_binds_principal sampleEnv sampleDb (bearerRequest firstKey) firstKey alice rfl
      (by decide)).2.2 _ (by decide)⟩

/-! ### Lengths of encodings and digests -/

theorem encodeToString_length (alphabet : Bytes) (bs : Bytes) :
    (encodeToString alphabet bs).length = (4 * bs.length + 2) / 3 := by
  induction bs using encodeToString.induct alphabet with
  | case1 a b c rest ih =>
    simp only [encodeToString, List.length_cons, ih]
    omega
  | case2 a b => simp [encodeToString]
  | case3 a => simp [encodeToString]
  | case4 => simp [encodeToString]

theorem sha256Round_length (st : List Nat) (kw : Nat × Nat) :
    (sha256Round st kw).length = st.length := by
  unfold sha256Round
  split <;> simp

theorem sha256Round_foldl_length (kws : List (Nat × Nat)) (st : List Nat) :
    (kws.foldl sha256Round st).length = st.length := by
  induction kws generalizing st with
  | nil => rfl
  | cons kw kws ih => simp only [List.foldl_cons, ih, sha256Round_length]

theorem sha256Block_length (h block : List Nat) : (sha256Block h block).length = h.length := by
  simp [sha256Block, sha256Round_foldl_length]

theorem sha256Blocks_length (n : Nat) (h ws : List Nat) :
    (sha256Blocks n h ws).length = h.length := by
  induction n generalizing h ws with
  | zero => rfl
  | succ n ih =>
    unfold sha256Blocks
    split
    · rfl
    · rw [ih, sha256Block_length]

theorem flatMap_four_length (l : List Nat) (f : Nat → List Nat) (hf : ∀ x, (f x).length = 4) :
    (l.flatMap f).length = 4 * l.length := by
  induction l with
  | nil => rfl
  | cons x xs ih =>
    simp only [List.flatMap_cons, List.length_append, hf, ih, List.length_cons]
    omega

/-- A SHA-256 digest has 32 bytes. -/
theorem sha256_length (msg : Bytes) : (sha256 msg).length = 32 := by
  unfold sha256
  simp only
  rw [flatMap_four_length _
    (fun x => [x / 16777216 % 256, x / 65536 % 256, x / 256 % 256, x % 256]) (fun x => rfl),
    sha256Blocks_length]
  rfl

/-- A lookup hash has 43 characters. -/
theorem hashAPIKey_length (apiKey : Bytes) : (HashAPIKey apiKey).length = 43 := by
  unfold HashAPIKey
  rw [encodeToString_length, sha256_length]

/-- A key generated from 32 random bytes has 47 characters. -/
theorem generated_key_length (rb : Bytes) (hlen : rb.length = 32) :
    (apiKeyPrefix ++ encodeToString encodeURL rb).length = 47 := by
  rw [List.length_append, encodeToString_length, hlen]
  rfl

/-! ### Generated keys -/

/-- The display prefix of a key generated from 32 random bytes: its first twelve
characters, the literal prefix and eight encoded ones. -/
theorem extractPrefix_generated (rb : Bytes) (hlen : rb.length = 32) :
    extractPrefix (apiKeyPrefix ++ encodeToString encodeURL rb) =
      (apiKeyPrefix ++ encodeToString encodeURL rb).take 12 ∧
    extractPrefix (apiKeyPrefix ++ encodeToString encodeURL rb) =
      apiKeyPrefix ++ (encodeToString encodeURL rb).take 8 ∧
    (extractPrefix (apiKeyPrefix ++ encodeToString encodeURL rb)).length = 12 := by
  have hk := generated_key_length rb hlen
  have he : (encodeToString encodeURL rb).length = 43 := by
    rw [encodeToString_length, hlen]
  have hP : apiKeyPrefix.length = 4 := rfl
  have h1 : extractPrefix (apiKeyPrefix ++ encodeToString encodeURL rb) =
      (apiKeyPrefix ++ encodeToString encodeURL rb).take 12 := by
    unfold extractPrefix
    rw [hk, hP]
    rfl
  have h2 : (apiKeyPrefix ++ encodeToString encodeURL rb).take 12 =
      apiKeyPrefix ++ (encodeToString encodeURL rb).take 8 := by
    rw [List.take_append_eq_append_take, hP, List.take_of_length_le (by rw [hP]; omega)]
  refine ⟨h1, h1.trans h2, ?_⟩
  rw [h1, List.length_take, hk]
  rfl

/-- C15: for every buffer of 32 random bytes, GenerateAPIKey returns the key made of the
literal prefix and the RawURLEncoding of the buffer, decoding the part after the prefix
gives the buffer back, and ValidateAPIKeyFormat accepts the key. -/
theorem C15_generated_key_well_formed (rb : Bytes) (hlen : rb.length = 32)
    (hbytes : ∀ b ∈ rb, b < 256) :
    ∃ plainKey hash keyPrefix,
      GenerateAPIKey (.ok rb) = .ok (plainKey, hash, keyPrefix) ∧
      plainKey = ascii "rct_" ++ encodeToString encodeURL rb ∧
      decodeString encodeURL (plainKey.drop apiKeyPrefix.length) = some rb ∧
      ValidateAPIKeyFormat plainKey = true := by
  refine ⟨_, _, _, rfl, rfl, ?_, validateFormat_generated rb hlen hbytes⟩
  show decodeString encodeURL ((apiKeyPrefix ++ encodeToString encodeURL rb).drop
    apiKeyPrefix.length) = some rb
  rw [List.drop_left]
  exact decodeString_encodeToString rb hbytes

/-- C15 for the random buffer 0, 1, ..., 31. -/
theorem C15_generated_key_well_formed_witness :
    (GenerateAPIKey (.ok (List.range 32))).map (fun r => r.1) =
      .ok (ascii "rct_AAECAwQFBgcICQoLDA0ODxAREhMUFRYXGBkaGxwdHh8") ∧
    ∃ plainKey hash keyPrefix,
      GenerateAPIKey (.ok (List.range 32)) = .ok (plainKey, hash, keyPrefix) ∧
      plainKey = ascii "rct_" ++ encodeToString encodeURL (List.range 32) ∧
      decodeString encodeURL (plainKey.drop apiKeyPrefix.length) = some (List.range 32) ∧
      ValidateAPIKeyFormat plainKey = true :=
  ⟨by decide, C15_generated_key_well_formed (List.range 32) (by decide) (by decide)⟩

/-- ValidateAPIKeyFormat spelled out. -/
theorem validateFormat_iff (apiKey : Bytes) :
    ValidateAPIKeyFormat apiKey = true ↔
      ∃ rest decoded, apiKey = ascii "rct_" ++ rest ∧
        decodeString encodeURL rest = some decoded ∧ decoded.length = 32 := by
  constructor
  · intro h
    unfold ValidateAPIKeyFormat at h
    split at h
    · cases h
    · rename_i hp
      have hp2 : apiKeyPrefix.isPrefixOf apiKey = true := by
        cases hb : apiKeyPrefix.isPrefixOf apiKey with
        | true => rfl
        | false => rw [hb] at hp; exact absurd rfl hp
      rw [List.isPrefixOf_iff_prefix] at hp2
      obtain ⟨rest, hrest⟩ := hp2
      simp only at h
      split at h
      · cases h
      · rename_i decoded hdec
        rw [← hrest, List.drop_left] at hdec
        refine ⟨rest, decoded, hrest.symm, hdec, ?_⟩
        simpa [apiKeyLength] using h
  · rintro ⟨rest, decoded, rfl, hdec, hlen⟩
    have hp : apiKeyPrefix.isPrefixOf (ascii "rct_" ++ rest) = true := by
      rw [List.isPrefixOf_iff_prefix]
      exact List.prefix_append _ _
    have hd : (ascii "rct_" ++ rest).drop apiKeyPrefix.length = rest :=
      List.drop_left _ _
    simp only [ValidateAPIKeyFormat, hp, Bool.not_true, Bool.false_eq_true, ↓reduceIte, hd, hdec,
      hlen, apiKeyLength, beq_self_eq_true]

/-- C16: ValidateAPIKeyFormat returns true exactly when the candidate is the literal
prefix rct_ followed by a rest that RawURLEncoding.DecodeString decodes to 32 bytes; so it
returns false for every candidate without the prefix, for a rest that does not decode and
for a rest that decodes to another length, and on the candidates of the test: the two
without the prefix, the empty string, the bare prefix and the invalid base64. -/
theorem C16_validate_format (apiKey : Bytes) :
    (ValidateAPIKeyFormat apiKey = true ↔
      ∃ rest decoded, apiKey = ascii "rct_" ++ rest ∧
        decodeString encodeURL rest = some decoded ∧ decoded.length = 32) ∧
    ((∀ rest, apiKey ≠ ascii "rct_" ++ rest) → ValidateAPIKeyFormat apiKey = false) ∧
    (∀ rest, apiKey = ascii "rct_" ++ rest → decodeString encodeURL rest = none →
      ValidateAPIKeyFormat apiKey = false) ∧
    (∀ rest decoded, apiKey = ascii "rct_" ++ rest → decodeString encodeURL rest = some decoded →
      decoded.length ≠ 32 → ValidateAPIKeyFormat apiKey = false) ∧
    ValidateAPIKeyFormat (ascii "abc123456789") = false ∧
    ValidateAPIKeyFormat (ascii "wrong_abc123456789") = false ∧
    ValidateAPIKeyFormat (ascii "") = false ∧
    ValidateAPIKeyFormat (ascii "rct_") = false ∧
    ValidateAPIKeyFormat (ascii "rct_!!!invalid!!!") = false := by
  have hiff := validateFormat_iff apiKey
  refine ⟨hiff, ?_, ?_, ?_, by decide, by decide, by decide, by decide, by decide⟩
  · intro hno
    rw [← Bool.not_eq_true, hiff]
    rintro ⟨rest, _, h, _⟩
    exact hno rest h
  · intro rest hk hdec
    rw [← Bool.not_eq_true, hiff]
    rintro ⟨rest2, decoded, h, hd, _⟩
    have : rest2 = rest := List.append_cancel_left (h.symm.trans hk)
    rw [this, hdec] at hd
    cases hd
  · intro rest decoded hk hdec hlen
    rw [← Bool.not_eq_true, hiff]
    rintro ⟨rest2, decoded2, h, hd, hl⟩
    have : rest2 = rest := List.append_cancel_left (h.symm.trans hk)
    rw [this, hdec] at hd
    simp only [Option.some.injEq] at hd
    rw [← hd] at hl
    exact hlen hl

/-- C16 on a key whose rest decodes to 31 bytes. -/
theorem C16_validate_format_witness :
    decodeString encodeURL (encodeToString encodeURL (List.range 31)) = some (List.range 31) ∧
    ValidateAPIKeyFormat (ascii "rct_" ++ encodeToString encodeURL (List.range 31)) = false :=
  ⟨by decide,
    (C16_validate_format (ascii "rct_" ++ encodeToString encodeURL (List.range 31))).2.2.2.1
      _ (List.range 31) rfl (by decide) (by decide)⟩

/-- C17: for every buffer of 32 random bytes GenerateAPIKey succeeds and its three results
fit together: plainKey is rct_ followed by the encoding of the buffer, hash is
HashAPIKey(plainKey) and is not empty, and the display prefix is the first 12 characters of
plainKey, that is rct_ and the first 8 encoded characters, of length len(rct_) + 8. -/
theorem C17_generate_results_consistent (rb : Bytes) (hlen : rb.length = 32) :
    ∃ plainKey hash keyPrefix,
      GenerateAPIKey (.ok rb) = .ok (plainKey, hash, keyPrefix) ∧
      ascii "rct_" <+: plainKey ∧
      plainKey = ascii "rct_" ++ encodeToString encodeURL rb ∧
      hash = HashAPIKey plainKey ∧ hash ≠ [] ∧
      keyPrefix = plainKey.take 12 ∧
      keyPrefix = ascii "rct_" ++ (encodeToString encodeURL rb).take 8 ∧
      keyPrefix.length = (ascii "rct_").length + 8 := by
  obtain ⟨h1, h2, h3⟩ := extractPrefix_generated rb hlen
  refine ⟨_, _, _, rfl, List.prefix_append _ _, rfl, rfl, ?_, h1, h2, h3⟩
  intro hempty
  have := hashAPIKey_length (apiKeyPrefix ++ encodeToString encodeURL rb)
  rw [hempty] at this
  cases this

/-- C17 for the random buffer 0, 1, ..., 31. -/
theorem C17_generate_results_consistent_witness :
    GenerateAPIKey (.ok (List.range 32)) =
      .ok (ascii "rct_AAECAwQFBgcICQoLDA0ODxAREhMUFRYXGBkaGxwdHh8",
        HashAPIKey (ascii "rct_AAECAwQFBgcICQoLDA0ODxAREhMUFRYXGBkaGxwdHh8"),
        ascii "rct_AAECAwQF") ∧
    ∃ plainKey hash keyPrefix,
      GenerateAPIKey (.ok (List.range 32)) = .ok (plainKey, hash, keyPrefix) ∧
      ascii "rct_" <+: plainKey ∧
      plainKey = ascii "rct_" ++ encodeToString encodeURL (List.range 32) ∧
      hash = HashAPIKey plainKey ∧ hash ≠ [] ∧
      keyPrefix = plainKey.take 12 ∧
      keyPrefix = ascii "rct_" ++ (encodeToString encodeURL (List.range 32)).take 8 ∧
      keyPrefix.length = (ascii "rct_").length + 8 :=
  ⟨by decide, C17_generate_results_consistent (List.range 32) (by decide)⟩

/-- C18: for the key k that GenerateAPIKey builds from a buffer of 32 random bytes,
MaskAPIKey(k) returns the display prefix of k, three dots and the last 4 characters of k;
the result has 19 characters, fewer than the 47 of k, starts with rct_ and contains the
three dots. -/
theorem C18_mask_generated_key (rb : Bytes) (hlen : rb.length = 32) :
    ∃ plainKey hash keyPrefix masked,
      GenerateAPIKey (.ok rb) = .ok (plainKey, hash, keyPrefix) ∧
      MaskAPIKey plainKey = some masked ∧
      masked = keyPrefix ++ ascii "..." ++ plainKey.drop (plainKey.length - 4) ∧
      (plainKey.drop (plainKey.length - 4)).length = 4 ∧
      masked.length < plainKey.length ∧
      ascii "rct_" <+: masked ∧
      ascii "..." <:+: masked := by
  obtain ⟨h1, h2, h3⟩ := extractPrefix_generated rb hlen
  have hk := generated_key_length rb hlen
  have hlast : ((apiKeyPrefix ++ encodeToString encodeURL rb).drop
      ((apiKeyPrefix ++ encodeToString encodeURL rb).length - 4)).length = 4 := by
    rw [List.length_drop, hk]
  refine ⟨_, _, _, _, rfl, ?_, rfl, hlast, ?_, ?_, ?_⟩
  · simp only [MaskAPIKey, hk]
    rfl
  · rw [List.length_append, List.length_append, h3, hlast, hk]
    decide
  · rw [h2]
    exact ⟨(encodeToString encodeURL rb).take 8 ++ ascii "..." ++
      (apiKeyPrefix ++ encodeToString encodeURL rb).drop
        ((apiKeyPrefix ++ encodeToString encodeURL rb).length - 4), by
      simp only [List.append_assoc]; rfl⟩
  · exact ⟨extractPrefix (apiKeyPrefix ++ encodeToString encodeURL rb),
      (apiKeyPrefix ++ encodeToString encodeURL rb).drop
        ((apiKeyPrefix ++ encodeToString encodeURL rb).length - 4), rfl⟩

/-- C18 for the random buffer 0, 1, ..., 31. -/
theorem C18_mask_generated_key_witness :
    MaskAPIKey (ascii "rct_AAECAwQFBgcICQoLDA0ODxAREhMUFRYXGBkaGxwdHh8") =
      some (ascii "rct_AAECAwQF...dHh8") ∧
    ∃ plainKey hash keyPrefix masked,
      GenerateAPIKey (.ok (List.range 32)) = .ok (plainKey, hash, keyPrefix) ∧
      MaskAPIKey plainKey = some masked ∧
      masked = keyPrefix ++ ascii "..." ++ plainKey.drop (plainKey.length - 4) ∧
      (plainKey.drop (plainKey.length - 4)).length = 4 ∧
      masked.length < plainKey.length ∧
      ascii "rct_" <+: masked ∧
      ascii "..." <:+: masked :=
  ⟨by decide, C18_mask_generated_key (List.range 32) (by decide)⟩

/-! ### Distinct draws, distinct keys -/

/-- EncodeToString of RawURLEncoding is injective on byte sequences. -/
theorem encodeToString_injective (b1 b2 : Bytes) (h1 : ∀ b ∈ b1, b < 256)
    (h2 : ∀ b ∈ b2, b < 256) (h : encodeToString encodeURL b1 = encodeToString encodeURL b2) :
    b1 = b2 := by
  have e1 := decodeString_encodeToString b1 h1
  have e2 := decodeString_encodeToString b2 h2
  rw [h, e2] at e1
  exact (Option.some.inj e1).symm

/-- Pairwise distinct random buffers give pairwise distinct plaintext keys. -/
theorem generated_keys_nodup (draws : List Bytes) (hbytes : ∀ rb ∈ draws, ∀ b ∈ rb, b < 256)
    (hnodup : draws.Nodup) :
    (draws.map (fun rb => apiKeyPrefix ++ encodeToString encodeURL rb)).Nodup := by
  rw [List.nodup_map_iff_inj_on hnodup]
  intro x hx y hy hxy
  exact encodeToString_injective x y (hbytes x hx) (hbytes y hy) (List.append_cancel_left hxy)

/-- The two keys of the hashing test get different lookup hashes. -/
theorem hashAPIKey_test_keys :
    HashAPIKey (ascii "rct_test123456789abcdef") ≠ HashAPIKey (ascii "rct_different_key_here") ∧
    HashAPIKey (ascii "rct_test123456789abcdef") ≠ [] := by
  decide

theorem decChar_encChar_Std : ∀ v < 64, decChar encodeStd (encChar encodeStd v) = some v := by
  decide

/-- Decoding undoes encoding for RawStdEncoding as well. -/
theorem decodeString_encodeToString_Std (bs : Bytes) (h : ∀ b ∈ bs, b < 256) :
    decodeString encodeStd (encodeToString encodeStd bs) = some bs := by
  unfold decodeString
  induction bs using encodeToString.induct encodeStd with
  | case1 a b c rest ih =>
    have ha : a < 256 := h a (by simp)
    have hb : b < 256 := h b (by simp)
    have hc : c < 256 := h c (by simp)
    have hr : ∀ x ∈ rest, x < 256 := fun x hx => h x (by simp [hx])
    simp only [encodeToString, decodeFrom]
    rw [decChar_encChar_Std _ (Nat.mod_lt _ (by decide)), decChar_encChar_Std _ (Nat.mod_lt _ (by decide)),
      decChar_encChar_Std _ (Nat.mod_lt _ (by decide)), decChar_encChar_Std _ (Nat.mod_lt _ (by decide))]
    simp only [List.length_nil, List.nil_append, List.length_cons, List.length_singleton,
      List.cons_append, Nat.reduceEqDiff, ↓reduceIte, OfNat.zero_ne_ofNat, OfNat.one_ne_ofNat,
      Nat.reduceAdd, Nat.succ_ne_self]
    rw [quantum_four a b c ha hb hc, ih hr]
    rfl
  | case2 a b =>
    have ha : a < 256 := h a (by simp)
    have hb : b < 256 := h b (by simp)
    simp only [encodeToString, decodeFrom]
    rw [decChar_encChar_Std _ (Nat.mod_lt _ (by decide)), decChar_encChar_Std _ (Nat.mod_lt _ (by decide)),
      decChar_encChar_Std _ (Nat.mod_lt _ (by decide))]
    simp only [List.length_nil, List.nil_append, List.length_cons, List.length_singleton,
      List.cons_append, Nat.reduceEqDiff, ↓reduceIte, OfNat.zero_ne_ofNat, OfNat.one_ne_ofNat,
      Nat.reduceAdd, Nat.succ_ne_self]
    exact quantum_three a b ha hb
  | case3 a =>
    have ha : a < 256 := h a (by simp)
    simp only [encodeToString, decodeFrom]
    rw [decChar_encChar_Std _ (Nat.mod_lt _ (by decide)), decChar_encChar_Std _ (Nat.mod_lt _ (by decide))]
    simp only [List.length_nil, List.nil_append, List.length_cons, List.length_singleton,
      List.cons_append, Nat.reduceEqDiff, ↓reduceIte, OfNat.zero_ne_ofNat, OfNat.one_ne_ofNat,
      Nat.reduceAdd, Nat.succ_ne_self]
    exact quantum_two a ha
  | case4 => rfl

/-- The bytes of a digest are bytes. -/
theorem sha256_bytes (msg : Bytes) : ∀ b ∈ sha256 msg, b < 256 := by
  intro b hb
  unfold sha256 at hb
  simp only [List.mem_flatMap, List.mem_cons, List.mem_singleton, List.not_mem_nil, or_false] at hb
  obtain ⟨x, _, hx⟩ := hb
  rcases hx with rfl | rfl | rfl | rfl <;> exact Nat.mod_lt _ (by decide)

/-- Two keys have the same lookup hash exactly when they have the same SHA-256 digest. -/
theorem hashAPIKey_eq_iff (k1 k2 : Bytes) :
    HashAPIKey k1 = HashAPIKey k2 ↔ sha256 k1 = sha256 k2 := by
  constructor
  · intro h
    have e1 := decodeString_encodeToString_Std (sha256 k1) (sha256_bytes k1)
    have e2 := decodeString_encodeToString_Std (sha256 k2) (sha256_bytes k2)
    unfold HashAPIKey at h
    rw [h, e2] at e1
    exact (Option.some.inj e1).symm
  · intro h
    unfold HashAPIKey
    rw [h]

/-- Pairwise distinct random buffers give pairwise distinct lookup hashes if their keys
have pairwise distinct SHA-256 digests. -/
theorem generated_hashes_nodup_of_digests (draws : List Bytes)
    (hdigests : (draws.map
      (fun rb => sha256 (apiKeyPrefix ++ encodeToString encodeURL rb))).Nodup) :
    (draws.map (fun rb => HashAPIKey (apiKeyPrefix ++ encodeToString encodeURL rb))).Nodup := by
  have hmap : draws.map (fun rb => HashAPIKey (apiKeyPrefix ++ encodeToString encodeURL rb)) =
      (draws.map (fun rb => sha256 (apiKeyPrefix ++ encodeToString encodeURL rb))).map
        (encodeToString encodeStd) := by
    rw [List.map_map]; rfl
  rw [hmap]
  refine List.Nodup.map_on ?_ hdigests
  intro x hx y hy hxy
  obtain ⟨a, _, rfl⟩ := List.mem_map.mp hx
  obtain ⟨b, _, rfl⟩ := List.mem_map.mp hy
  exact (hashAPIKey_eq_iff _ _).mp hxy

/-! ### What a key-issuing call hands to the store -/

theorem getUserByUsername_effect (db : Db) (username : String) :
    (UserRepository.GetUserByUsername db username).2.users = db.users ∧
    (UserRepository.GetUserByUsername db username).2.apiKeys = db.apiKeys ∧
    (UserRepository.GetUserByUsername db username).2.keySeq = db.keySeq ∧
    (UserRepository.GetUserByUsername db username).2.log =
      db.log ++ [.getUserByUsername username] := by
  unfold UserRepository.GetUserByUsername
  simp only [Db.interact, Db.record]
  split <;> [skip; split] <;> exact ⟨rfl, rfl, rfl, rfl⟩

theorem getUserByID_effect (db : Db) (id : Int) :
    (UserRepository.GetUserByID db id).2.users = db.users ∧
    (UserRepository.GetUserByID db id).2.apiKeys = db.apiKeys ∧
    (UserRepository.GetUserByID db id).2.keySeq = db.keySeq ∧
    (UserRepository.GetUserByID db id).2.log = db.log ++ [.getUserByID id] := by
  unfold UserRepository.GetUserByID
  simp only [Db.interact, Db.record]
  split <;> [skip; split] <;> exact ⟨rfl, rfl, rfl, rfl⟩

/-- A successful insert of a key record: the record gets the next id of the sequence and
is appended, with last_used_at NULL, and the call is logged with the record handed in. -/
theorem createAPIKey_ok_effect (db db1 : Db) (apiKey stored : APIKey)
    (h : UserRepository.CreateAPIKey db apiKey = (.ok stored, db1)) :
    stored = { apiKey with ID := db.keySeq } ∧
    db1.users = db.users ∧
    db1.apiKeys = db.apiKeys ++ [{ apiKey with ID := db.keySeq, LastUsedAt := none }] ∧
    db1.log = db.log ++ [.createAPIKey apiKey] := by
  unfold UserRepository.CreateAPIKey at h
  simp only [Db.interact, Db.record] at h
  split at h
  · simp at h
  · simp only [Prod.mk.injEq, Except.ok.injEq] at h
    obtain ⟨h1, h2⟩ := h
    subst h1 h2
    exact ⟨rfl, rfl, rfl, rfl⟩

/-- A successful Login, driver failures elsewhere in the script included: what it returned
and what it left in the store. -/
theorem login_ok_effect (env : Env) (db db1 : Db) (req : LoginRequest) (resp : LoginResponse)
    (h : AuthService.Login env db req = (.ok resp, db1)) :
    ∃ rb, env.randRead = .ok rb ∧
      resp.APIKey = apiKeyPrefix ++ encodeToString encodeURL rb ∧
      resp.KeyID = db.keySeq ∧
      db1.users = db.users ∧
      db1.apiKeys = db.apiKeys ++
        [{ ID := db.keySeq, UserID := resp.User.ID,
           Name := "Login " ++ env.format (env.now 0),
           KeyHash := HashAPIKey resp.APIKey, KeyPrefix := extractPrefix resp.APIKey,
           LastUsedAt := none, ExpiresAt := none, IsActive := true, CreatedAt := env.now 1 }] ∧
      db1.log = db.log ++
        [.getUserByUsername req.Username,
         .createAPIKey
           { ID := 0, UserID := resp.User.ID, Name := "Login " ++ env.format (env.now 0),
             KeyHash := HashAPIKey resp.APIKey, KeyPrefix := extractPrefix resp.APIKey,
             LastUsedAt := none, ExpiresAt := none, IsActive := true,
             CreatedAt := env.now 1 }] := by
  unfold AuthService.Login at h
  have hg := getUserByUsername_effect db req.Username
  split at h
  · simp at h
  · rename_i user dbA hA
    rw [hA] at hg
    simp only at hg
    split at h
    · simp at h
    · split at h
      · simp at h
      · split at h
        · simp at h
        · cases hr : env.randRead with
          | error e => simp [GenerateAPIKey, hr] at h
          | ok rb =>
            simp only [GenerateAPIKey, hr] at h
            split at h
            · simp at h
            · rename_i stored dbB hB
              obtain ⟨hs, hu, hk, hl⟩ := createAPIKey_ok_effect _ _ _ _ hB
              simp only [Prod.mk.injEq, Except.ok.injEq] at h
              obtain ⟨h1, h2⟩ := h
              subst h1 h2
              refine ⟨rb, rfl, rfl, ?_, ?_, ?_, ?_⟩
              · rw [hs]; exact hg.2.2.1
              · rw [hu]; exact hg.1
              · rw [hk, hg.2.1, hg.2.2.1]
              · rw [hl, hg.2.2.2]; simp

/-- A successful CreateAPIKey of the service, driver failures elsewhere in the script
included: what it returned and what it left in the store. -/
theorem createAPIKey_service_ok_effect (env : Env) (db db1 : Db) (userID : Int)
    (req : CreateAPIKeyRequest) (resp : CreateAPIKeyResponse)
    (h : AuthService.CreateAPIKey env db userID req = (.ok resp, db1)) :
    ∃ rb, env.randRead = .ok rb ∧
      resp.PlainKey = apiKeyPrefix ++ encodeToString encodeURL rb ∧
      resp.APIKey =
        { ID := db.keySeq, UserID := userID, Name := req.Name,
          KeyHash := HashAPIKey resp.PlainKey, KeyPrefix := extractPrefix resp.PlainKey,
          LastUsedAt := none, ExpiresAt := req.ExpiresAt, IsActive := true,
          CreatedAt := env.now 0 } ∧
      db1.users = db.users ∧
      db1.apiKeys = db.apiKeys ++ [resp.APIKey] ∧
      db1.log = db.log ++
        [.getUserByID userID, .createAPIKey { resp.APIKey with ID := 0 }] := by
  unfold AuthService.CreateAPIKey at h
  have hg := getUserByID_effect db userID
  split at h
  · simp at h
  · rename_i user dbA hA
    rw [hA] at hg
    simp only at hg
    cases hr : env.randRead with
    | error e => simp [GenerateAPIKey, hr] at h
    | ok rb =>
      simp only [GenerateAPIKey, hr] at h
      split at h
      · simp at h
      · rename_i stored dbB hB
        obtain ⟨hs, hu, hk, hl⟩ := createAPIKey_ok_effect _ _ _ _ hB
        simp only [Prod.mk.injEq, Except.ok.injEq] at h
        obtain ⟨h1, h2⟩ := h
        subst h1 h2
        refine ⟨rb, rfl, rfl, ?_, ?_, ?_, ?_⟩
        · rw [hs, hg.2.2.1]
        · rw [hu]; exact hg.1
        · rw [hk, hg.2.1, hs, hg.2.2.1]
        · rw [hl, hg.2.2.2, hs]; simp

/-- For a key generated from 32 random bytes, neither its lookup hash nor its display
prefix is the key itself, and the display prefix is its first 12 characters. -/
theorem stored_fields_not_plaintext (rb : Bytes) (hlen : rb.length = 32) :
    extractPrefix (apiKeyPrefix ++ encodeToString encodeURL rb) =
      (apiKeyPrefix ++ encodeToString encodeURL rb).take 12 ∧
    HashAPIKey (apiKeyPrefix ++ encodeToString encodeURL rb) ≠
      apiKeyPrefix ++ encodeToString encodeURL rb ∧
    extractPrefix (apiKeyPrefix ++ encodeToString encodeURL rb) ≠
      apiKeyPrefix ++ encodeToString encodeURL rb := by
  obtain ⟨h1, _, h3⟩ := extractPrefix_generated rb hlen
  have hk := generated_key_length rb hlen
  refine ⟨h1, ?_, ?_⟩
  · intro heq
    have := congrArg List.length heq
    rw [hashAPIKey_length, hk] at this
    cases this
  · intro heq
    have := congrArg List.length heq
    rw [h3, hk] at this
    cases this

/-- C20: every successful Login, and every successful CreateAPIKey, draws a random buffer,
returns the key built from it, and leaves the key table as it was with exactly one record
appended; the only repository calls it makes are the account lookup and the insert, so no
stored key is read or changed. The record handed to the insert and the record stored hold
the key only as KeyHash = HashAPIKey(plainKey) and KeyPrefix = the display prefix; the other
fields come from the account, the request, the clock and the id sequence. For a buffer of
32 bytes the display prefix is the first 12 characters of the key and neither KeyHash nor
KeyPrefix equals the key; when the ids in the table lie below the sequence the new id is
none of them. -/
theorem C20_plaintext_never_persisted (env : Env) (db : Db) :
    (∀ req resp db1, AuthService.Login env db req = (.ok resp, db1) →
      ∃ rb stored, env.randRead = .ok rb ∧
        resp.APIKey = apiKeyPrefix ++ encodeToString encodeURL rb ∧
        stored =
          { ID := db.keySeq, UserID := resp.User.ID, Name := "Login " ++ env.format (env.now 0),
            KeyHash := HashAPIKey resp.APIKey, KeyPrefix := extractPrefix resp.APIKey,
            LastUsedAt := none, ExpiresAt := none, IsActive := true, CreatedAt := env.now 1 } ∧
        db1.apiKeys = db.apiKeys ++ [stored] ∧
        db1.users = db.users ∧
        db1.log = db.log ++
          [.getUserByUsername req.Username, .createAPIKey { stored with ID := 0 }] ∧
        (rb.length = 32 →
          stored.KeyPrefix = resp.APIKey.take 12 ∧ stored.KeyHash ≠ resp.APIKey ∧
          stored.KeyPrefix ≠ resp.APIKey) ∧
        ((∀ k ∈ db.apiKeys, k.ID < db.keySeq) → ∀ k ∈ db.apiKeys, k.ID ≠ stored.ID)) ∧
    (∀ userID req resp db1, AuthService.CreateAPIKey env db userID req = (.ok resp, db1) →
      ∃ rb stored, env.randRead = .ok rb ∧
        resp.PlainKey = apiKeyPrefix ++ encodeToString encodeURL rb ∧
        stored =
          { ID := db.keySeq, UserID := userID, Name := req.Name,
            KeyHash := HashAPIKey resp.PlainKey, KeyPrefix := extractPrefix resp.PlainKey,
            LastUsedAt := none, ExpiresAt := req.ExpiresAt, IsActive := true,
            CreatedAt := env.now 0 } ∧
        db1.apiKeys = db.apiKeys ++ [stored] ∧
        db1.users = db.users ∧
        db1.log = db.log ++ [.getUserByID userID, .createAPIKey { stored with ID := 0 }] ∧
        (rb.length = 32 →
          stored.KeyPrefix = resp.PlainKey.take 12 ∧ stored.KeyHash ≠ resp.PlainKey ∧
          stored.KeyPrefix ≠ resp.PlainKey) ∧
        ((∀ k ∈ db.apiKeys, k.ID < db.keySeq) → ∀ k ∈ db.apiKeys, k.ID ≠ stored.ID)) := by
  refine ⟨?_, ?_⟩
  · intro req resp db1 h
    obtain ⟨rb, hr, hkey, _, hu, hk, hl⟩ := login_ok_effect env db db1 req resp h
    refine ⟨rb, _, hr, hkey, rfl, hk, hu, hl, ?_, ?_⟩
    · intro hlen
      rw [hkey]
      exact stored_fields_not_plaintext rb hlen
    · intro hinv k hk2 heq
      have := hinv k hk2
      rw [heq] at this
      exact lt_irrefl _ this
  · intro userID req resp db1 h
    obtain ⟨rb, hr, hkey, hrec, hu, hk, hl⟩ :=
      createAPIKey_service_ok_effect env db db1 userID req resp h
    refine ⟨rb, _, hr, hkey, rfl, ?_, hu, ?_, ?_, ?_⟩
    · rw [hk, hrec]
    · rw [hl, hrec]
    · intro hlen
      rw [hkey]
      exact stored_fields_not_plaintext rb hlen
    · intro hinv k hk2 heq
      have := hinv k hk2
      rw [heq] at this
      exact lt_irrefl _ this

/-- C20 on the sample store: alice logs in and is issued key 4. -/
theorem C20_plaintext_never_persisted_witness :
    AuthService.Login sampleEnv sampleDb { Username := "alice", Password := "Sup3rSecret!" } =
      (.ok { User := alice, APIKey := sampleKey, KeyID := 4,
             Message := "Authentication successful" },
        (AuthService.Login sampleEnv sampleDb
          { Username := "alice", Password := "Sup3rSecret!" }).2) ∧
    ∃ rb stored, sampleEnv.randRead = .ok rb ∧
      sampleKey = apiKeyPrefix ++ encodeToString encodeURL rb ∧
      stored =
        { ID := 4, UserID := 1, Name := "Login 2025-01-01 00:00:00",
          KeyHash := HashAPIKey sampleKey, KeyPrefix := extractPrefix sampleKey,
          LastUsedAt := none, ExpiresAt := none, IsActive := true, CreatedAt := 1000 } ∧
      (AuthService.Login sampleEnv sampleDb
        { Username := "alice", Password := "Sup3rSecret!" }).2.apiKeys =
        sampleDb.apiKeys ++ [stored] ∧
      (AuthService.Login sampleEnv sampleDb
        { Username := "alice", Password := "Sup3rSecret!" }).2.users = sampleDb.users ∧
      (AuthService.Login sampleEnv sampleDb
        { Username := "alice", Password := "Sup3rSecret!" }).2.log =
        sampleDb.log ++ [.getUserByUsername "alice", .createAPIKey { stored with ID := 0 }] ∧
      (rb.length = 32 →
        stored.KeyPrefix = sampleKey.take 12 ∧ stored.KeyHash ≠ sampleKey ∧
        stored.KeyPrefix ≠ sampleKey) ∧
      ((∀ k ∈ sampleDb.apiKeys, k.ID < sampleDb.keySeq) →
        ∀ k ∈ sampleDb.apiKeys, k.ID ≠ stored.ID) :=
  ⟨by decide,
    (C20_plaintext_never_persisted sampleEnv sampleDb).1
      { Username := "alice", Password := "Sup3rSecret!" }
      { User := alice, APIKey := sampleKey, KeyID := 4, Message := "Authentication successful" }
      _ (by decide)⟩

/-! ### Expiry at lookup time -/

/-- C29: on a store that answers the lookup and for the active record k that the lookup by
hash finds, GetAPIKeyByHash fails with "API key has expired" exactly when the expiry of k
is set and strictly before the current time, and returns k otherwise; so a record without
expiry is returned at every time and a record whose expiry is the current instant is
returned. -/
theorem C29_expiry_strict (db : Db) (now : Time) (keyHash : Bytes) (k : APIKey)
    (hhealthy : db.Healthy)
    (hfind : db.apiKeys.find? (fun r => r.KeyHash == keyHash && r.IsActive) = some k) :
    ((UserRepository.GetAPIKeyByHash db now keyHash).1 = .error "API key has expired" ↔
      ∃ t, k.ExpiresAt = some t ∧ t < now) ∧
    ((UserRepository.GetAPIKeyByHash db now keyHash).1 = .ok k ↔
      ¬ ∃ t, k.ExpiresAt = some t ∧ t < now) ∧
    (k.ExpiresAt = none → (UserRepository.GetAPIKeyByHash db now keyHash).1 = .ok k) ∧
    (k.ExpiresAt = some now → (UserRepository.GetAPIKeyByHash db now keyHash).1 = .ok k) := by
  rw [getAPIKeyByHash_healthy db now keyHash hhealthy, hfind]
  cases hE : k.ExpiresAt with
  | none => simp [hE]
  | some t =>
    by_cases hlt : t < now
    · simp [hE, hlt]
      intro h
      rw [h] at hlt
      exact absurd hlt (lt_irrefl _)
    · simp [hE, hlt]

/-- C29 on the sample store: key 2 expires at instant 500 and is still returned at that
instant, is rejected one instant later, and key 1, without expiry, is returned. -/
theorem C29_expiry_strict_witness :
    (UserRepository.GetAPIKeyByHash sampleDb 501 (HashAPIKey expiredKey)).1 =
      .error "API key has expired" ∧
    ((UserRepository.GetAPIKeyByHash sampleDb 500 (HashAPIKey expiredKey)).1 =
        .error "API key has expired" ↔
      ∃ t, (some 500 : Option Time) = some t ∧ t < 500) ∧
    (UserRepository.GetAPIKeyByHash sampleDb 500 (HashAPIKey expiredKey)).1 =
      .ok { ID := 2, UserID := 1, Name := "CI/CD Pipeline", KeyHash := HashAPIKey expiredKey,
            KeyPrefix := extractPrefix expiredKey, LastUsedAt := none, ExpiresAt := some 500,
            IsActive := true, CreatedAt := 30 } :=
  ⟨by decide,
    (C29_expiry_strict sampleDb 500 (HashAPIKey expiredKey)
      { ID := 2, UserID := 1, Name := "CI/CD Pipeline", KeyHash := HashAPIKey expiredKey,
        KeyPrefix := extractPrefix expiredKey, LastUsedAt := none, ExpiresAt := some 500,
        IsActive := true, CreatedAt := 30 } rfl (by decide)).1,
    (C29_expiry_strict sampleDb 500 (HashAPIKey expiredKey)
      { ID := 2, UserID := 1, Name := "CI/CD Pipeline", KeyHash := HashAPIKey expiredKey,
        KeyPrefix := extractPrefix expiredKey, LastUsedAt := none, ExpiresAt := some 500,
        IsActive := true, CreatedAt := 30 } rfl (by decide)).2.2.2 rfl⟩

/-! ### The shape of the Authorization value -/

theorem span_first_space (a b : Bytes) (ha : ∀ c ∈ a, c ≠ 32) :
    (a ++ 32 :: b).span (fun c => c != 32) = (a, 32 :: b) := by
  rw [List.span_eq_take_drop]
  induction a with
  | nil => simp
  | cons x xs ih =>
    have hx : x ≠ 32 := ha x (by simp)
    have ih2 := ih (fun c hc => ha c (by simp [hc]))
    simp only [Prod.mk.injEq] at ih2
    simp [List.takeWhile_cons, List.dropWhile_cons, hx, ih2.1, ih2.2]

/-- The call SplitN cuts at the first space only. -/
theorem splitN_first_space (a b : Bytes) (ha : ∀ c ∈ a, c ≠ 32) :
    SplitN (a ++ 32 :: b) = [a, b] := by
  unfold SplitN
  rw [span_first_space a b ha]

/-- A value without a space stays in one piece. -/
theorem splitN_no_space (s : Bytes) (hs : ∀ c ∈ s, c ≠ 32) : SplitN s = [s] := by
  unfold SplitN
  rw [List.span_eq_take_drop]
  have h1 : s.takeWhile (fun c => c != 32) = s := by
    rw [List.takeWhile_eq_self_iff]
    intro c hc
    simpa using hs c hc
  have h2 : s.dropWhile (fun c => c != 32) = [] := by
    rw [List.dropWhile_eq_nil_iff]
    intro c hc
    simpa using hs c hc
  rw [h1, h2]

/-- C30: SplitN cuts the Authorization value at its first space only; a non-empty value
reaches ValidateAPIKey exactly when it is the word Bearer, in this spelling, one space and
a rest, and then the token passed is the whole rest, empty or with further spaces as it
may be, and the outcome of the gate is that of ValidateAPIKey on it; the values bearer x,
Bearer and Basic x are rejected as malformed with no call of ValidateAPIKey. -/
theorem C30_bearer_parsing (env : Env) (db : Db) (r : Request) :
    (∀ a b : Bytes, (∀ c ∈ a, c ≠ 32) → SplitN (a ++ 32 :: b) = [a, b]) ∧
    (∀ value, r.Authorization = some value → value ≠ [] →
      ((∃ token, value = ascii "Bearer" ++ 32 :: token) ↔
        (AuthMiddleware.Authenticate env db r).validated ≠ [])) ∧
    (∀ token, r.Authorization = some (ascii "Bearer" ++ 32 :: token) →
      (AuthMiddleware.Authenticate env db r).validated = [token] ∧
      (AuthMiddleware.Authenticate env db r).db = (AuthService.ValidateAPIKey env db token).2.1 ∧
      ((AuthMiddleware.Authenticate env db r).forwarded ≠ [] ↔
        ∃ u, (AuthService.ValidateAPIKey env db token).1 = .ok u)) ∧
    (∀ value, r.Authorization = some value →
      value = ascii "bearer x" ∨ value = ascii "Bearer" ∨ value = ascii "Basic x" →
      AuthMiddleware.Authenticate env db r =
        { written := some (respondError 401 "invalid authorization header format"),
          forwarded := [], validated := [], db := db, spawned := [] }) := by
  refine ⟨splitN_first_space, ?_, ?_, ?_⟩
  · intro value hv hne
    have hget : r.headerGetAuthorization = value := by simp [Request.headerGetAuthorization, hv]
    constructor
    · rintro ⟨token, rfl⟩
      rw [authenticate_bearer env db r token hget]
      split <;> simp
    · intro hval
      by_contra hcon
      simp only [not_exists] at hcon
      rw [authenticate_malformed env db r (by rw [hget]; exact hne)
        (by rw [hget]; exact hcon)] at hval
      exact hval rfl
  · intro token hv
    have hget : r.headerGetAuthorization = ascii "Bearer " ++ token := by
      simp [Request.headerGetAuthorization, hv]; rfl
    rw [authenticate_bearer env db r token hget]
    split
    · rename_i e db1 sp heq
      rw [heq]
      simp
    · rename_i u db1 sp heq
      rw [heq]
      simp
  · intro value hv hcases
    have hget : r.headerGetAuthorization = value := by simp [Request.headerGetAuthorization, hv]
    apply authenticate_malformed
    · rw [hget]
      rcases hcases with rfl | rfl | rfl <;> decide
    · rw [hget]
      intro token
      rcases hcases with rfl | rfl | rfl <;> simp [ascii]

/-- C30 on the sample store: a token with further spaces and an empty token are passed on
as they are, and the three values named are rejected. -/
theorem C30_bearer_parsing_witness :
    (AuthMiddleware.Authenticate sampleEnv sampleDb
      { Authorization := some (ascii "Bearer a b  c"), ctx := [] }).validated = [ascii "a b  c"] ∧
    (AuthMiddleware.Authenticate sampleEnv sampleDb
      { Authorization := some (ascii "Bearer "), ctx := [] }).validated = [[]] ∧
    AuthMiddleware.Authenticate sampleEnv sampleDb
        { Authorization := some (ascii "bearer x"), ctx := [] } =
      { written := some (respondError 401 "invalid authorization header format"),
        forwarded := [], validated := [], db := sampleDb, spawned := [] } ∧
    AuthMiddleware.Authenticate sampleEnv sampleDb
        { Authorization := some (ascii "Bearer"), ctx := [] } =
      { written := some (respondError 401 "invalid authorization header format"),
        forwarded := [], validated := [], db := sampleDb, spawned := [] } ∧
    AuthMiddleware.Authenticate sampleEnv sampleDb
        { Authorization := some (ascii "Basic x"), ctx := [] } =
      { written := some (respondError 401 "invalid authorization header format"),
        forwarded := [], validated := [], db := sampleDb, spawned := [] } :=
  ⟨((C30_bearer_parsing sampleEnv sampleDb
      { Authorization := some (ascii "Bearer a b  c"), ctx := [] }).2.2.1 (ascii "a b  c") rfl).1,
    ((C30_bearer_parsing sampleEnv sampleDb
      { Authorization := some (ascii "Bearer "), ctx := [] }).2.2.1 [] rfl).1,
    (C30_bearer_parsing sampleEnv sampleDb
      { Authorization := some (ascii "bearer x"), ctx := [] }).2.2.2 _ rfl (Or.inl rfl),
    (C30_bearer_parsing sampleEnv sampleDb
      { Authorization := some (ascii "Bearer"), ctx := [] }).2.2.2 _ rfl (Or.inr (Or.inl rfl)),
    (C30_bearer_parsing sampleEnv sampleDb
      { Authorization := some (ascii "Basic x"), ctx := [] }).2.2.2 _ rfl (Or.inr (Or.inr rfl))⟩

/-! ### Masking -/

/-- MaskAPIKey panics exactly on the keys shorter than four bytes. -/
theorem maskAPIKey_eq_none_iff (apiKey : Bytes) : MaskAPIKey apiKey = none ↔ apiKey.length < 4 := by
  unfold MaskAPIKey
  split <;> simp [*]

/-- On a key shorter than twelve bytes extractPrefix returns the whole key. -/
theorem extractPrefix_short (apiKey : Bytes) (h : apiKey.length < 12) :
    extractPrefix apiKey = apiKey := by
  unfold extractPrefix
  have : apiKey.length < apiKeyPrefix.length + 8 := h
  simp [this]

/-- C28, the failing inputs: MaskAPIKey returns no value exactly on the inputs shorter than
four bytes, where its slice apiKey[len(apiKey)-4:] is out of range and the call panics; the
empty string and the three-byte string abc are such inputs, although extractPrefix handles
both (it returns the whole input). From four bytes on a masked value is returned, for
rct_1234 the whole input, three dots and its last four bytes. -/
theorem C28_mask_panics_on_short_input (apiKey : Bytes) :
    (MaskAPIKey apiKey = none ↔ apiKey.length < 4) ∧
    MaskAPIKey (ascii "") = none ∧
    MaskAPIKey (ascii "abc") = none ∧
    extractPrefix (ascii "") = ascii "" ∧
    extractPrefix (ascii "abc") = ascii "abc" ∧
    MaskAPIKey (ascii "abcd") = some (ascii "abcd...abcd") ∧
    MaskAPIKey (ascii "rct_1234") = some (ascii "rct_1234...1234") := by
  refine ⟨maskAPIKey_eq_none_iff apiKey, ?_, ?_, ?_, ?_, ?_, ?_⟩
  · decide
  · decide
  · exact extractPrefix_short _ (by decide)
  · exact extractPrefix_short _ (by decide)
  · decide
  · decide

/-! ### What ValidateAPIKey leaves of the store -/

/-- A lookup by hash changes nothing but the driver script and the call log. -/
theorem getAPIKeyByHash_db (db : Db) (now : Time) (keyHash : Bytes) :
    (UserRepository.GetAPIKeyByHash db now keyHash).2 =
      { db with faults := db.faults.tail, log := db.log ++ [.getAPIKeyByHash keyHash] } := by
  unfold UserRepository.GetAPIKeyByHash
  simp only [Db.interact, Db.record]
  split
  · rfl
  · split
    · rfl
    · split
      · split <;> rfl
      · rfl

/-- A lookup by id changes nothing but the driver script and the call log. -/
theorem getUserByID_db (db : Db) (id : Int) :
    (UserRepository.GetUserByID db id).2 =
      { db with faults := db.faults.tail, log := db.log ++ [.getUserByID id] } := by
  unfold UserRepository.GetUserByID
  simp only [Db.interact, Db.record]
  split
  · rfl
  · split <;> rfl

/-- ValidateAPIKey changes neither table and neither id sequence, on any path and
whatever the driver does. -/
theorem validateAPIKey_frame (env : Env) (db : Db) (plainKey : Bytes) :
    (AuthService.ValidateAPIKey env db plainKey).2.1.users = db.users ∧
    (AuthService.ValidateAPIKey env db plainKey).2.1.apiKeys = db.apiKeys ∧
    (AuthService.ValidateAPIKey env db plainKey).2.1.userSeq = db.userSeq ∧
    (AuthService.ValidateAPIKey env db plainKey).2.1.keySeq = db.keySeq := by
  unfold AuthService.ValidateAPIKey
  split
  · exact ⟨rfl, rfl, rfl, rfl⟩
  · have h1 := getAPIKeyByHash_db db (env.now 0) (HashAPIKey plainKey)
    simp only
    split
    · rename_i e db1 heq
      rw [heq] at h1
      simp only at h1
      rw [h1]
      exact ⟨rfl, rfl, rfl, rfl⟩
    · rename_i k db1 heq
      rw [heq] at h1
      simp only at h1
      have h2 := getUserByID_db db1 k.UserID
      split
      · rename_i e db2 heq2
        rw [heq2] at h2
        simp only at h2
        rw [h2, h1]
        exact ⟨rfl, rfl, rfl, rfl⟩
      · rename_i u db2 heq2
        rw [heq2] at h2
        simp only at h2
        split <;> (rw [h2, h1]; exact ⟨rfl, rfl, rfl, rfl⟩)

/-- The last-used update started by a rejected key: none. -/
theorem validateAPIKey_error_spawns_nothing (env : Env) (db : Db) (plainKey : Bytes) (e : String)
    (h : (AuthService.ValidateAPIKey env db plainKey).1 = .error e) :
    (AuthService.ValidateAPIKey env db plainKey).2.2 = [] := by
  unfold AuthService.ValidateAPIKey at h ⊢
  split
  · rfl
  · rename_i hfmt
    simp only [hfmt, ↓reduceIte] at h
    simp only
    split
    · rfl
    · rename_i k db1 heq
      simp only [heq] at h
      split
      · rfl
      · rename_i u db2 heq2
        simp only [heq2] at h
        split
        · rfl
        · rename_i hact
          simp only [hact, ↓reduceIte] at h
          cases h

/-- What a successful ValidateAPIKey has checked: the format, an active record with the
hash of the key that is not expired at the time of the lookup, and its active owner; the
last-used update is started for that record. -/
theorem validateAPIKey_ok_checks (env : Env) (db : Db) (plainKey : Bytes) (u : User)
    (h : (AuthService.ValidateAPIKey env db plainKey).1 = .ok u) :
    ValidateAPIKeyFormat plainKey = true ∧
    ∃ k ∈ db.apiKeys, k.KeyHash = HashAPIKey plainKey ∧ k.IsActive = true ∧
      (∀ t, k.ExpiresAt = some t → ¬ t < env.now 0) ∧
      u ∈ db.users ∧ u.ID = k.UserID ∧ u.IsActive = true ∧
      (AuthService.ValidateAPIKey env db plainKey).2.2 = [k.ID] := by
  unfold AuthService.ValidateAPIKey at h ⊢
  split at h
  · cases h
  · rename_i hfmt
    simp only [Bool.not_eq_true, Bool.not_eq_false] at hfmt
    refine ⟨by simpa using hfmt, ?_⟩
    simp only [hfmt, Bool.not_true, Bool.false_eq_true, ↓reduceIte]
    simp only at h
    split at h
    · cases h
    · rename_i k db1 heq
      have hdb1 := getAPIKeyByHash_db db (env.now 0) (HashAPIKey plainKey)
      rw [heq] at hdb1
      simp only at hdb1
      have hk : k ∈ db.apiKeys ∧ k.KeyHash = HashAPIKey plainKey ∧ k.IsActive = true ∧
          (∀ t, k.ExpiresAt = some t → ¬ t < env.now 0) := by
        unfold UserRepository.GetAPIKeyByHash at heq
        simp only [Db.interact, Db.record] at heq
        split at heq
        · simp at heq
        · split at heq
          · simp at heq
          · rename_i k2 hfind
            have hmem := List.mem_of_find?_eq_some hfind
            have hp := List.find?_some hfind
            simp only [Bool.and_eq_true, beq_iff_eq] at hp
            split at heq
            · rename_i t hE
              split at heq
              · simp at heq
              · rename_i hlt
                simp only [Prod.mk.injEq, Except.ok.injEq] at heq
                obtain ⟨rfl, _⟩ := heq
                refine ⟨hmem, hp.1, hp.2, ?_⟩
                intro t2 ht2
                rw [hE] at ht2
                cases ht2
                exact hlt
            · rename_i hE
              simp only [Prod.mk.injEq, Except.ok.injEq] at heq
              obtain ⟨rfl, _⟩ := heq
              refine ⟨hmem, hp.1, hp.2, ?_⟩
              intro t2 ht2
              rw [hE] at ht2
              cases ht2
      split at h
      · cases h
      · rename_i u2 db2 heq2
        have hu : u2 ∈ db.users ∧ u2.ID = k.UserID := by
          unfold UserRepository.GetUserByID at heq2
          simp only [Db.interact, Db.record] at heq2
          split at heq2
          · simp at heq2
          · split at heq2
            · simp at heq2
            · rename_i u3 hfind
              have hmem := List.mem_of_find?_eq_some hfind
              have hp := List.find?_some hfind
              simp only [beq_iff_eq] at hp
              simp only [Prod.mk.injEq, Except.ok.injEq] at heq2
              obtain ⟨rfl, _⟩ := heq2
              rw [hdb1] at hmem
              exact ⟨hmem, hp⟩
        split at h
        · cases h
        · rename_i hact
          simp only [Except.ok.injEq] at h
          subst h
          simp only [hact, ↓reduceIte]
          exact ⟨k, hk.1, hk.2.1, hk.2.2.1, hk.2.2.2, hu.1, hu.2, by simpa using hact, rfl⟩

/-- The result of ValidateAPIKey as a function of the candidate, the driver script and the
two tables. -/
theorem validateAPIKey_result (env : Env) (db : Db) (key : Bytes) :
    (AuthService.ValidateAPIKey env db key).1 =
      if !ValidateAPIKeyFormat key then .error "invalid API key format"
      else
        match db.faults.head?.join with
        | some _ => .error "invalid API key"
        | none =>
          match db.apiKeys.find? (fun k => k.KeyHash == HashAPIKey key && k.IsActive) with
          | none => .error "invalid API key"
          | some k =>
            if (match k.ExpiresAt with
                | some t => decide (t < env.now 0)
                | none => false) then .error "invalid API key"
            else
              match db.faults.tail.head?.join with
              | some e => .error ("user not found: " ++ ("failed to get user: " ++ e))
              | none =>
                match db.users.find? (fun u => u.ID == k.UserID) with
                | none => .error ("user not found: " ++ "user not found")
                | some u => if !u.IsActive then .error "user account is inactive" else .ok u := by
  unfold AuthService.ValidateAPIKey UserRepository.GetAPIKeyByHash UserRepository.GetUserByID
  simp only [Db.interact, Db.record]
  cases hfmt : ValidateAPIKeyFormat key
  · rfl
  · simp only [Bool.not_true, Bool.false_eq_true, ↓reduceIte]
    cases hf : db.faults.head?.join with
    | some e => rfl
    | none =>
      simp only
      cases hk : db.apiKeys.find? (fun k => k.KeyHash == HashAPIKey key && k.IsActive) with
      | none => rfl
      | some k =>
        simp only
        cases hE : k.ExpiresAt with
        | some t =>
          simp only
          by_cases hlt : t < env.now 0
          · simp only [hlt, ↓reduceIte, decide_True]
          · simp only [hlt, ↓reduceIte, decide_False, Bool.false_eq_true]
            cases hf2 : db.faults.tail.head?.join with
            | some e => rfl
            | none =>
              simp only
              cases hu : db.users.find? (fun u => u.ID == k.UserID) with
              | none => rfl
              | some u =>
                simp only
                cases hact : u.IsActive <;> rfl
        | none =>
          simp only [Bool.false_eq_true, ↓reduceIte]
          cases hf2 : db.faults.tail.head?.join with
          | some e => rfl
          | none =>
            simp only
            cases hu : db.users.find? (fun u => u.ID == k.UserID) with
            | none => rfl
            | some u =>
              simp only
              cases hact : u.IsActive <;> rfl

/-- The driver script after UpdateAPIKeyLastUsed: one entry consumed. -/
theorem updateAPIKeyLastUsed_faults (db : Db) (now : Time) (keyID : Int) :
    (UserRepository.UpdateAPIKeyLastUsed db now keyID).2.faults = db.faults.tail ∧
    (UserRepository.UpdateAPIKeyLastUsed db now keyID).2.userSeq = db.userSeq ∧
    (UserRepository.UpdateAPIKeyLastUsed db now keyID).2.keySeq = db.keySeq := by
  unfold UserRepository.UpdateAPIKeyLastUsed
  simp only [Db.interact, Db.record]
  split <;> exact ⟨rfl, rfl, rfl⟩

/-- The lookup of an active record by hash does not see the last-used timestamp. -/
theorem find?_touch (keys : List APIKey) (now : Time) (keyID : Int) (h : Bytes) :
    (keys.map (fun k => if k.ID = keyID then { k with LastUsedAt := some now } else k)).find?
        (fun k => k.KeyHash == h && k.IsActive) =
      (keys.find? (fun k => k.KeyHash == h && k.IsActive)).map
        (fun k => if k.ID = keyID then { k with LastUsedAt := some now } else k) := by
  rw [List.find?_map]
  congr 2
  funext k
  simp only [Function.comp]
  split <;> rfl

/-- The result of ValidateAPIKey does not depend on the last-used timestamps. -/
theorem validateAPIKey_result_touch (env : Env) (db : Db) (key : Bytes) (now : Time)
    (keyID : Int) :
    (AuthService.ValidateAPIKey env
        { db with apiKeys :=
            db.apiKeys.map (fun k => if k.ID = keyID then { k with LastUsedAt := some now } else k) }
        key).1 =
      (AuthService.ValidateAPIKey env db key).1 := by
  rw [validateAPIKey_result, validateAPIKey_result]
  simp only [find?_touch]
  cases db.apiKeys.find? (fun k => k.KeyHash == HashAPIKey key && k.IsActive) with
  | none => rfl
  | some k =>
    simp only [Option.map_some']
    by_cases hid : k.ID = keyID
    · simp only [hid, ↓reduceIte]
    · simp only [hid, ↓reduceIte]

/-- A validation that follows an UpdateAPIKeyLastUsed call gives the result it gives on the
store without that call (with the driver script that the call left). -/
theorem validateAPIKey_after_update (env : Env) (db : Db) (key : Bytes) (now : Time)
    (keyID : Int) :
    (AuthService.ValidateAPIKey env (UserRepository.UpdateAPIKeyLastUsed db now keyID).2 key).1 =
      (AuthService.ValidateAPIKey env { db with faults := db.faults.tail } key).1 := by
  have hf := updateAPIKeyLastUsed_faults db now keyID
  have ht := updateAPIKeyLastUsed_tables db now keyID
  rcases ht.2 with ha | ha
  · rw [validateAPIKey_result, validateAPIKey_result, hf.1, ht.1, ha]
  · rw [← validateAPIKey_result_touch env { db with faults := db.faults.tail } key now keyID]
    rw [validateAPIKey_result, validateAPIKey_result, hf.1, ht.1, ha]

/-- The store after ValidateAPIKey and its goroutine, on a rejected key: the store that
ValidateAPIKey returned. -/
theorem validateAndUpdate_error (env : Env) (db : Db) (key : Bytes) (fate : Option Time)
    (e : String) (h : (AuthService.ValidateAPIKey env db key).1 = .error e) :
    (ValidateAPIKeyAndUpdate env db key fate).2 = (AuthService.ValidateAPIKey env db key).2.1 := by
  have hs := validateAPIKey_error_spawns_nothing env db key e h
  unfold ValidateAPIKeyAndUpdate
  cases fate with
  | none => rfl
  | some now =>
    simp only
    rw [hs]
    rfl

/-- The store after ValidateAPIKey and its goroutine, when the update of record keyID was
started. -/
theorem validateAndUpdate_spawned (env : Env) (db : Db) (key : Bytes) (fate : Option Time)
    (keyID : Int) (h : (AuthService.ValidateAPIKey env db key).2.2 = [keyID]) :
    (ValidateAPIKeyAndUpdate env db key fate).2.users = db.users ∧
    (ValidateAPIKeyAndUpdate env db key fate).2.userSeq = db.userSeq ∧
    (ValidateAPIKeyAndUpdate env db key fate).2.keySeq = db.keySeq ∧
    ((ValidateAPIKeyAndUpdate env db key fate).2.apiKeys = db.apiKeys ∨
      ∃ now, fate = some now ∧
        (ValidateAPIKeyAndUpdate env db key fate).2.apiKeys =
          db.apiKeys.map (fun r => if r.ID = keyID then { r with LastUsedAt := some now } else r)) := by
  have hfr := validateAPIKey_frame env db key
  unfold ValidateAPIKeyAndUpdate
  cases fate with
  | none => exact ⟨hfr.1, hfr.2.2.1, hfr.2.2.2, Or.inl hfr.2.1⟩
  | some now =>
    simp only
    rw [h]
    simp only [List.foldl_cons, List.foldl_nil]
    have hf := updateAPIKeyLastUsed_faults (AuthService.ValidateAPIKey env db key).2.1 now keyID
    have ht := updateAPIKeyLastUsed_tables (AuthService.ValidateAPIKey env db key).2.1 now keyID
    refine ⟨ht.1.trans hfr.1, hf.2.1.trans hfr.2.2.1, hf.2.2.trans hfr.2.2.2, ?_⟩
    rcases ht.2 with ha | ha
    · exact Or.inl (ha.trans hfr.2.1)
    · exact Or.inr ⟨now, rfl, by rw [ha, hfr.2.1]⟩

/-- C25: ValidateAPIKey never mutates credential state when it rejects. On every path the
call itself leaves both tables and both id sequences as they were; when it returns an
error (malformed, unknown, revoked, expired, owner missing, owner inactive, or a driver
failure) no last-used update is started, so the store after the call and its goroutine is
the store the call returned, with every record, its active flag included, unchanged; when
it succeeds, the store after the goroutine differs from the one before at most in the
last-used timestamp of the records with the id of the matched key. -/
theorem C25_validate_frame (env : Env) (db : Db) (plainKey : Bytes) (fate : Option Time) :
    ((AuthService.ValidateAPIKey env db plainKey).2.1.users = db.users ∧
      (AuthService.ValidateAPIKey env db plainKey).2.1.apiKeys = db.apiKeys ∧
      (AuthService.ValidateAPIKey env db plainKey).2.1.userSeq = db.userSeq ∧
      (AuthService.ValidateAPIKey env db plainKey).2.1.keySeq = db.keySeq) ∧
    (∀ e, (AuthService.ValidateAPIKey env db plainKey).1 = .error e →
      (AuthService.ValidateAPIKey env db plainKey).2.2 = [] ∧
      (ValidateAPIKeyAndUpdate env db plainKey fate).2 =
        (AuthService.ValidateAPIKey env db plainKey).2.1 ∧
      (ValidateAPIKeyAndUpdate env db plainKey fate).2.users = db.users ∧
      (ValidateAPIKeyAndUpdate env db plainKey fate).2.apiKeys = db.apiKeys ∧
      (ValidateAPIKeyAndUpdate env db plainKey fate).2.userSeq = db.userSeq ∧
      (ValidateAPIKeyAndUpdate env db plainKey fate).2.keySeq = db.keySeq) ∧
    (∀ u, (AuthService.ValidateAPIKey env db plainKey).1 = .ok u →
      ∃ k ∈ db.apiKeys, k.KeyHash = HashAPIKey plainKey ∧ k.IsActive = true ∧
        (ValidateAPIKeyAndUpdate env db plainKey fate).2.users = db.users ∧
        (ValidateAPIKeyAndUpdate env db plainKey fate).2.userSeq = db.userSeq ∧
        (ValidateAPIKeyAndUpdate env db plainKey fate).2.keySeq = db.keySeq ∧
        ((ValidateAPIKeyAndUpdate env db plainKey fate).2.apiKeys = db.apiKeys ∨
          ∃ now, fate = some now ∧
            (ValidateAPIKeyAndUpdate env db plainKey fate).2.apiKeys =
              db.apiKeys.map
                (fun r => if r.ID = k.ID then { r with LastUsedAt := some now } else r))) := by
  have hfr := validateAPIKey_frame env db plainKey
  refine ⟨hfr, ?_, ?_⟩
  · intro e he
    have h2 := validateAndUpdate_error env db plainKey fate e he
    refine ⟨validateAPIKey_error_spawns_nothing env db plainKey e he, h2, ?_, ?_, ?_, ?_⟩
    · rw [h2]; exact hfr.1
    · rw [h2]; exact hfr.2.1
    · rw [h2]; exact hfr.2.2.1
    · rw [h2]; exact hfr.2.2.2
  · intro u hu
    obtain ⟨_, k, hk, hhash, hact, _, _, _, _, hsp⟩ := validateAPIKey_ok_checks env db plainKey u hu
    obtain ⟨h1, h2, h3, h4⟩ := validateAndUpdate_spawned env db plainKey fate k.ID hsp
    exact ⟨k, hk, hhash, hact, h1, h2, h3, h4⟩

/-- C25 at the sample store: the expired key 2 of alice is rejected and the store after the
call and its goroutine has the same three records, key 2 still flagged active; the valid
key 1 is accepted and only its last-used timestamp changes. -/
theorem C25_validate_frame_witness :
    (AuthService.ValidateAPIKey sampleEnv sampleDb expiredKey).1 = .error "invalid API key" ∧
    (ValidateAPIKeyAndUpdate sampleEnv sampleDb expiredKey (some 1000)).2.apiKeys =
      sampleDb.apiKeys ∧
    (AuthService.ValidateAPIKey sampleEnv sampleDb firstKey).1 = .ok alice ∧
    (ValidateAPIKeyAndUpdate sampleEnv sampleDb firstKey (some 1000)).2.apiKeys =
      sampleDb.apiKeys.map
        (fun r => if r.ID = 1 then { r with LastUsedAt := some 1000 } else r) ∧
    ((AuthService.ValidateAPIKey sampleEnv sampleDb expiredKey).2.1.users = sampleDb.users ∧
      (AuthService.ValidateAPIKey sampleEnv sampleDb expiredKey).2.1.apiKeys = sampleDb.apiKeys ∧
      (AuthService.ValidateAPIKey sampleEnv sampleDb expiredKey).2.1.userSeq = sampleDb.userSeq ∧
      (AuthService.ValidateAPIKey sampleEnv sampleDb expiredKey).2.1.keySeq = sampleDb.keySeq) :=
  ⟨by decide, by decide, by decide, by decide,
    (C25_validate_frame sampleEnv sampleDb expiredKey (some 1000)).1⟩

/-- C26: the last-used update cannot change the authentication result. The account or
error that ValidateAPIKey returns is the same whether its goroutine runs (and succeeds or
fails) or never runs; the update is started only by a call that returns an account, that
is after the format check, the lookup of an active unexpired record and the check of its
active owner have passed; and a later validation of any key gives the same result after an
UpdateAPIKeyLastUsed call of any outcome as on the store without that call. -/
theorem C26_update_cannot_change_result (env : Env) (db : Db) (key : Bytes)
    (fate : Option Time) (now : Time) (keyID : Int) :
    (ValidateAPIKeyAndUpdate env db key fate).1 = (AuthService.ValidateAPIKey env db key).1 ∧
    ((AuthService.ValidateAPIKey env db key).2.2 ≠ [] →
      ∃ u, (AuthService.ValidateAPIKey env db key).1 = .ok u) ∧
    (∀ u, (AuthService.ValidateAPIKey env db key).1 = .ok u →
      ValidateAPIKeyFormat key = true ∧
      ∃ k ∈ db.apiKeys, k.KeyHash = HashAPIKey key ∧ k.IsActive = true ∧
        (∀ t, k.ExpiresAt = some t → ¬ t < env.now 0) ∧
        u ∈ db.users ∧ u.ID = k.UserID ∧ u.IsActive = true ∧
        (AuthService.ValidateAPIKey env db key).2.2 = [k.ID]) ∧
    (∀ other : Bytes,
      (AuthService.ValidateAPIKey env
          (UserRepository.UpdateAPIKeyLastUsed db now keyID).2 other).1 =
        (AuthService.ValidateAPIKey env { db with faults := db.faults.tail } other).1) := by
  refine ⟨?_, ?_, ?_, ?_⟩
  · unfold ValidateAPIKeyAndUpdate
    cases fate <;> rfl
  · intro hne
    cases hres : (AuthService.ValidateAPIKey env db key).1 with
    | error e => exact absurd (validateAPIKey_error_spawns_nothing env db key e hres) hne
    | ok u => exact ⟨u, rfl⟩
  · intro u hu
    exact validateAPIKey_ok_checks env db key u hu
  · intro other
    exact validateAPIKey_after_update env db other now keyID

/-- C26 at the sample store: validating key 1 returns alice with or without the update,
also when the driver fails the update, and a validation after the update returns alice
again. -/
theorem C26_update_cannot_change_result_witness :
    (AuthService.ValidateAPIKey sampleEnv sampleDb firstKey).1 = .ok alice ∧
    (AuthService.ValidateAPIKey sampleEnv sampleDb firstKey).2.2 = [1] ∧
    (ValidateAPIKeyAndUpdate sampleEnv { sampleDb with faults := [none, none, some "timeout"] }
        firstKey (some 1000)).1 = .ok alice ∧
    (AuthService.ValidateAPIKey sampleEnv
        (UserRepository.UpdateAPIKeyLastUsed sampleDb 1000 1).2 firstKey).1 = .ok alice ∧
    (ValidateAPIKeyAndUpdate sampleEnv sampleDb firstKey (some 1000)).1 =
      (AuthService.ValidateAPIKey sampleEnv sampleDb firstKey).1 :=
  ⟨by decide, by decide, by decide, by decide,
    (C26_update_cannot_change_result sampleEnv sampleDb firstKey (some 1000) 1000 1).1⟩

/-! ### Driver failures in the service calls -/

/-- Login when the driver fails its first call. -/
theorem login_first_call_fails (env : Env) (db : Db) (e : String) (rest : List (Option String))
    (req : LoginRequest) :
    (AuthService.Login env { db with faults := some e :: rest } req).1 =
      .error "invalid credentials" := by
  simp [AuthService.Login, UserRepository.GetUserByUsername, Db.interact, Db.record]

/-- ValidateAPIKey of a well-formed key when the driver fails the key lookup. -/
theorem validate_first_call_fails (env : Env) (db : Db) (e : String)
    (rest : List (Option String)) (key : Bytes) (hfmt : ValidateAPIKeyFormat key = true) :
    (AuthService.ValidateAPIKey env { db with faults := some e :: rest } key).1 =
      .error "invalid API key" := by
  rw [validateAPIKey_result]
  simp [hfmt]

/-- ValidateAPIKey when the driver answers the key lookup and fails the owner lookup. -/
theorem validate_second_call_fails (env : Env) (db : Db) (e : String)
    (rest : List (Option String)) (key : Bytes) (k : APIKey)
    (hfmt : ValidateAPIKeyFormat key = true)
    (hfind : db.apiKeys.find? (fun r => r.KeyHash == HashAPIKey key && r.IsActive) = some k)
    (hexp : ∀ t, k.ExpiresAt = some t → ¬ t < env.now 0) :
    (AuthService.ValidateAPIKey env { db with faults := none :: some e :: rest } key).1 =
      .error ("user not found: " ++ ("failed to get user: " ++ e)) := by
  rw [validateAPIKey_result]
  simp only [hfmt, hfind, Bool.not_true, Bool.false_eq_true, ↓reduceIte, List.head?_cons,
    Option.join, List.tail_cons]
  cases hE : k.ExpiresAt with
  | none => simp
  | some t => simp [hexp t hE]

/-- CreateAPIKey when the driver fails its first call. -/
theorem createAPIKey_first_call_fails (env : Env) (db : Db) (e : String)
    (rest : List (Option String)) (userID : Int) (req : CreateAPIKeyRequest) :
    (AuthService.CreateAPIKey env { db with faults := some e :: rest } userID req).1 =
      .error ("user not found: " ++ ("failed to get user: " ++ e)) := by
  simp [AuthService.CreateAPIKey, UserRepository.GetUserByID, Db.interact, Db.record]

/-- ListAPIKeys when the driver fails its first call. -/
theorem listAPIKeys_first_call_fails (db : Db) (e : String) (rest : List (Option String))
    (userID : Int) :
    (AuthService.ListAPIKeys { db with faults := some e :: rest } userID).1 =
      .error ("failed to list API keys: " ++ ("failed to list API keys: " ++ e)) := by
  simp [AuthService.ListAPIKeys, UserRepository.ListAPIKeysByUserID, Db.interact, Db.record]

/-- RevokeAPIKey when the driver fails its first call. -/
theorem revokeAPIKey_first_call_fails (db : Db) (e : String) (rest : List (Option String))
    (userID keyID : Int) :
    (AuthService.RevokeAPIKey { db with faults := some e :: rest } userID keyID).1 =
      .error ("failed to revoke API key: " ++ ("failed to revoke API key: " ++ e)) := by
  simp [AuthService.RevokeAPIKey, UserRepository.RevokeAPIKey, Db.interact, Db.record]

/-- Register when both lookups are answered with no row and the driver fails the insert. -/
theorem register_insert_fails (env : Env) (db : Db) (e : String) (rest : List (Option String))
    (req : CreateUserRequest) (h : String)
    (hname : db.users.find? (fun u => u.Username == req.Username) = none)
    (hmail : db.users.find? (fun u => u.Email == req.Email) = none)
    (hhash : env.HashPassword req.Password = .ok h) :
    (AuthService.Register env { db with faults := none :: none :: some e :: rest } req).1 =
        .error ("failed to create user: " ++ ("failed to create user: " ++ e)) ∧
    (AuthService.Register env { db with faults := none :: none :: some e :: rest } req).2.users =
        db.users := by
  simp [AuthService.Register, UserRepository.GetUserByUsername, UserRepository.GetUserByEmail,
    UserRepository.CreateUser, Db.interact, Db.record, hname, hmail, hhash]

/-- Login when the account lookup is answered and the driver fails the key insert. -/
theorem login_insert_fails (env : Env) (db : Db) (e : String) (rest : List (Option String))
    (req : LoginRequest) (u : User) (randomBytes : Bytes)
    (hfind : db.users.find? (fun x => x.Username == req.Username) = some u)
    (hact : u.IsActive = true) (hpw : env.VerifyPassword req.Password u.PasswordHash = .ok true)
    (hrand : env.randRead = .ok randomBytes) :
    (AuthService.Login env { db with faults := none :: some e :: rest } req).1 =
        .error ("failed to create API key: " ++ ("failed to create API key: " ++ e)) ∧
    (AuthService.Login env { db with faults := none :: some e :: rest } req).2.apiKeys =
        db.apiKeys := by
  simp [AuthService.Login, UserRepository.GetUserByUsername, UserRepository.CreateAPIKey,
    GenerateAPIKey, Db.interact, Db.record, hfind, hact, hpw, hrand]

/-- CreateAPIKey when the owner lookup is answered and the driver fails the key insert. -/
theorem createAPIKey_insert_fails (env : Env) (db : Db) (e : String)
    (rest : List (Option String)) (userID : Int) (req : CreateAPIKeyRequest) (u : User)
    (randomBytes : Bytes)
    (hfind : db.users.find? (fun x => x.ID == userID) = some u)
    (hrand : env.randRead = .ok randomBytes) :
    (AuthService.CreateAPIKey env { db with faults := none :: some e :: rest } userID req).1 =
        .error ("failed to create API key: " ++ ("failed to create API key: " ++ e)) ∧
    (AuthService.CreateAPIKey env { db with faults := none :: some e :: rest } userID req).2.apiKeys =
        db.apiKeys := by
  simp [AuthService.CreateAPIKey, UserRepository.GetUserByID, UserRepository.CreateAPIKey,
    GenerateAPIKey, Db.interact, Db.record, hfind, hrand]

/-- C21, a storage failure reported as an authentication outcome: with the driver failing
the next call ("connection refused"), Login with the right password of alice answers
"invalid credentials", the answer a wrong password gets from the store that works, and
ValidateAPIKey of the valid key 1 answers "invalid API key", the answer an unknown key gets
from the store that works. -/
theorem C21_storage_failure_reported_as_auth_outcome :
    (AuthService.Login sampleEnv { sampleDb with faults := [some "connection refused"] }
        { Username := "alice", Password := "Sup3rSecret!" }).1 = .error "invalid credentials" ∧
    (AuthService.Login sampleEnv sampleDb { Username := "alice", Password := "guess" }).1 =
      .error "invalid credentials" ∧
    (AuthService.Login sampleEnv sampleDb { Username := "alice", Password := "Sup3rSecret!" }).1 =
      .ok { User := alice, APIKey := sampleKey, KeyID := 4,
            Message := "Authentication successful" } ∧
    (AuthService.ValidateAPIKey sampleEnv { sampleDb with faults := [some "connection refused"] }
        firstKey).1 = .error "invalid API key" ∧
    (AuthService.ValidateAPIKey sampleEnv sampleDb sampleKey).1 = .error "invalid API key" ∧
    (AuthService.ValidateAPIKey sampleEnv sampleDb firstKey).1 = .ok alice := by
  refine ⟨by decide, by decide, by decide, by decide, by decide, by decide⟩

/-- C21, as the code has it: the service has no StoreUnavailable error, and what a driver
failure e of a store call becomes depends on the call. A failed account lookup of Login is
answered "invalid credentials" and a failed key lookup of ValidateAPIKey "invalid API key";
a failed owner lookup of ValidateAPIKey or CreateAPIKey is answered
"user not found: failed to get user: e"; a failed key insert of Login or CreateAPIKey
"failed to create API key: failed to create API key: e"; a failed query of ListAPIKeys
"failed to list API keys: failed to list API keys: e"; a failed update of RevokeAPIKey
"failed to revoke API key: failed to revoke API key: e"; and a failed insert of Register,
after two lookups that found no row, "failed to create user: failed to create user: e",
with no account inserted. -/
theorem C21_storage_failure_reports (env : Env) (db : Db) (e : String)
    (rest : List (Option String)) :
    (∀ req, (AuthService.Login env { db with faults := some e :: rest } req).1 =
      .error "invalid credentials") ∧
    (∀ key, ValidateAPIKeyFormat key = true →
      (AuthService.ValidateAPIKey env { db with faults := some e :: rest } key).1 =
        .error "invalid API key") ∧
    (∀ key k, ValidateAPIKeyFormat key = true →
      db.apiKeys.find? (fun r => r.KeyHash == HashAPIKey key && r.IsActive) = some k →
      (∀ t, k.ExpiresAt = some t → ¬ t < env.now 0) →
      (AuthService.ValidateAPIKey env { db with faults := none :: some e :: rest } key).1 =
        .error ("user not found: " ++ ("failed to get user: " ++ e))) ∧
    (∀ userID req, (AuthService.CreateAPIKey env { db with faults := some e :: rest } userID req).1 =
      .error ("user not found: " ++ ("failed to get user: " ++ e))) ∧
    (∀ req u randomBytes, db.users.find? (fun x => x.Username == req.Username) = some u →
      u.IsActive = true → env.VerifyPassword req.Password u.PasswordHash = .ok true →
      env.randRead = .ok randomBytes →
      (AuthService.Login env { db with faults := none :: some e :: rest } req).1 =
        .error ("failed to create API key: " ++ ("failed to create API key: " ++ e))) ∧
    (∀ userID req u randomBytes, db.users.find? (fun x => x.ID == userID) = some u →
      env.randRead = .ok randomBytes →
      (AuthService.CreateAPIKey env { db with faults := none :: some e :: rest } userID req).1 =
        .error ("failed to create API key: " ++ ("failed to create API key: " ++ e))) ∧
    (∀ userID, (AuthService.ListAPIKeys { db with faults := some e :: rest } userID).1 =
      .error ("failed to list API keys: " ++ ("failed to list API keys: " ++ e))) ∧
    (∀ userID keyID, (AuthService.RevokeAPIKey { db with faults := some e :: rest } userID keyID).1 =
      .error ("failed to revoke API key: " ++ ("failed to revoke API key: " ++ e))) ∧
    (∀ req h, db.users.find? (fun u => u.Username == req.Username) = none →
      db.users.find? (fun u => u.Email == req.Email) = none →
      env.HashPassword req.Password = .ok h →
      (AuthService.Register env { db with faults := none :: none :: some e :: rest } req).1 =
          .error ("failed to create user: " ++ ("failed to create user: " ++ e)) ∧
      (AuthService.Register env { db with faults := none :: none :: some e :: rest } req).2.users =
          db.users) :=
  ⟨fun req => login_first_call_fails env db e rest req,
    fun key hfmt => validate_first_call_fails env db e rest key hfmt,
    fun key k hfmt hfind hexp => validate_second_call_fails env db e rest key k hfmt hfind hexp,
    fun userID req => createAPIKey_first_call_fails env db e rest userID req,
    fun req u rb hfind hact hpw hrand => (login_insert_fails env db e rest req u rb hfind hact hpw hrand).1,
    fun userID req u rb hfind hrand => (createAPIKey_insert_fails env db e rest userID req u rb hfind hrand).1,
    fun userID => listAPIKeys_first_call_fails db e rest userID,
    fun userID keyID => revokeAPIKey_first_call_fails db e rest userID keyID,
    fun req h hname hmail hhash => register_insert_fails env db e rest req h hname hmail hhash⟩

/-- C21 at the sample store with the driver error "connection refused": the valid key 1
meets a failed key lookup and a failed owner lookup, the account carol a failed insert, and
alice a failed key insert at Login. -/
theorem C21_storage_failure_reports_witness :
    ValidateAPIKeyFormat firstKey = true ∧
    (AuthService.ValidateAPIKey sampleEnv { sampleDb with faults := [some "connection refused"] }
        firstKey).1 = .error "invalid API key" ∧
    (AuthService.ValidateAPIKey sampleEnv
        { sampleDb with faults := [none, some "connection refused"] } firstKey).1 =
      .error ("user not found: " ++ ("failed to get user: " ++ "connection refused")) ∧
    (AuthService.Login sampleEnv { sampleDb with faults := [none, some "connection refused"] }
        { Username := "alice", Password := "Sup3rSecret!" }).1 =
      .error ("failed to create API key: " ++ ("failed to create API key: " ++ "connection refused")) ∧
    ((AuthService.Register sampleEnv
        { sampleDb with faults := [none, none, some "connection refused"] }
        { Username := "carol", Email := "c@x.com", Password := "Tr0ub4dor&3" }).1 =
          .error ("failed to create user: " ++ ("failed to create user: " ++ "connection refused")) ∧
      (AuthService.Register sampleEnv
        { sampleDb with faults := [none, none, some "connection refused"] }
        { Username := "carol", Email := "c@x.com", Password := "Tr0ub4dor&3" }).2.users =
          sampleDb.users) :=
  ⟨by decide,
    (C21_storage_failure_reports sampleEnv sampleDb "connection refused" []).2.1 firstKey
      (by decide),
    (C21_storage_failure_reports sampleEnv sampleDb "connection refused" []).2.2.1 firstKey
      { ID := 1, UserID := 1, Name := "Login 2024-12-01 08:00:00", KeyHash := HashAPIKey firstKey,
        KeyPrefix := extractPrefix firstKey, LastUsedAt := some 40, ExpiresAt := none,
        IsActive := true, CreatedAt := 20 }
      (by decide) (by decide) (by decide),
    (C21_storage_failure_reports sampleEnv sampleDb "connection refused" []).2.2.2.2.1
      { Username := "alice", Password := "Sup3rSecret!" } alice (List.range 32)
      (by decide) (by decide) (by decide) rfl,
    (C21_storage_failure_reports sampleEnv sampleDb "connection refused" []).2.2.2.2.2.2.2.2
      { Username := "carol", Email := "c@x.com", Password := "Tr0ub4dor&3" }
      "$argon2id$Tr0ub4dor&3" (by decide) (by decide) (by decide)⟩

/-! ### Register and the uniqueness of handle and contact address -/

/-- A store that answers its calls still does after Register. -/
theorem register_stays_healthy (env : Env) (db : Db) (req : CreateUserRequest)
    (hhealthy : db.Healthy) : (AuthService.Register env db req).2.Healthy := by
  rw [register_healthy env db req hhealthy]
  cases db.users.find? (fun u => u.Username == req.Username) with
  | some a => exact hhealthy
  | none =>
    simp only
    cases db.users.find? (fun u => u.Email == req.Email) with
    | some a => exact hhealthy
    | none =>
      simp only
      cases env.HashPassword req.Password with
      | error e => exact hhealthy
      | ok h => exact hhealthy

/-- On a store that answers its calls Register keeps handles and contact addresses
pairwise distinct. -/
theorem register_keeps_unique (env : Env) (db : Db) (req : CreateUserRequest)
    (hhealthy : db.Healthy)
    (hname : (db.users.map (fun u => u.Username)).Nodup)
    (hmail : (db.users.map (fun u => u.Email)).Nodup) :
    ((AuthService.Register env db req).2.users.map (fun u => u.Username)).Nodup ∧
    ((AuthService.Register env db req).2.users.map (fun u => u.Email)).Nodup := by
  rw [register_healthy env db req hhealthy]
  cases hf : db.users.find? (fun u => u.Username == req.Username) with
  | some a => exact ⟨hname, hmail⟩
  | none =>
    simp only
    cases hg : db.users.find? (fun u => u.Email == req.Email) with
    | some a => exact ⟨hname, hmail⟩
    | none =>
      simp only
      cases env.HashPassword req.Password with
      | error e => exact ⟨hname, hmail⟩
      | ok h =>
        simp only [List.map_append, List.map_cons, List.map_nil]
        rw [List.find?_eq_none] at hf hg
        constructor
        · rw [List.nodup_append]
          refine ⟨hname, List.nodup_singleton _, ?_⟩
          intro a ha hb
          rw [List.mem_singleton] at hb
          obtain ⟨u, hu, rfl⟩ := List.mem_map.1 ha
          exact hf u hu (by simpa using hb)
        · rw [List.nodup_append]
          refine ⟨hmail, List.nodup_singleton _, ?_⟩
          intro a ha hb
          rw [List.mem_singleton] at hb
          obtain ⟨u, hu, rfl⟩ := List.mem_map.1 ha
          exact hg u hu (by simpa using hb)

/-- On a store that answers its calls any sequence of Register calls keeps handles and
contact addresses pairwise distinct. -/
theorem registers_keep_unique (calls : List (Env × CreateUserRequest)) (db : Db)
    (hhealthy : db.Healthy)
    (hname : (db.users.map (fun u => u.Username)).Nodup)
    (hmail : (db.users.map (fun u => u.Email)).Nodup) :
    (((calls.foldl (fun db c => (AuthService.Register c.1 db c.2).2) db).users.map
        (fun u => u.Username)).Nodup) ∧
    (((calls.foldl (fun db c => (AuthService.Register c.1 db c.2).2) db).users.map
        (fun u => u.Email)).Nodup) := by
  induction calls generalizing db with
  | nil => exact ⟨hname, hmail⟩
  | cons c calls ih =>
    simp only [List.foldl_cons]
    have h := register_keeps_unique c.1 db c.2 hhealthy hname hmail
    exact ih _ (register_stays_healthy c.1 db c.2 hhealthy) h.1 h.2

/-- The bytes of a decoded quantum are bytes. -/
theorem quantumBytes_lt (q : List Nat) (bs : Bytes) (h : quantumBytes q = some bs) :
    ∀ b ∈ bs, b < 256 := by
  unfold quantumBytes at h
  split at h
  · cases h; simp
  · cases h
    intro b hb
    simp only [List.mem_singleton] at hb
    subst hb
    exact Nat.mod_lt _ (by decide)
  · cases h
    intro b hb
    simp only [List.mem_cons, List.mem_singleton, List.not_mem_nil, or_false] at hb
    rcases hb with rfl | rfl <;> exact Nat.mod_lt _ (by decide)
  · cases h
    intro b hb
    simp only [List.mem_cons, List.mem_singleton, List.not_mem_nil, or_false] at hb
    rcases hb with rfl | rfl | rfl <;> exact Nat.mod_lt _ (by decide)
  · cases h

/-- The decoder returns bytes. -/
theorem decodeFrom_lt (alphabet : Bytes) (src : Bytes) (dbuf : List Nat) (bs : Bytes)
    (h : decodeFrom alphabet src dbuf = some bs) : ∀ b ∈ bs, b < 256 := by
  induction src generalizing dbuf bs with
  | nil =>
    unfold decodeFrom at h
    exact quantumBytes_lt dbuf bs h
  | cons c src ih =>
    unfold decodeFrom at h
    split at h
    · split at h
      · split at h
        · rename_i q r hq hr
          cases h
          intro b hb
          rcases List.mem_append.1 hb with hb | hb
          · exact quantumBytes_lt _ q hq b hb
          · exact ih [] r hr b hb
        · cases h
      · exact ih _ bs h
    · split at h
      · exact ih _ bs h
      · cases h

/-- Every accepted candidate has a canonical form that is accepted as well. -/
theorem validateFormat_canonical (c : Bytes) (h : ValidateAPIKeyFormat c = true) :
    ∃ rest decoded, c = apiKeyPrefix ++ rest ∧
      decodeString encodeURL rest = some decoded ∧ decoded.length = 32 ∧
      (∀ b ∈ decoded, b < 256) ∧
      ValidateAPIKeyFormat (apiKeyPrefix ++ encodeToString encodeURL decoded) = true ∧
      (apiKeyPrefix ++ encodeToString encodeURL decoded).length = 47 ∧
      decodeString encodeURL (encodeToString encodeURL decoded) = some decoded := by
  obtain ⟨rest, decoded, hc, hdec, hlen⟩ := (validateFormat_iff c).1 h
  have hlt : ∀ b ∈ decoded, b < 256 := decodeFrom_lt encodeURL rest [] decoded hdec
  exact ⟨rest, decoded, hc, hdec, hlen, hlt, validateFormat_generated decoded hlen hlt,
    generated_key_length decoded hlen, decodeString_encodeToString decoded hlt⟩

/-- C27, accepted keys that are not in the canonical form: the key of the bytes 0 to 31
with its last character 8 replaced by 9 (other unused low bits), and the same key with a
new line after the prefix (48 characters, one outside the alphabet), are both accepted by
ValidateAPIKeyFormat, differ from the canonical key and decode to the same 32 bytes. -/
theorem C27_noncanonical_keys_accepted :
    sampleKey = ascii "rct_AAECAwQFBgcICQoLDA0ODxAREhMUFRYXGBkaGxwdHh8" ∧
    ValidateAPIKeyFormat sampleKey = true ∧
    ValidateAPIKeyFormat (ascii "rct_AAECAwQFBgcICQoLDA0ODxAREhMUFRYXGBkaGxwdHh9") = true ∧
    ascii "rct_AAECAwQFBgcICQoLDA0ODxAREhMUFRYXGBkaGxwdHh9" ≠ sampleKey ∧
    decodeString encodeURL (ascii "AAECAwQFBgcICQoLDA0ODxAREhMUFRYXGBkaGxwdHh9") =
      some (List.range 32) ∧
    decodeString encodeURL (ascii "AAECAwQFBgcICQoLDA0ODxAREhMUFRYXGBkaGxwdHh8") =
      some (List.range 32) ∧
    ValidateAPIKeyFormat (ascii "rct_\nAAECAwQFBgcICQoLDA0ODxAREhMUFRYXGBkaGxwdHh8") = true ∧
    (ascii "rct_\nAAECAwQFBgcICQoLDA0ODxAREhMUFRYXGBkaGxwdHh8").length = 48 ∧
    decodeString encodeURL (ascii "\nAAECAwQFBgcICQoLDA0ODxAREhMUFRYXGBkaGxwdHh8") =
      some (List.range 32) := by
  refine ⟨by decide, by decide, by decide, by decide, by decide, by decide, by decide,
    by decide, by decide⟩

/-- C27, as the code has it: every candidate c that ValidateAPIKeyFormat accepts is the
prefix rct_ followed by a remainder that the unpadded URL-safe decoder turns into exactly 32
bytes; the canonical key of these bytes, rct_ followed by their encoding, is accepted too,
has 47 characters and decodes to the same bytes. The candidate itself need not be that
canonical key. -/
theorem C27_accepted_key_has_canonical_form (c : Bytes) (h : ValidateAPIKeyFormat c = true) :
    ∃ rest decoded, c = apiKeyPrefix ++ rest ∧
      decodeString encodeURL rest = some decoded ∧ decoded.length = 32 ∧
      (∀ b ∈ decoded, b < 256) ∧
      ValidateAPIKeyFormat (apiKeyPrefix ++ encodeToString encodeURL decoded) = true ∧
      (apiKeyPrefix ++ encodeToString encodeURL decoded).length = 47 ∧
      decodeString encodeURL (encodeToString encodeURL decoded) = some decoded :=
  validateFormat_canonical c h

/-- C27 at the key that ends in 9 instead of 8: it is accepted and has a canonical form. -/
theorem C27_accepted_key_has_canonical_form_witness :
    ValidateAPIKeyFormat (ascii "rct_AAECAwQFBgcICQoLDA0ODxAREhMUFRYXGBkaGxwdHh9") = true ∧
    ∃ rest decoded,
      ascii "rct_AAECAwQFBgcICQoLDA0ODxAREhMUFRYXGBkaGxwdHh9" = apiKeyPrefix ++ rest ∧
      decodeString encodeURL rest = some decoded ∧ decoded.length = 32 ∧
      (∀ b ∈ decoded, b < 256) ∧
      ValidateAPIKeyFormat (apiKeyPrefix ++ encodeToString encodeURL decoded) = true ∧
      (apiKeyPrefix ++ encodeToString encodeURL decoded).length = 47 ∧
      decodeString encodeURL (encodeToString encodeURL decoded) = some decoded :=
  ⟨by decide,
    C27_accepted_key_has_canonical_form
      (ascii "rct_AAECAwQFBgcICQoLDA0ODxAREhMUFRYXGBkaGxwdHh9") (by decide)⟩

/-! ### The password hasher -/

/-- A field without dollar sign in front of a dollar sign is split off. -/
theorem splitDollar_field (field rest : Bytes) (h : 36 ∉ field) :
    splitDollar (field ++ 36 :: rest) = field :: splitDollar rest := by
  induction field with
  | nil => simp [splitDollar]
  | cons c field ih =>
    have hc : c ≠ 36 := fun hc => h (by simp [hc])
    have hf : 36 ∉ field := fun hf => h (by simp [hf])
    rw [List.cons_append, splitDollar, if_neg hc, ih hf]

/-- A text without dollar sign is one field. -/
theorem splitDollar_last (field : Bytes) (h : 36 ∉ field) : splitDollar field = [field] := by
  induction field with
  | nil => simp [splitDollar]
  | cons c field ih =>
    have hc : c ≠ 36 := fun hc => h (by simp [hc])
    have hf : 36 ∉ field := fun hf => h (by simp [hf])
    rw [splitDollar, if_neg hc, ih hf]

theorem encChar_Std_ne_dollar : ∀ v < 64, encChar encodeStd v ≠ 36 := by
  decide

/-- The standard base64 text of any bytes has no dollar sign. -/
theorem encodeToString_Std_no_dollar (bs : Bytes) : 36 ∉ encodeToString encodeStd bs := by
  induction bs using encodeToString.induct encodeStd with
  | case1 a b c rest ih =>
    simp only [encodeToString, List.mem_cons, not_or]
    exact ⟨(encChar_Std_ne_dollar _ (Nat.mod_lt _ (by decide))).symm,
      (encChar_Std_ne_dollar _ (Nat.mod_lt _ (by decide))).symm,
      (encChar_Std_ne_dollar _ (Nat.mod_lt _ (by decide))).symm,
      (encChar_Std_ne_dollar _ (Nat.mod_lt _ (by decide))).symm, ih⟩
  | case2 a b =>
    simp only [encodeToString, List.mem_cons, List.not_mem_nil, or_false, not_or]
    exact ⟨(encChar_Std_ne_dollar _ (Nat.mod_lt _ (by decide))).symm,
      (encChar_Std_ne_dollar _ (Nat.mod_lt _ (by decide))).symm,
      (encChar_Std_ne_dollar _ (Nat.mod_lt _ (by decide))).symm⟩
  | case3 a =>
    simp only [encodeToString, List.mem_cons, List.not_mem_nil, or_false, not_or]
    exact ⟨(encChar_Std_ne_dollar _ (Nat.mod_lt _ (by decide))).symm,
      (encChar_Std_ne_dollar _ (Nat.mod_lt _ (by decide))).symm⟩
  | case4 => simp [encodeToString]

/-- The fields of a record built from parameters, salt text and digest text without dollar
sign. -/
theorem splitDollar_record (params salt64 digest64 : Bytes) (hp : 36 ∉ params)
    (hs : 36 ∉ salt64) (hd : 36 ∉ digest64) :
    splitDollar (ascii "$argon2id$" ++ params ++ ascii "$" ++ salt64 ++ ascii "$" ++ digest64) =
      [[], ascii "argon2id", params, salt64, digest64] := by
  have e : ascii "$argon2id$" ++ params ++ ascii "$" ++ salt64 ++ ascii "$" ++ digest64 =
      [] ++ 36 :: (ascii "argon2id" ++ 36 :: (params ++ 36 :: (salt64 ++ 36 :: digest64))) := by
    have e1 : ascii "$argon2id$" = 36 :: (ascii "argon2id" ++ [36]) := by decide
    have e2 : ascii "$" = [36] := by decide
    rw [e1, e2]
    simp
  rw [e, splitDollar_field [] _ (by simp), splitDollar_field (ascii "argon2id") _ (by decide),
    splitDollar_field params _ hp, splitDollar_field salt64 _ hs, splitDollar_last digest64 hd]

/-- The parse of the record that HashPassword builds. -/
theorem parseHashRecord_built (params salt digest : Bytes) (hp : 36 ∉ params)
    (hs : ∀ b ∈ salt, b < 256) (hd : ∀ b ∈ digest, b < 256) :
    parseHashRecord (ascii "$argon2id$" ++ params ++ ascii "$" ++ encodeToString encodeStd salt ++
        ascii "$" ++ encodeToString encodeStd digest) = some (params, salt, digest) := by
  unfold parseHashRecord
  rw [splitDollar_record params _ _ hp (encodeToString_Std_no_dollar salt)
    (encodeToString_Std_no_dollar digest)]
  simp only [true_and, ↓reduceIte, decodeString_encodeToString_Std salt hs,
    decodeString_encodeToString_Std digest hd]

/-- HashPassword of a password within the maximum length. -/
theorem hashPassword_ok (h : PasswordHasher) (salt password : Bytes)
    (hlen : password.length ≤ h.maxLen) :
    HashPassword h salt password =
      .ok (ascii "$argon2id$" ++ h.params ++ ascii "$" ++ encodeToString encodeStd salt ++
        ascii "$" ++ encodeToString encodeStd (h.derive h.params salt password)) := by
  unfold HashPassword
  rw [if_neg (by omega)]

/-- VerifyPassword of any password against the record HashPassword builds for a password
p: whether the two digests under the embedded parameters and salt agree. -/
theorem verifyPassword_built (h : PasswordHasher) (salt p candidate : Bytes)
    (hp : 36 ∉ h.params) (hs : ∀ b ∈ salt, b < 256)
    (hd : ∀ params s pw, ∀ b ∈ h.derive params s pw, b < 256) :
    VerifyPassword h candidate
        (ascii "$argon2id$" ++ h.params ++ ascii "$" ++ encodeToString encodeStd salt ++
          ascii "$" ++ encodeToString encodeStd (h.derive h.params salt p)) =
      .ok (h.derive h.params salt candidate == h.derive h.params salt p) := by
  unfold VerifyPassword
  rw [parseHashRecord_built h.params salt _ hp hs (hd _ _ _)]

theorem parseHashRecord_invalid : parseHashRecord (ascii "invalid$hash") = none := by
  decide

/-- C24: VerifyPassword returns an error exactly when the record does not parse as a
self-describing hash, and the error is then MalformedHashRecord; the record "invalid$hash"
is such a record; for a record that parses the answer is the comparison of the digests with
no error, so against the record that HashPassword built for p a password with another
digest gets false with no error. -/
theorem C24_verify_error_iff_malformed (h : PasswordHasher) (password record : Bytes) :
    ((∃ e, VerifyPassword h password record = .error e) ↔ parseHashRecord record = none) ∧
    (parseHashRecord record = none →
      VerifyPassword h password record = .error "MalformedHashRecord") ∧
    (∀ params salt digest, parseHashRecord record = some (params, salt, digest) →
      VerifyPassword h password record = .ok (h.derive params salt password == digest)) ∧
    VerifyPassword h password (ascii "invalid$hash") = .error "MalformedHashRecord" ∧
    (∀ salt p, p.length ≤ h.maxLen → 36 ∉ h.params → (∀ b ∈ salt, b < 256) →
      (∀ params s pw, ∀ b ∈ h.derive params s pw, b < 256) →
      h.derive h.params salt password ≠ h.derive h.params salt p →
      ∃ r, HashPassword h salt p = .ok r ∧ VerifyPassword h password r = .ok false) := by
  refine ⟨?_, ?_, ?_, ?_, ?_⟩
  · unfold VerifyPassword
    cases hparse : parseHashRecord record with
    | none => simp
    | some t => simp
  · intro hparse
    unfold VerifyPassword
    rw [hparse]
  · intro params salt digest hparse
    unfold VerifyPassword
    rw [hparse]
  · unfold VerifyPassword
    rw [parseHashRecord_invalid]
  · intro salt p hlen hparams hs hderive hne
    refine ⟨_, hashPassword_ok h salt p hlen, ?_⟩
    rw [verifyPassword_built h salt p password hparams hs hderive]
    simp only [Except.ok.injEq, beq_eq_false_iff_ne, ne_eq]
    exact hne

/-- C24 at the sample hasher and the cases of the test: against the record of the password
mySecureP@ssw0rd the password wrongPassword and the empty password get false with no
error, the password itself gets true, and the record "invalid$hash" gets an error. -/
theorem C24_verify_error_iff_malformed_witness :
    (∃ r, HashPassword sampleHasher (List.range 16) (ascii "mySecureP@ssw0rd") = .ok r ∧
      VerifyPassword sampleHasher (ascii "wrongPassword") r = .ok false) ∧
    (∃ r, HashPassword sampleHasher (List.range 16) (ascii "mySecureP@ssw0rd") = .ok r ∧
      VerifyPassword sampleHasher (ascii "") r = .ok false) ∧
    VerifyPassword sampleHasher (ascii "mySecureP@ssw0rd") (ascii "invalid$hash") =
      .error "MalformedHashRecord" :=
  ⟨(C24_verify_error_iff_malformed sampleHasher (ascii "wrongPassword") []).2.2.2.2
      (List.range 16) (ascii "mySecureP@ssw0rd") (by decide) (by decide) (by decide)
      (fun params s pw => sha256_bytes (params ++ s ++ pw)) (by decide),
    (C24_verify_error_iff_malformed sampleHasher (ascii "") []).2.2.2.2
      (List.range 16) (ascii "mySecureP@ssw0rd") (by decide) (by decide) (by decide)
      (fun params s pw => sha256_bytes (params ++ s ++ pw)) (by decide),
    (C24_verify_error_iff_malformed sampleHasher (ascii "mySecureP@ssw0rd") []).2.2.2.1⟩

end Recontronic
